import Mathlib

/-!
amiral-batti: grid, placement and session state machine.

A shallow embedding of `src/GameLogic.cc` (with the constants and enums of
`src/GameState.h`) and the properties of its specification.

Conventions of the embedding:
* `int` values are `Int`. No arithmetic of the embedded code can overflow:
  coordinates that pass a bounds check are below 10, and the loops over a
  ship stop at the first cell outside the grid.
* the two hit counters are `Nat`; they only ever grow by one per message.
* a `Grid` is `std::array<CellState, 100>`, a total function on `Fin 100`.
* a packet is the list of its bytes; the packed message structs are laid out
  byte by byte, 16-bit fields little-endian.
-/

namespace AmiralBatti

/-! ## Constants and enums (GameState.h, GameLogic.cc) -/

/-- `constexpr int kGridCols = 10;` -/
def kGridCols : Int := 10

/-- `constexpr int kGridRows = 10;` -/
def kGridRows : Int := 10

/-- `constexpr int kCellCount = kGridCols * kGridRows;` -/
def kCellCount : Nat := 100

/-- One byte of a packet. -/
abbrev Byte := Fin 256

/-- `enum class CellState : std::uint8_t { Empty = 0, Ship, Hit, Miss }`.
The enum has a fixed underlying type, and the receive code casts raw packet
bytes to it, so a cell can hold any of the 256 byte values. -/
structure CellState where
  raw : Byte
deriving DecidableEq

/-- `CellState::Empty` is 0. -/
def CellState.Empty : CellState := ⟨0⟩

/-- `CellState::Ship` is 1. -/
def CellState.Ship : CellState := ⟨1⟩

/-- `CellState::Hit` is 2. -/
def CellState.Hit : CellState := ⟨2⟩

/-- `CellState::Miss` is 3. -/
def CellState.Miss : CellState := ⟨3⟩

/-- `enum class Phase { Preparing, Transition, Battle, Finished }` -/
inductive Phase where
  | Preparing
  | Transition
  | Battle
  | Finished
deriving DecidableEq, Repr

/-- `enum class Turn { None, Server, Client }` -/
inductive Turn where
  | None
  | Server
  | Client
deriving DecidableEq, Repr

/-- `enum class GameResult { None, Victory, Defeat }` -/
inductive GameResult where
  | None
  | Victory
  | Defeat
deriving DecidableEq, Repr

/-- `using Grid = std::array<CellState, kCellCount>;` -/
abbrev Grid := Fin 100 → CellState

/-- `struct Ship { int length; bool isHorizontal; }` -/
structure Ship where
  length : Int
  isHorizontal : Bool
deriving DecidableEq, Repr

/-! ## Grid model -/

/-- `int CellIndex(int x, int y) { return y * kGridCols + x; }` -/
def CellIndex (x y : Int) : Int := y * kGridCols + x

/-- The read `grid[i]` for an `int` index. Every read of the embedded code is
guarded by a bounds check, so the index is in range wherever this is called;
the fallback value is never observed. -/
def gridGet (grid : Grid) (i : Int) : CellState :=
  if h : 0 ≤ i ∧ i < 100 then grid ⟨i.toNat, by omega⟩ else CellState.Empty

/-- The write `grid[i] = v` for an `int` index (in range wherever the embedded
code performs it). -/
def gridSet (grid : Grid) (i : Int) (v : CellState) : Grid :=
  if h : 0 ≤ i ∧ i < 100 then Function.update grid ⟨i.toNat, by omega⟩ v else grid

/-- `ResetGrid(grid, state)`: `std::fill` over the whole array. -/
def ResetGrid (_grid : Grid) (state : CellState) : Grid := fun _ => state

/-! ## Fleet and placement validator -/

/-- The `for` loop of `CanPlaceShip`, with the number of iterations left and
the loop counter `i`. -/
def CanPlaceShip.loop (grid : Grid) (x y : Int) (isHorizontal : Bool) : Nat → Int → Bool
  | 0, _ => true
  | n + 1, i =>
    let cx := x + (if isHorizontal then i else 0)
    let cy := y + (if isHorizontal then 0 else i)
    if cx < 0 ∨ cx ≥ kGridCols ∨ cy < 0 ∨ cy ≥ kGridRows then false
    else if gridGet grid (CellIndex cx cy) = CellState.Ship then false
    else CanPlaceShip.loop grid x y isHorizontal n (i + 1)

/-- `bool CanPlaceShip(const Grid &grid, int x, int y, int length, bool isHorizontal)`:
the loop `for (int i = 0; i < length; ++i)` runs `max length 0` times. -/
def CanPlaceShip (grid : Grid) (x y length : Int) (isHorizontal : Bool) : Bool :=
  CanPlaceShip.loop grid x y isHorizontal length.toNat 0

/-- The `for` loop of `ApplyFill`, writing `Ship` cell by cell. -/
def ApplyFill.loop (x y : Int) (isHorizontal : Bool) : Nat → Int → Grid → Grid
  | 0, _, grid => grid
  | n + 1, i, grid =>
    let cx := x + (if isHorizontal then i else 0)
    let cy := y + (if isHorizontal then 0 else i)
    ApplyFill.loop x y isHorizontal n (i + 1) (gridSet grid (CellIndex cx cy) CellState.Ship)

/-- `bool ApplyFill(Grid &grid, int x, int y, int length, bool isHorizontal)`:
the returned pair is the result and the grid after the call. -/
def ApplyFill (grid : Grid) (x y length : Int) (isHorizontal : Bool) : Bool × Grid :=
  if !CanPlaceShip grid x y length isHorizontal then (false, grid)
  else (true, ApplyFill.loop x y isHorizontal length.toNat 0 grid)

/-- `std::vector<Ship> CreateFleet()` -/
def CreateFleet : List Ship :=
  [⟨4, true⟩, ⟨3, true⟩, ⟨3, true⟩, ⟨2, true⟩, ⟨2, true⟩,
   ⟨2, true⟩, ⟨1, true⟩, ⟨1, true⟩, ⟨1, true⟩, ⟨1, true⟩]

/-- The `for` loop of `RecordShipCells`; `push_back` appends the index cast to
`std::uint8_t`. -/
def RecordShipCells.loop (x y : Int) (isHorizontal : Bool) : Nat → Int → List Nat → List Nat
  | 0, _, locations => locations
  | n + 1, i, locations =>
    let cx := x + (if isHorizontal then i else 0)
    let cy := y + (if isHorizontal then 0 else i)
    RecordShipCells.loop x y isHorizontal n (i + 1)
      (locations ++ [(CellIndex cx cy % 256).toNat])

/-- `void RecordShipCells(std::vector<std::uint8_t> &locations, int x, int y, const Ship &ship)` -/
def RecordShipCells (locations : List Nat) (x y : Int) (ship : Ship) : List Nat :=
  RecordShipCells.loop x y ship.isHorizontal ship.length.toNat 0 locations

/-- The x coordinate of the `i`-th cell of a placement at `(x, y)`. -/
def shipCellX (x : Int) (isHorizontal : Bool) (i : Int) : Int :=
  if isHorizontal then x + i else x

/-- The y coordinate of the `i`-th cell of a placement at `(x, y)`. -/
def shipCellY (y : Int) (isHorizontal : Bool) (i : Int) : Int :=
  if isHorizontal then y else y + i

/-- Cell `(cx, cy)` lies inside the 10x10 grid. -/
def InsideGrid (cx cy : Int) : Prop := 0 ≤ cx ∧ cx < 10 ∧ 0 ≤ cy ∧ cy < 10

instance (cx cy : Int) : Decidable (InsideGrid cx cy) := by
  unfold InsideGrid; infer_instance

/-- Cell `k` of the array is the cell at coordinates `(cx, cy)`. -/
def IsCell (k : Fin 100) (cx cy : Int) : Prop := (k.val : Int) = cy * 10 + cx

instance (k : Fin 100) (cx cy : Int) : Decidable (IsCell k cx cy) := by
  unfold IsCell; infer_instance

/-- Cell `k` is one of the `length` cells of the placement at `(x, y)`. -/
def InPlacement (k : Fin 100) (x y length : Int) (isHorizontal : Bool) : Prop :=
  ∃ i : Int, 0 ≤ i ∧ i < length ∧
    IsCell k (shipCellX x isHorizontal i) (shipCellY y isHorizontal i)

/-- Cell `(cx, cy)` can take a ship cell: it is inside the grid and does not
hold `Ship`. -/
def CellFree (grid : Grid) (cx cy : Int) : Prop :=
  InsideGrid cx cy ∧ ∀ k : Fin 100, IsCell k cx cy → grid k ≠ CellState.Ship

/-- The array cell of coordinates `(cx, cy)`; for coordinates inside the grid
this is the cell with index `cy * 10 + cx`. -/
def cellFin (cx cy : Int) : Fin 100 := ⟨((cy * 10 + cx) % 100).toNat, by omega⟩

/-- The cells whose value differs between two grids. -/
def changedCells (before after : Grid) : Finset (Fin 100) :=
  Finset.univ.filter (fun k => after k ≠ before k)

/-- The grid with every cell `Empty` (a value-initialised `Grid{}`). -/
def emptyGrid : Grid := fun _ => CellState.Empty

/-! ## Message protocol -/

/-- `MessageType::CellRequest = 1` -/
def MessageType.CellRequest : Byte := 1

/-- `MessageType::CellUpdate = 2` -/
def MessageType.CellUpdate : Byte := 2

/-- `MessageType::GridSnapshot = 3` -/
def MessageType.GridSnapshot : Byte := 3

/-- `MessageType::FinishedPreparing = 4` -/
def MessageType.FinishedPreparing : Byte := 4

/-- `MessageType::TurnUpdate = 5` -/
def MessageType.TurnUpdate : Byte := 5

/-- `sizeof(CellRequestMessage)`: packed `uint8, uint16, uint16`. -/
def sizeofCellRequestMessage : Nat := 5

/-- `sizeof(CellUpdateMessage)`: packed `uint8, uint16, uint16, CellState`. -/
def sizeofCellUpdateMessage : Nat := 6

/-- `sizeof(GridSnapshotMessage)`: packed `uint8, uint16, uint16, uint8[100]`. -/
def sizeofGridSnapshotMessage : Nat := 105

/-- `sizeof(FinishedPreparingMessage)`: `uint8, uint8`. -/
def sizeofFinishedPreparingMessage : Nat := 2

/-- `sizeof(TurnUpdateMessage)`: `uint8, uint8`. -/
def sizeofTurnUpdateMessage : Nat := 2

/-- The fields of a message as the code builds it before sending; the 16-bit
fields are `Nat` and are reduced modulo 65536 by the layout. -/
inductive Message where
  | CellRequest (x y : Nat)
  | CellUpdate (x y : Nat) (filled : CellState)
  | GridSnapshot (width height : Nat) (cells : Grid)
  | FinishedPreparing (finished : Byte)
  | TurnUpdate (currentTurn : Byte)

/-- Low byte of a 16-bit field. -/
def u16lo (v : Nat) : Byte := ⟨v % 256, Nat.mod_lt _ (by decide)⟩

/-- High byte of a 16-bit field. -/
def u16hi (v : Nat) : Byte := ⟨v / 256 % 256, Nat.mod_lt _ (by decide)⟩

/-- The byte of index `i` of a packet (`event.packet->data[i]`); every read
of the embedded code is below the checked `dataLength`. -/
def byteAt (data : List Byte) (i : Nat) : Byte := data.getD i 0

/-- The `uint16_t` field at byte offset `off` of a packed struct. -/
def readU16 (data : List Byte) (off : Nat) : Nat :=
  (byteAt data off).val + 256 * (byteAt data (off + 1)).val

/-- `static_cast<std::uint16_t>(v)` of an `int`. -/
def toU16 (v : Int) : Nat := (v % 65536).toNat

/-- The bytes of a message on the wire: the packed struct, byte by byte. -/
def Message.bytes : Message → List Byte
  | Message.CellRequest x y =>
    [MessageType.CellRequest, u16lo x, u16hi x, u16lo y, u16hi y]
  | Message.CellUpdate x y filled =>
    [MessageType.CellUpdate, u16lo x, u16hi x, u16lo y, u16hi y, filled.raw]
  | Message.GridSnapshot width height cells =>
    [MessageType.GridSnapshot, u16lo width, u16hi width, u16lo height, u16hi height] ++
      (List.finRange 100).map (fun i => (cells i).raw)
  | Message.FinishedPreparing finished => [MessageType.FinishedPreparing, finished]
  | Message.TurnUpdate currentTurn => [MessageType.TurnUpdate, currentTurn]

/-! ## Session state -/

/-- The two roles: `RunServer` is the host, `RunClient` the joiner. -/
inductive Side where
  | Host
  | Joiner
deriving DecidableEq, Repr

/-- The `Turn` value that names a side itself. -/
def Side.identity : Side → Turn
  | Side.Host => Turn.Server
  | Side.Joiner => Turn.Client

/-- The local variables of `RunServer` / `RunClient` that the protocol reads or
writes (both functions declare them under the same names). `connectedPeer` and
`isClientConnected` (the global `gameState`) are used by the host only,
`connectionActive` by the joiner only. The float timers and the headline are
presentation state and are left out; the expiry of the transition timer is an
input of the frame. -/
structure Session where
  playerGrid : Grid
  enemyGrid : Grid
  shipLocations : List Nat
  ships : List Ship
  currentTurn : Turn
  currentShipIndex : Nat
  hittedShipCount : Nat
  enemyHitCount : Nat
  serverFinishedPreparing : Bool
  clientFinishedPreparing : Bool
  resetGrid : Bool
  currentPhase : Phase
  outcome : GameResult
  exitRequested : Bool
  connectedPeer : Bool
  isClientConnected : Bool
  connectionActive : Bool

/-- The state at the top of `RunServer` (`currentTurn = Turn::Server`) and of
`RunClient` (`currentTurn = Turn::None`). -/
def initialSession (side : Side) : Session where
  playerGrid := emptyGrid
  enemyGrid := emptyGrid
  shipLocations := []
  ships := CreateFleet
  currentTurn := match side with
    | Side.Host => Turn.Server
    | Side.Joiner => Turn.None
  currentShipIndex := 0
  hittedShipCount := 0
  enemyHitCount := 0
  serverFinishedPreparing := false
  clientFinishedPreparing := false
  resetGrid := false
  currentPhase := Phase.Preparing
  outcome := GameResult.None
  exitRequested := false
  connectedPeer := false
  isClientConnected := false
  connectionActive := true

/-! ## Hit resolution and win detection: the receive handlers -/

/-- The body of `case MessageType::CellUpdate` (GameLogic.cc 297-321 in
`RunServer`, 601-625 in `RunClient`); the two copies differ only in the
constant compared with `currentTurn`, passed here as `own`. -/
def onCellUpdate (own : Turn) (s : Session) (x y : Int) (filled : CellState) : Session :=
  if x ≥ 0 ∧ x < kGridCols ∧ y ≥ 0 ∧ y < kGridRows then
    let index := CellIndex x y
    if s.currentTurn = own then
      let previous := gridGet s.enemyGrid index
      let s1 := { s with enemyGrid := gridSet s.enemyGrid index filled }
      if filled = CellState.Hit ∧ previous ≠ CellState.Hit ∧
          s1.currentPhase ≠ Phase.Finished ∧ s1.outcome ≠ GameResult.Defeat then
        let s2 := { s1 with enemyHitCount := s1.enemyHitCount + 1 }
        if s2.enemyHitCount ≥ 20 then
          { s2 with outcome := GameResult.Victory, currentPhase := Phase.Finished,
                    currentTurn := Turn.None }
        else s2
      else s1
    else { s with playerGrid := gridSet s.playerGrid index filled }
  else s

/-- `std::find(shipLocations.begin(), shipLocations.end(), index) != shipLocations.end()` -/
def findIndex (shipLocations : List Nat) (index : Int) : Bool :=
  shipLocations.any (fun v => decide ((v : Int) = index))

/-- The body of `case MessageType::CellRequest` in `RunServer` (328-365). The
second component lists the messages broadcast, in order. -/
def serverOnCellRequest (s : Session) (x y : Int) : Session × List Message :=
  if x < 0 ∨ x ≥ kGridCols ∨ y < 0 ∨ y ≥ kGridRows then (s, [])
  else
    let index := CellIndex x y
    let isHit := findIndex s.shipLocations index
    let result := if isHit then CellState.Hit else CellState.Miss
    let s1 := { s with playerGrid := gridSet s.playerGrid index result }
    let s2 :=
      if isHit then
        let s1a := { s1 with hittedShipCount := s1.hittedShipCount + 1 }
        if s1a.hittedShipCount ≥ 20 ∧ s1a.currentPhase ≠ Phase.Finished then
          { s1a with outcome := GameResult.Defeat, currentPhase := Phase.Finished,
                     currentTurn := Turn.None }
        else s1a
      else s1
    let update := Message.CellUpdate (toU16 x) (toU16 y) result
    if !isHit then
      let nextTurn : Byte := if s2.currentTurn = Turn.Server then 1 else 0
      ({ s2 with currentTurn := if nextTurn = 0 then Turn.Server else Turn.Client },
        [update, Message.TurnUpdate nextTurn])
    else (s2, [update])

/-- The body of `case MessageType::CellRequest` in `RunClient` (662-704). The
second component lists the messages sent to the host, in order. -/
def clientOnCellRequest (s : Session) (x y : Int) : Session × List Message :=
  if x < 0 ∨ x ≥ kGridCols ∨ y < 0 ∨ y ≥ kGridRows then (s, [])
  else
    let index := CellIndex x y
    let isHit := findIndex s.shipLocations index
    let s1 :=
      if isHit then
        let s0a := { s with hittedShipCount := s.hittedShipCount + 1 }
        if s0a.hittedShipCount ≥ 20 ∧ s0a.currentPhase ≠ Phase.Finished then
          { s0a with outcome := GameResult.Defeat, currentPhase := Phase.Finished,
                     currentTurn := Turn.None }
        else s0a
      else s
    let result := if isHit then CellState.Hit else CellState.Miss
    let s2 := { s1 with playerGrid := gridSet s1.playerGrid index result }
    let update := Message.CellUpdate (toU16 x) (toU16 y) result
    if !isHit then (s2, [update, Message.TurnUpdate 1])
    else (s2, [update])

/-- `case ENET_EVENT_TYPE_RECEIVE` of `RunServer` (283-396): the length check,
the switch on the first byte and the size check of each case. -/
def serverReceive (s : Session) (data : List Byte) : Session × List Message :=
  if data.length < 1 then (s, [])
  else
    let messageType := byteAt data 0
    if messageType = MessageType.CellUpdate then
      if data.length = sizeofCellUpdateMessage then
        (onCellUpdate Turn.Server s (readU16 data 1) (readU16 data 3) ⟨byteAt data 5⟩, [])
      else (s, [])
    else if messageType = MessageType.CellRequest then
      if data.length = sizeofCellRequestMessage then
        serverOnCellRequest s (readU16 data 1) (readU16 data 3)
      else (s, [])
    else if messageType = MessageType.TurnUpdate then
      if data.length = sizeofTurnUpdateMessage then
        ({ s with currentTurn := if byteAt data 1 = 0 then Turn.Server else Turn.Client },
          [Message.TurnUpdate (byteAt data 1)])
      else (s, [])
    else if messageType = MessageType.FinishedPreparing then
      if data.length = sizeofFinishedPreparingMessage then
        if byteAt data 1 = 1 then ({ s with clientFinishedPreparing := true }, [])
        else (s, [])
      else (s, [])
    else (s, [])

/-- `case ENET_EVENT_TYPE_RECEIVE` of `RunClient` (587-713). -/
def clientReceive (s : Session) (data : List Byte) : Session × List Message :=
  if data.length < 1 then (s, [])
  else
    let messageType := byteAt data 0
    if messageType = MessageType.CellUpdate then
      if data.length = sizeofCellUpdateMessage then
        (onCellUpdate Turn.Client s (readU16 data 1) (readU16 data 3) ⟨byteAt data 5⟩, [])
      else (s, [])
    else if messageType = MessageType.GridSnapshot then
      if data.length = sizeofGridSnapshotMessage then
        if (readU16 data 1 : Int) = kGridCols ∧ (readU16 data 3 : Int) = kGridRows then
          ({ s with playerGrid := fun i => ⟨byteAt data (5 + i.val)⟩ }, [])
        else (s, [])
      else (s, [])
    else if messageType = MessageType.FinishedPreparing then
      if data.length = sizeofFinishedPreparingMessage then
        if byteAt data 1 = 1 then ({ s with serverFinishedPreparing := true }, [])
        else (s, [])
      else (s, [])
    else if messageType = MessageType.TurnUpdate then
      if data.length = sizeofTurnUpdateMessage then
        ({ s with currentTurn := if byteAt data 1 = 0 then Turn.Server else Turn.Client }, [])
      else (s, [])
    else if messageType = MessageType.CellRequest then
      if data.length = sizeofCellRequestMessage then
        clientOnCellRequest s (readU16 data 1) (readU16 data 3)
      else (s, [])
    else (s, [])

/-- The receive handler of a side. -/
def receive : Side → Session → List Byte → Session × List Message
  | Side.Host => serverReceive
  | Side.Joiner => clientReceive

/-! ## The main loop: events and frames -/

/-- What one iteration of the main loop reads from its environment after the
event drain: the mouse buttons, the cell under the mouse
(`static_cast<int>(mousePos.x) / kCellSize`), the exit keys, whether
`transitionTimer > 3.0f` holds once this frame's delta is added, and (joiner)
whether `peer->state == ENET_PEER_STATE_CONNECTED`. -/
structure FrameInput where
  leftPressed : Bool
  rightPressed : Bool
  cellX : Int
  cellY : Int
  exitKey : Bool
  transitionElapsed : Bool
  peerConnected : Bool

/-- The placement branch of `case Phase::Preparing` for the current ship
(418-436 in `RunServer`, 740-758 in `RunClient`, the same text): the
right button toggles the ship's orientation, the left button attempts the
placement and, on success, records the cells and advances to the next ship. -/
def placementStep (s : Session) (input : FrameInput) (ship : Ship) : Session :=
  let ship1 : Ship :=
    if input.rightPressed then { ship with isHorizontal := !ship.isHorizontal } else ship
  let s1 := { s with ships := s.ships.set s.currentShipIndex ship1 }
  if input.leftPressed then
    let r := ApplyFill s1.playerGrid input.cellX input.cellY ship1.length ship1.isHorizontal
    if r.1 then
      { s1 with playerGrid := r.2,
                shipLocations := RecordShipCells s1.shipLocations input.cellX input.cellY ship1,
                currentShipIndex := s1.currentShipIndex + 1 }
    else { s1 with playerGrid := r.2 }
  else s1

/-- The end of a loop iteration (512-520 and 827-835): leave on
`exitRequested`, else enter Transition once both sides finished preparing. -/
def endOfFrame (r : Session × List Message) : Session × List Message :=
  if r.1.exitRequested then r
  else if r.1.clientFinishedPreparing && r.1.serverFinishedPreparing &&
      decide (r.1.currentPhase = Phase.Preparing) then
    ({ r.1 with currentPhase := Phase.Transition }, r.2)
  else r

/-- The `switch (currentPhase)` of `RunServer` (415-510). The second component
lists the messages sent or broadcast. -/
def serverPhaseStep (s : Session) (input : FrameInput) : Session × List Message :=
  match s.currentPhase with
  | Phase.Preparing =>
    match s.ships[s.currentShipIndex]? with
    | some ship => (placementStep s input ship, [])
    | none =>
      if !s.serverFinishedPreparing && s.connectedPeer then
        ({ s with serverFinishedPreparing := true }, [Message.FinishedPreparing 1])
      else (s, [])
  | Phase.Transition =>
    if input.transitionElapsed then
      ({ s with currentPhase := Phase.Battle, currentTurn := Turn.Server },
        [Message.TurnUpdate 0])
    else (s, [])
  | Phase.Battle =>
    let s1 :=
      if !s.resetGrid then
        { s with enemyGrid := ResetGrid s.enemyGrid CellState.Empty, resetGrid := true }
      else s
    if s1.currentTurn ≠ Turn.Server then (s1, [])
    else if input.leftPressed && s1.connectedPeer then
      (s1, [Message.CellRequest (toU16 input.cellX) (toU16 input.cellY)])
    else (s1, [])
  | Phase.Finished =>
    if input.exitKey || input.leftPressed then ({ s with exitRequested := true }, [])
    else (s, [])

/-- One iteration of the loop of `RunServer` after the event drain (403-520):
the two waiting screens `continue`, otherwise the phase switch and the end of
the iteration. -/
def serverFrame (s : Session) (input : FrameInput) : Session × List Message :=
  if !s.isClientConnected then (s, [])
  else if s.serverFinishedPreparing && !s.clientFinishedPreparing then (s, [])
  else endOfFrame (serverPhaseStep s input)

/-- The `switch (currentPhase)` of `RunClient` (737-825). -/
def clientPhaseStep (s : Session) (input : FrameInput) : Session × List Message :=
  match s.currentPhase with
  | Phase.Preparing =>
    match s.ships[s.currentShipIndex]? with
    | some ship => (placementStep s input ship, [])
    | none =>
      if !s.clientFinishedPreparing then
        ({ s with clientFinishedPreparing := true }, [Message.FinishedPreparing 1])
      else (s, [])
  | Phase.Transition =>
    if input.transitionElapsed then ({ s with currentPhase := Phase.Battle }, [])
    else (s, [])
  | Phase.Battle =>
    let s1 :=
      if !s.resetGrid then
        { s with enemyGrid := ResetGrid s.enemyGrid CellState.Empty, resetGrid := true }
      else s
    if s1.currentTurn ≠ Turn.Client then (s1, [])
    else if input.leftPressed then
      (s1, [Message.CellRequest (toU16 input.cellX) (toU16 input.cellY)])
    else (s1, [])
  | Phase.Finished =>
    if input.exitKey || input.leftPressed then ({ s with exitRequested := true }, [])
    else (s, [])

/-- One iteration of the loop of `RunClient` after the event drain (725-835). -/
def clientFrame (s : Session) (input : FrameInput) : Session × List Message :=
  if !input.peerConnected then (s, [])
  else if decide (s.currentPhase ≠ Phase.Finished) && s.clientFinishedPreparing &&
      !s.serverFinishedPreparing then (s, [])
  else endOfFrame (clientPhaseStep s input)

/-- What a side's loop reacts to: the three ENet events and the frame that
follows each drain of the event queue. `Disconnect` says whether the peer is
the host's `connectedPeer`. -/
inductive Event where
  | Connect
  | Disconnect (samePeer : Bool)
  | Receive (data : List Byte)
  | Frame (input : FrameInput)

/-- One step of `RunServer`: an event of the drain (268-400) or a frame. -/
def serverStep (s : Session) : Event → Session × List Message
  | Event.Connect =>
    ({ s with connectedPeer := true, isClientConnected := true },
      [Message.GridSnapshot 10 10 s.playerGrid])
  | Event.Disconnect samePeer =>
    (if samePeer then { s with connectedPeer := false } else s, [])
  | Event.Receive data => serverReceive s data
  | Event.Frame input => serverFrame s input

/-- One step of `RunClient`: an event of the drain (586-722) or a frame; the
loop condition `connectionActive` guards the frame. -/
def clientStep (s : Session) : Event → Session × List Message
  | Event.Connect => (s, [])
  | Event.Disconnect _ => ({ s with connectionActive := false }, [])
  | Event.Receive data => clientReceive s data
  | Event.Frame input => if !s.connectionActive then (s, []) else clientFrame s input

/-- One step of a side; after `exitRequested` the loop has been left and
nothing happens any more. -/
def step (side : Side) (s : Session) (e : Event) : Session × List Message :=
  if s.exitRequested then (s, [])
  else
    match side with
    | Side.Host => serverStep s e
    | Side.Joiner => clientStep s e

/-- The states a side reaches from its initial state by any sequence of
events and frames. -/
inductive Reachable (side : Side) : Session → Prop where
  | init : Reachable side (initialSession side)
  | step (s : Session) (e : Event) : Reachable side s → Reachable side (step side s e).1

/-! ## Two sides exchanging messages -/

/-- The opposite side. -/
def Side.other : Side → Side
  | Side.Host => Side.Joiner
  | Side.Joiner => Side.Host

/-- Delivers messages to a side in order, as packets on the wire; returns the
state after the last one and everything the side emitted meanwhile. -/
def deliver (side : Side) (s : Session) : List Message → Session × List Message
  | [] => (s, [])
  | m :: rest =>
    let r := receive side s m.bytes
    let r2 := deliver side r.1 rest
    (r2.1, r.2 ++ r2.2)

/-- The two sides after an attack exchange and the messages still undelivered. -/
structure ExchangeResult where
  attacker : Session
  defender : Session
  pending : List Message

/-- One complete attack exchange: the defender handles `CellRequest(x, y)`,
the attacker handles what the defender emitted (the `CellUpdate` and, on a
miss, the `TurnUpdate`), and the defender handles what the attacker emitted in
turn (the host's relay of a `TurnUpdate`). -/
def attackExchange (attacker : Side) (a d : Session) (x y : Nat) : ExchangeResult :=
  let r1 := receive attacker.other d (Message.bytes (Message.CellRequest x y))
  let r2 := deliver attacker a r1.2
  let r3 := deliver attacker.other r1.1 r2.2
  { attacker := r2.1, defender := r3.1, pending := r3.2 }

/-- Repeats the attack exchange at `(x, y)` a number of times; the result is
the attacker and the defender. -/
def attackRounds (attacker : Side) (x y : Nat) : Nat → Session → Session → Session × Session
  | 0, a, d => (a, d)
  | n + 1, a, d =>
    let r := attackExchange attacker a d x y
    attackRounds attacker x y n r.attacker r.defender

/-- Runs a side through a list of events. -/
def run (side : Side) (s : Session) (events : List Event) : Session :=
  events.foldl (fun s e => (step side s e).1) s

/-- A frame with a left click on cell `(x, y)`. -/
def clickAt (x y : Int) : FrameInput :=
  { leftPressed := true, rightPressed := false, cellX := x, cellY := y, exitKey := false,
    transitionElapsed := false, peerConnected := true }

/-- A frame without mouse or key input in which the transition timer, if it
runs, has expired. -/
def idleFrame : FrameInput :=
  { leftPressed := false, rightPressed := false, cellX := 0, cellY := 0, exitKey := false,
    transitionElapsed := true, peerConnected := true }

/-- Ten clicks that place the default fleet, ship `i` horizontally at the
start of row `i`. -/
def placeFleet : List Event :=
  (List.range 10).map (fun row => Event.Frame (clickAt 0 row))

/-- The host's way into Battle: the joiner connects, the fleet is placed,
`FinishedPreparing` is sent and received, the transition timer expires. -/
def hostToBattle : List Event :=
  [Event.Connect] ++ placeFleet ++
    [Event.Frame idleFrame, Event.Receive (Message.bytes (Message.FinishedPreparing 1)),
     Event.Frame idleFrame, Event.Frame idleFrame]

/-- The joiner's way into Battle: the host's snapshot arrives, the fleet is
placed, `FinishedPreparing` is sent and received, the transition timer
expires and the host's `TurnUpdate(0)` arrives. -/
def joinerToBattle : List Event :=
  [Event.Receive (Message.bytes (Message.GridSnapshot 10 10 emptyGrid))] ++ placeFleet ++
    [Event.Frame idleFrame, Event.Receive (Message.bytes (Message.FinishedPreparing 1)),
     Event.Frame idleFrame, Event.Frame idleFrame,
     Event.Receive (Message.bytes (Message.TurnUpdate 0))]

/-- The host at the start of the battle, its fleet placed. -/
def battleHost : Session := run Side.Host (initialSession Side.Host) hostToBattle

/-- The joiner at the start of the battle, its fleet placed. -/
def battleJoiner : Session := run Side.Joiner (initialSession Side.Joiner) joinerToBattle

/-- The same `CellRequest(0, 0)` received `n` times. -/
def repeatedRequests (n : Nat) : List Event :=
  List.replicate n (Event.Receive (Message.bytes (Message.CellRequest 0 0)))

/-- What a step may do to the defeat bookkeeping: `hittedShipCount` does not
decrease, and the outcome is Defeat afterwards only if it was before or the
counter is at least 20 afterwards. -/
def DefeatSound (s t : Session) : Prop :=
  s.hittedShipCount ≤ t.hittedShipCount ∧
  (t.outcome = GameResult.Defeat → s.outcome = GameResult.Defeat ∨ 20 ≤ t.hittedShipCount)

/-- The packet is a well-formed `CellRequest` carrying coordinates `(x, y)`. -/
def IsCellRequest (data : List Byte) (x y : Nat) : Prop :=
  data.length = 5 ∧ byteAt data 0 = MessageType.CellRequest ∧
    readU16 data 1 = x ∧ readU16 data 3 = y

/-- The packet is a well-formed `CellUpdate` carrying `(x, y)` and `filled`. -/
def IsCellUpdate (data : List Byte) (x y : Nat) (filled : CellState) : Prop :=
  data.length = 6 ∧ byteAt data 0 = MessageType.CellUpdate ∧
    readU16 data 1 = x ∧ readU16 data 3 = y ∧ byteAt data 5 = filled.raw

/-- Selects the `CellUpdate` messages of an output. -/
def Message.isCellUpdate : Message → Bool
  | Message.CellUpdate _ _ _ => true
  | _ => false

/-- Selects the `TurnUpdate` messages of an output. -/
def Message.isTurnUpdate : Message → Bool
  | Message.TurnUpdate _ => true
  | _ => false

/-- The fixed size of the message kind named by a first byte, if it names one. -/
def wireSize (kind : Byte) : Option Nat :=
  if kind = MessageType.CellRequest then some 5
  else if kind = MessageType.CellUpdate then some 6
  else if kind = MessageType.GridSnapshot then some 105
  else if kind = MessageType.FinishedPreparing then some 2
  else if kind = MessageType.TurnUpdate then some 2
  else none

instance (data : List Byte) (x y : Nat) : Decidable (IsCellRequest data x y) := by
  unfold IsCellRequest; infer_instance

instance (data : List Byte) (x y : Nat) (filled : CellState) :
    Decidable (IsCellUpdate data x y filled) := by
  unfold IsCellUpdate; infer_instance

/-- The packet is malformed: it is empty, or its first byte names no message
kind, or its length is not the fixed size of the kind its first byte names. -/
def Malformed (data : List Byte) : Prop :=
  data = [] ∨ wireSize (byteAt data 0) = none ∨
    ∃ n : Nat, wireSize (byteAt data 0) = some n ∧ data.length ≠ n

/-- A session in Battle whose length-4 ship lies on cells 0..3 of the own
grid, used to evaluate the handlers on a concrete state. -/
def sampleSession (side : Side) : Session :=
  { initialSession side with
    playerGrid := (ApplyFill emptyGrid 0 0 4 true).2
    shipLocations := RecordShipCells [] 0 0 ⟨4, true⟩
    currentShipIndex := 1
    currentPhase := Phase.Battle
    currentTurn := Turn.Client }

/-! ## Control state of a step -/

/-- Position of a phase in the order Preparing < Transition < Battle < Finished. -/
def Phase.rank : Phase → Nat
  | Phase.Preparing => 0
  | Phase.Transition => 1
  | Phase.Battle => 2
  | Phase.Finished => 3

/-- What the handling of a received packet does to phase, outcome, turn and
hits landed: either phase and outcome stay and the hits landed stay or, outside
Finished, grow by one to less than 20; or the side leaves a phase other than
Finished for Finished with an outcome, turn None and at most one more hit
landed. -/
def ReceiveEffect (s t : Session) : Prop :=
  (t.currentPhase = s.currentPhase ∧ t.outcome = s.outcome ∧
    (t.enemyHitCount = s.enemyHitCount ∨
      (s.currentPhase ≠ Phase.Finished ∧ t.enemyHitCount = s.enemyHitCount + 1 ∧
        t.enemyHitCount < 20))) ∨
  (s.currentPhase ≠ Phase.Finished ∧ t.currentPhase = Phase.Finished ∧
    t.currentTurn = Turn.None ∧ t.outcome ≠ GameResult.None ∧
    (t.enemyHitCount = s.enemyHitCount ∨ t.enemyHitCount = s.enemyHitCount + 1))

/-- `localPreparationDone`: the flag a side sets itself, `serverFinishedPreparing`
on the host and `clientFinishedPreparing` on the joiner. -/
def Side.localDone : Side → Session → Bool
  | Side.Host, s => s.serverFinishedPreparing
  | Side.Joiner, s => s.clientFinishedPreparing

/-- `remotePreparationDone`: the flag set on the peer's `FinishedPreparing`. -/
def Side.remoteDone : Side → Session → Bool
  | Side.Host, s => s.clientFinishedPreparing
  | Side.Joiner, s => s.serverFinishedPreparing

/-- What one loop iteration after the drain (a frame) does to the control
state: outcome and hit counters stay; the remote flag stays; the local flag
stays or is set in Preparing once no ship is left to place; the ship index
stays or advances past a ship that exists; the turn changes only on leaving
Transition; the phase stays, or goes from Preparing to Transition with both
flags set, or from Transition to Battle. -/
def FrameEffect (side : Side) (s t : Session) : Prop :=
  t.outcome = s.outcome ∧ t.hittedShipCount = s.hittedShipCount ∧
  t.enemyHitCount = s.enemyHitCount ∧
  side.remoteDone t = side.remoteDone s ∧
  (side.localDone t = side.localDone s ∨
    (side.localDone t = true ∧ s.currentPhase = Phase.Preparing ∧
      s.ships.length ≤ s.currentShipIndex)) ∧
  t.ships.length = s.ships.length ∧
  (t.currentShipIndex = s.currentShipIndex ∨
    (t.currentShipIndex = s.currentShipIndex + 1 ∧ s.currentShipIndex < s.ships.length)) ∧
  (t.currentTurn = s.currentTurn ∨
    (s.currentPhase = Phase.Transition ∧ t.currentPhase = Phase.Battle)) ∧
  (t.currentPhase = s.currentPhase ∨
    (s.currentPhase = Phase.Preparing ∧ t.currentPhase = Phase.Transition ∧
      side.localDone t = true ∧ side.remoteDone t = true) ∨
    (s.currentPhase = Phase.Transition ∧ t.currentPhase = Phase.Battle))

/-- What the handling of a received packet does to the fleet bookkeeping: ships,
ship index and the local flag stay, the remote flag stays or is set. -/
def KeepsFleet (side : Side) (s t : Session) : Prop :=
  t.ships = s.ships ∧ t.currentShipIndex = s.currentShipIndex ∧
  t.shipLocations = s.shipLocations ∧
  side.localDone t = side.localDone s ∧
  (side.remoteDone t = side.remoteDone s ∨ side.remoteDone t = true)

/-- The joiner after twenty hits on its cell (0,0): Finished with Defeat. -/
def defeatedJoiner : Session := run Side.Joiner battleJoiner (repeatedRequests 20)

/-- The host after twenty hits on its cell (0,0): Finished with Defeat. -/
def defeatedHost : Session := run Side.Host battleHost (repeatedRequests 20)

/-- The host still in Preparing, its first ship placed on cells 0..3 and hit
nineteen times. -/
def preparingHostHit : Session :=
  run Side.Host (initialSession Side.Host)
    ([Event.Connect, Event.Frame (clickAt 0 0)] ++ repeatedRequests 19)

/-- The host with its whole fleet placed, having received the joiner's
`FinishedPreparing` before it sent its own. -/
def hostJoinerFirst : Session :=
  run Side.Host (initialSession Side.Host)
    ([Event.Connect] ++ placeFleet ++
      [Event.Receive (Message.bytes (Message.FinishedPreparing 1))])

/-- The host after the joiner connected and a click on (0,0) placed the first
ship of the fleet, of length 4 and horizontal, on the empty grid. -/
def scenarioPlaced : Session :=
  run Side.Host (initialSession Side.Host) [Event.Connect, Event.Frame (clickAt 0 0)]

/-- The host of the scenario in Battle with the joiner to move. -/
def scenarioBattle : Session :=
  { scenarioPlaced with currentPhase := Phase.Battle, currentTurn := Turn.Client }

/-- The grid and the location list agree and the list counts the cells of the
ships placed so far: cell `k` is in the list exactly when it holds Ship, the
list holds indices below 100 without duplicates, the fleet has the lengths of
`CreateFleet`, and the list is as long as the ships before `index` together. -/
def PlacementInv (grid : Grid) (locations : List Nat) (ships : List Ship) (index : Nat) : Prop :=
  (∀ k : Fin 100, k.val ∈ locations ↔ grid k = CellState.Ship) ∧
  (∀ i ∈ locations, i < 100) ∧
  locations.Nodup ∧
  ships.map Ship.length = CreateFleet.map Ship.length ∧
  (locations.length : Int) = ((ships.map Ship.length).take index).sum

/-- A frame leaves own grid, location list, fleet and ship index as they are
or as `placementStep` makes them for the current ship in Preparing; it leaves
the opponent-view grid and `resetGrid` as they are, or, in Battle with
`resetGrid` still false, clears the opponent-view grid and sets `resetGrid`. -/
def FrameGrids (s t : Session) (input : FrameInput) : Prop :=
  ((t.playerGrid = s.playerGrid ∧ t.shipLocations = s.shipLocations ∧ t.ships = s.ships ∧
      t.currentShipIndex = s.currentShipIndex) ∨
    (∃ ship : Ship, s.currentPhase = Phase.Preparing ∧
      s.ships[s.currentShipIndex]? = some ship ∧
      t.playerGrid = (placementStep s input ship).playerGrid ∧
      t.shipLocations = (placementStep s input ship).shipLocations ∧
      t.ships = (placementStep s input ship).ships ∧
      t.currentShipIndex = (placementStep s input ship).currentShipIndex)) ∧
  ((t.enemyGrid = s.enemyGrid ∧ t.resetGrid = s.resetGrid) ∨
    (s.currentPhase = Phase.Battle ∧ s.resetGrid = false ∧
      t.enemyGrid = ResetGrid s.enemyGrid CellState.Empty ∧ t.resetGrid = true))

/-- The ten clicks of `placeFleet` as frame inputs. -/
def fleetClicks : List FrameInput :=
  (List.range 10).map (fun row : Nat => clickAt 0 row)

/-- What the handling of a packet does to the cells, by the kind named in its
first byte. -/
def ReceiveCells (side : Side) (s t : Session) (data : List Byte) : Prop :=
  (byteAt data 0 = MessageType.CellRequest →
    (∀ k : Fin 100, t.playerGrid k = s.playerGrid k ∨ t.playerGrid k = CellState.Hit ∨
      t.playerGrid k = CellState.Miss) ∧
    t.enemyGrid = s.enemyGrid) ∧
  (byteAt data 0 = MessageType.CellUpdate →
    ∀ k : Fin 100,
      (t.playerGrid k = s.playerGrid k ∨ t.playerGrid k = ⟨byteAt data 5⟩) ∧
      (t.enemyGrid k = s.enemyGrid k ∨ t.enemyGrid k = ⟨byteAt data 5⟩)) ∧
  (byteAt data 0 = MessageType.GridSnapshot →
    (∀ k : Fin 100, t.playerGrid k = s.playerGrid k ∨
      t.playerGrid k = ⟨byteAt data (5 + k.val)⟩) ∧
    (side = Side.Host → t.playerGrid = s.playerGrid) ∧
    t.enemyGrid = s.enemyGrid) ∧
  (byteAt data 0 ≠ MessageType.CellRequest → byteAt data 0 ≠ MessageType.CellUpdate →
    byteAt data 0 ≠ MessageType.GridSnapshot →
    t.playerGrid = s.playerGrid ∧ t.enemyGrid = s.enemyGrid)

/-- The host at the start of the battle after it received `CellUpdate(0,0,Hit)`
on its turn: opponent-view cell 0 holds Hit. -/
def hostSawHit : Session :=
  run Side.Host battleHost
    [Event.Receive (Message.bytes (Message.CellUpdate 0 0 CellState.Hit))]

/-- The joiner after its first click placed the length-4 ship on cells 0..3,
before the host's snapshot has arrived. -/
def joinerPlacedFirst : Session :=
  run Side.Joiner (initialSession Side.Joiner) [Event.Frame (clickAt 0 0)]

/-- The `switch (currentPhase)` of a side's loop, which the end-of-iteration
check `endOfFrame` follows. -/
def Side.phaseStep : Side → Session → FrameInput → Session × List Message
  | Side.Host => serverPhaseStep
  | Side.Joiner => clientPhaseStep

/-! ## Lemmas on the grid model -/

theorem gridGet_inside (grid : Grid) (cx cy : Int) (_h : InsideGrid cx cy) (k : Fin 100)
    (hk : IsCell k cx cy) : gridGet grid (CellIndex cx cy) = grid k := by
  unfold IsCell at hk
  unfold gridGet CellIndex kGridCols
  have hb : 0 ≤ cy * 10 + cx ∧ cy * 10 + cx < 100 := by omega
  rw [dif_pos hb]
  congr 1
  apply Fin.ext
  simp only
  omega

theorem exists_cell_of_inside (cx cy : Int) (h : InsideGrid cx cy) :
    ∃ k : Fin 100, IsCell k cx cy := by
  unfold InsideGrid at h
  refine ⟨⟨(cy * 10 + cx).toNat, by omega⟩, ?_⟩
  unfold IsCell
  simp only
  omega

theorem gridSet_inside (grid : Grid) (cx cy : Int) (v : CellState) (h : InsideGrid cx cy)
    (k : Fin 100) :
    gridSet grid (CellIndex cx cy) v k = if IsCell k cx cy then v else grid k := by
  unfold InsideGrid at h
  unfold gridSet CellIndex kGridCols IsCell
  have hb : 0 ≤ cy * 10 + cx ∧ cy * 10 + cx < 100 := by omega
  rw [dif_pos hb, Function.update_apply]
  have : (k = ⟨(cy * 10 + cx).toNat, by omega⟩) ↔ ((k.val : Int) = cy * 10 + cx) := by
    constructor
    · intro e
      rw [e]
      simp only
      omega
    · intro e
      apply Fin.ext
      simp only
      omega
  simp only [this]

theorem shipCell_eq (x y : Int) (isHorizontal : Bool) (i : Int) :
    x + (if isHorizontal then i else 0) = shipCellX x isHorizontal i ∧
    y + (if isHorizontal then 0 else i) = shipCellY y isHorizontal i := by
  cases isHorizontal <;> simp [shipCellX, shipCellY]

theorem not_outside_iff (cx cy : Int) :
    ¬ (cx < 0 ∨ cx ≥ kGridCols ∨ cy < 0 ∨ cy ≥ kGridRows) ↔ InsideGrid cx cy := by
  unfold InsideGrid kGridCols kGridRows
  omega

theorem gridGet_ne_ship_iff (grid : Grid) (cx cy : Int) (h : InsideGrid cx cy) :
    gridGet grid (CellIndex cx cy) ≠ CellState.Ship ↔
      ∀ k : Fin 100, IsCell k cx cy → grid k ≠ CellState.Ship := by
  constructor
  · intro hne k hk
    rw [← gridGet_inside grid cx cy h k hk]
    exact hne
  · intro hall
    obtain ⟨k, hk⟩ := exists_cell_of_inside cx cy h
    rw [gridGet_inside grid cx cy h k hk]
    exact hall k hk

/-- The loop of `CanPlaceShip` returns true exactly when each of the next `n`
cells is free. -/
theorem CanPlaceShip_loop_iff (grid : Grid) (x y : Int) (isHorizontal : Bool) (n : Nat) :
    ∀ i : Int, CanPlaceShip.loop grid x y isHorizontal n i = true ↔
      ∀ j : Nat, j < n →
        CellFree grid (shipCellX x isHorizontal (i + j)) (shipCellY y isHorizontal (i + j)) := by
  induction n with
  | zero => intro i; simp [CanPlaceShip.loop]
  | succ n ih =>
    intro i
    obtain ⟨ex, ey⟩ := shipCell_eq x y isHorizontal i
    simp only [CanPlaceShip.loop, ex, ey]
    by_cases hin : InsideGrid (shipCellX x isHorizontal i) (shipCellY y isHorizontal i)
    · have hout := (not_outside_iff _ _).mpr hin
      rw [if_neg hout]
      by_cases hs : gridGet grid (CellIndex (shipCellX x isHorizontal i)
          (shipCellY y isHorizontal i)) = CellState.Ship
      · rw [if_pos hs]
        simp only [Bool.false_eq_true, false_iff, not_forall]
        refine ⟨0, Nat.succ_pos n, ?_⟩
        intro hf
        have := (gridGet_ne_ship_iff grid _ _ hin).mpr (by simpa using hf.2)
        exact this hs
      · rw [if_neg hs, ih (i + 1)]
        constructor
        · intro hall j hj
          cases j with
          | zero =>
            simp only [Nat.cast_zero, add_zero]
            exact ⟨hin, (gridGet_ne_ship_iff grid _ _ hin).mp hs⟩
          | succ j =>
            have := hall j (by omega)
            have e : i + 1 + (j : Int) = i + ((j + 1 : Nat) : Int) := by push_cast; ring
            rw [e] at this
            exact this
        · intro hall j hj
          have := hall (j + 1) (by omega)
          have e : i + 1 + (j : Int) = i + ((j + 1 : Nat) : Int) := by push_cast; ring
          rw [e]
          exact this
    · have hout := (not_outside_iff _ _).not.mpr hin
      rw [if_pos (not_not.mp hout)]
      simp only [Bool.false_eq_true, false_iff, not_forall]
      refine ⟨0, Nat.succ_pos n, ?_⟩
      intro hf
      exact hin (by simpa using hf.1)

/-- Characterisation of `CanPlaceShip` by the cells of the placement. -/
theorem CanPlaceShip_iff (grid : Grid) (x y length : Int) (isHorizontal : Bool) :
    CanPlaceShip grid x y length isHorizontal = true ↔
      ∀ i : Int, 0 ≤ i → i < length →
        CellFree grid (shipCellX x isHorizontal i) (shipCellY y isHorizontal i) := by
  unfold CanPlaceShip
  rw [CanPlaceShip_loop_iff]
  constructor
  · intro h i h0 hl
    have := h i.toNat (by omega)
    have e : (0 : Int) + ((i.toNat : Nat) : Int) = i := by omega
    rw [e] at this
    exact this
  · intro h j hj
    have := h (j : Int) (by omega) (by omega)
    simpa using this

/-- The loop of `ApplyFill` writes `Ship` to the next `n` cells of the
placement and leaves every other cell alone. -/
theorem ApplyFill_loop_spec (x y : Int) (isHorizontal : Bool) (n : Nat) :
    ∀ (i : Int) (grid : Grid),
      (∀ j : Nat, j < n →
        InsideGrid (shipCellX x isHorizontal (i + j)) (shipCellY y isHorizontal (i + j))) →
      ∀ k : Fin 100,
        ((∃ j : Nat, j < n ∧
            IsCell k (shipCellX x isHorizontal (i + j)) (shipCellY y isHorizontal (i + j))) →
          ApplyFill.loop x y isHorizontal n i grid k = CellState.Ship) ∧
        ((¬ ∃ j : Nat, j < n ∧
            IsCell k (shipCellX x isHorizontal (i + j)) (shipCellY y isHorizontal (i + j))) →
          ApplyFill.loop x y isHorizontal n i grid k = grid k) := by
  induction n with
  | zero =>
    intro i grid _ k
    simp [ApplyFill.loop]
  | succ n ih =>
    intro i grid hin k
    obtain ⟨ex, ey⟩ := shipCell_eq x y isHorizontal i
    simp only [ApplyFill.loop, ex, ey]
    have hin0 : InsideGrid (shipCellX x isHorizontal i) (shipCellY y isHorizontal i) := by
      simpa using hin 0 (Nat.succ_pos n)
    have hin1 : ∀ j : Nat, j < n →
        InsideGrid (shipCellX x isHorizontal (i + 1 + j))
          (shipCellY y isHorizontal (i + 1 + j)) := by
      intro j hj
      have := hin (j + 1) (by omega)
      have e : i + 1 + (j : Int) = i + ((j + 1 : Nat) : Int) := by push_cast; ring
      rw [e]
      exact this
    obtain ⟨ih1, ih2⟩ := ih (i + 1)
      (gridSet grid (CellIndex (shipCellX x isHorizontal i) (shipCellY y isHorizontal i))
        CellState.Ship) hin1 k
    by_cases hrest : ∃ j : Nat, j < n ∧
        IsCell k (shipCellX x isHorizontal (i + 1 + j)) (shipCellY y isHorizontal (i + 1 + j))
    · constructor
      · intro _
        exact ih1 hrest
      · intro hno
        exfalso
        apply hno
        obtain ⟨j, hj, hc⟩ := hrest
        refine ⟨j + 1, by omega, ?_⟩
        have e : i + ((j + 1 : Nat) : Int) = i + 1 + (j : Int) := by push_cast; ring
        rw [e]
        exact hc
    · rw [ih2 hrest, gridSet_inside grid _ _ _ hin0 k]
      constructor
      · rintro ⟨j, hj, hc⟩
        cases j with
        | zero =>
          simp only [Nat.cast_zero, add_zero] at hc
          rw [if_pos hc]
        | succ j =>
          exfalso
          apply hrest
          refine ⟨j, by omega, ?_⟩
          have e : i + 1 + (j : Int) = i + ((j + 1 : Nat) : Int) := by push_cast; ring
          rw [e]
          exact hc
      · intro hno
        have : ¬ IsCell k (shipCellX x isHorizontal i) (shipCellY y isHorizontal i) := by
          intro hc
          apply hno
          exact ⟨0, Nat.succ_pos n, by simpa using hc⟩
        rw [if_neg this]

theorem inPlacement_iff_nat (k : Fin 100) (x y length : Int) (isHorizontal : Bool) :
    InPlacement k x y length isHorizontal ↔
      ∃ j : Nat, j < length.toNat ∧
        IsCell k (shipCellX x isHorizontal (0 + j)) (shipCellY y isHorizontal (0 + j)) := by
  unfold InPlacement
  constructor
  · rintro ⟨i, h0, hl, hc⟩
    refine ⟨i.toNat, by omega, ?_⟩
    have e : (0 : Int) + ((i.toNat : Nat) : Int) = i := by omega
    rw [e]
    exact hc
  · rintro ⟨j, hj, hc⟩
    refine ⟨(j : Int), by omega, by omega, ?_⟩
    simpa using hc

/-- The grid written by a successful `ApplyFill`. -/
theorem ApplyFill_grid_of_canPlace (grid : Grid) (x y length : Int) (isHorizontal : Bool)
    (h : CanPlaceShip grid x y length isHorizontal = true) (k : Fin 100) :
    (InPlacement k x y length isHorizontal →
      (ApplyFill grid x y length isHorizontal).2 k = CellState.Ship) ∧
    (¬ InPlacement k x y length isHorizontal →
      (ApplyFill grid x y length isHorizontal).2 k = grid k) := by
  have hin : ∀ j : Nat, j < length.toNat →
      InsideGrid (shipCellX x isHorizontal (0 + j)) (shipCellY y isHorizontal (0 + j)) := by
    intro j hj
    have := (CanPlaceShip_iff grid x y length isHorizontal).mp h (j : Int) (by omega) (by omega)
    simpa using this.1
  have hspec := ApplyFill_loop_spec x y isHorizontal length.toNat 0 grid hin k
  rw [inPlacement_iff_nat]
  simp only [ApplyFill, h, Bool.not_true, Bool.false_eq_true, if_false]
  exact hspec

theorem ApplyFill_fst (grid : Grid) (x y length : Int) (isHorizontal : Bool) :
    (ApplyFill grid x y length isHorizontal).1 = CanPlaceShip grid x y length isHorizontal := by
  unfold ApplyFill
  cases h : CanPlaceShip grid x y length isHorizontal <;> simp

theorem ApplyFill_of_not_canPlace (grid : Grid) (x y length : Int) (isHorizontal : Bool)
    (h : CanPlaceShip grid x y length isHorizontal = false) :
    ApplyFill grid x y length isHorizontal = (false, grid) := by
  simp [ApplyFill, h]

theorem isCell_cellFin (cx cy : Int) (h : InsideGrid cx cy) : IsCell (cellFin cx cy) cx cy := by
  unfold InsideGrid at h
  unfold IsCell cellFin
  simp only
  omega

theorem isCell_iff_eq_cellFin (k : Fin 100) (cx cy : Int) (h : InsideGrid cx cy) :
    IsCell k cx cy ↔ cellFin cx cy = k := by
  have hc := isCell_cellFin cx cy h
  unfold IsCell at *
  constructor
  · intro hk
    apply Fin.ext
    omega
  · intro e
    rw [← e]
    exact hc

/-- After a successful `ApplyFill` the changed cells are the cells of the
placement. -/
theorem changedCells_ApplyFill (grid : Grid) (x y length : Int) (isHorizontal : Bool)
    (h : CanPlaceShip grid x y length isHorizontal = true) :
    changedCells grid (ApplyFill grid x y length isHorizontal).2 =
      (Finset.range length.toNat).image
        (fun j : Nat => cellFin (shipCellX x isHorizontal j) (shipCellY y isHorizontal j)) := by
  have hfree := (CanPlaceShip_iff grid x y length isHorizontal).mp h
  ext k
  obtain ⟨h1, h2⟩ := ApplyFill_grid_of_canPlace grid x y length isHorizontal h k
  simp only [changedCells, Finset.mem_filter, Finset.mem_univ, true_and, Finset.mem_image,
    Finset.mem_range]
  constructor
  · intro hne
    by_cases hp : InPlacement k x y length isHorizontal
    · obtain ⟨i, h0, hl, hc⟩ := hp
      refine ⟨i.toNat, by omega, ?_⟩
      have e : ((i.toNat : Nat) : Int) = i := by omega
      rw [e]
      exact (isCell_iff_eq_cellFin k _ _ (hfree i h0 hl).1).mp hc
    · exact absurd (h2 hp) hne
  · rintro ⟨j, hj, hc⟩
    have hf := hfree (j : Int) (by omega) (by omega)
    have hcell := (isCell_iff_eq_cellFin k _ _ hf.1).mpr hc
    have hp : InPlacement k x y length isHorizontal := ⟨(j : Int), by omega, by omega, hcell⟩
    rw [h1 hp]
    exact fun e => hf.2 k hcell e.symm

theorem placement_cells_injOn (grid : Grid) (x y length : Int) (isHorizontal : Bool)
    (h : CanPlaceShip grid x y length isHorizontal = true) :
    Set.InjOn
      (fun j : Nat => cellFin (shipCellX x isHorizontal j) (shipCellY y isHorizontal j))
      (Finset.range length.toNat : Set Nat) := by
  have hfree := (CanPlaceShip_iff grid x y length isHorizontal).mp h
  intro a ha b hb hab
  simp only [Finset.coe_range, Set.mem_Iio] at ha hb
  have hfa := (hfree (a : Int) (by omega) (by omega)).1
  have hfb := (hfree (b : Int) (by omega) (by omega)).1
  have hca := isCell_cellFin _ _ hfa
  simp only at hab
  rw [hab] at hca
  have hcb := isCell_cellFin _ _ hfb
  unfold IsCell at hca hcb
  unfold InsideGrid at hfa hfb
  cases isHorizontal <;> simp only [shipCellX, shipCellY, if_true, if_false,
    Bool.false_eq_true] at hca hcb hfa hfb <;> omega

theorem card_changedCells_ApplyFill (grid : Grid) (x y length : Int) (isHorizontal : Bool)
    (h : CanPlaceShip grid x y length isHorizontal = true) :
    (changedCells grid (ApplyFill grid x y length isHorizontal).2).card = length.toNat := by
  rw [changedCells_ApplyFill grid x y length isHorizontal h,
    Finset.card_image_of_injOn (placement_cells_injOn grid x y length isHorizontal h),
    Finset.card_range]

theorem changed_cell_is_ship (grid : Grid) (x y length : Int) (isHorizontal : Bool)
    (h : CanPlaceShip grid x y length isHorizontal = true) (k : Fin 100)
    (hk : k ∈ changedCells grid (ApplyFill grid x y length isHorizontal).2) :
    (ApplyFill grid x y length isHorizontal).2 k = CellState.Ship := by
  obtain ⟨h1, h2⟩ := ApplyFill_grid_of_canPlace grid x y length isHorizontal h k
  simp only [changedCells, Finset.mem_filter, Finset.mem_univ, true_and] at hk
  by_cases hp : InPlacement k x y length isHorizontal
  · exact h1 hp
  · exact absurd (h2 hp) hk

/-- A ship of at least one cell cannot be placed twice at the same location. -/
theorem canPlace_after_fill (grid : Grid) (x y length : Int) (isHorizontal : Bool)
    (hlen : 1 ≤ length) (h : CanPlaceShip grid x y length isHorizontal = true) :
    CanPlaceShip (ApplyFill grid x y length isHorizontal).2 x y length isHorizontal = false := by
  have hfree := (CanPlaceShip_iff grid x y length isHorizontal).mp h
  have hf0 := hfree 0 (le_refl 0) (by omega)
  have hc0 := isCell_cellFin _ _ hf0.1
  have hp : InPlacement (cellFin (shipCellX x isHorizontal 0) (shipCellY y isHorizontal 0))
      x y length isHorizontal := ⟨0, le_refl 0, by omega, hc0⟩
  have hship := (ApplyFill_grid_of_canPlace grid x y length isHorizontal h _).1 hp
  cases hsec : CanPlaceShip (ApplyFill grid x y length isHorizontal).2 x y length isHorizontal
  · rfl
  · have := (CanPlaceShip_iff _ x y length isHorizontal).mp hsec 0 (le_refl 0) (by omega)
    exact absurd hship (this.2 _ hc0)

/-! ## Lemmas on the receive handlers -/

theorem findIndex_iff (locations : List Nat) (x y : Nat) :
    findIndex locations (CellIndex x y) = true ↔ (y * 10 + x) ∈ locations := by
  unfold findIndex CellIndex kGridCols
  simp only [List.any_eq_true, decide_eq_true_eq]
  constructor
  · rintro ⟨v, hv, e⟩
    have : v = y * 10 + x := by omega
    rw [← this]
    exact hv
  · intro h
    exact ⟨y * 10 + x, h, by push_cast; ring⟩

theorem insideGrid_of_lt (x y : Nat) (hx : x < 10) (hy : y < 10) :
    InsideGrid (x : Int) (y : Int) := by
  unfold InsideGrid
  omega

theorem isCell_nat_iff (k : Fin 100) (x y : Nat) :
    IsCell k (x : Int) (y : Int) ↔ k.val = y * 10 + x := by
  unfold IsCell
  omega

theorem toU16_of_lt (x : Nat) (hx : x < 10) : toU16 (x : Int) = x := by
  unfold toU16
  omega

theorem serverReceive_cellRequest (s : Session) (data : List Byte) (x y : Nat)
    (h : IsCellRequest data x y) :
    serverReceive s data = serverOnCellRequest s (x : Int) (y : Int) := by
  obtain ⟨hl, ht, hx, hy⟩ := h
  simp [serverReceive, hl, ht, hx, hy, MessageType.CellRequest, MessageType.CellUpdate,
    sizeofCellRequestMessage]

theorem clientReceive_cellRequest (s : Session) (data : List Byte) (x y : Nat)
    (h : IsCellRequest data x y) :
    clientReceive s data = clientOnCellRequest s (x : Int) (y : Int) := by
  obtain ⟨hl, ht, hx, hy⟩ := h
  simp [clientReceive, hl, ht, hx, hy, MessageType.CellRequest, MessageType.CellUpdate,
    MessageType.GridSnapshot, MessageType.FinishedPreparing, MessageType.TurnUpdate,
    sizeofCellRequestMessage]

theorem receive_cellUpdate (side : Side) (s : Session) (data : List Byte) (x y : Nat)
    (filled : CellState) (h : IsCellUpdate data x y filled) :
    receive side s data = (onCellUpdate side.identity s (x : Int) (y : Int) filled, []) := by
  obtain ⟨hl, ht, hx, hy, hf⟩ := h
  cases side <;>
    simp [receive, serverReceive, clientReceive, hl, ht, hx, hy, hf, MessageType.CellUpdate,
      sizeofCellUpdateMessage, Side.identity]

theorem serverOnCellRequest_miss (s : Session) (x y : Int) (hin : InsideGrid x y)
    (hm : findIndex s.shipLocations (CellIndex x y) = false) :
    serverOnCellRequest s x y =
      ({ s with playerGrid := gridSet s.playerGrid (CellIndex x y) CellState.Miss,
                currentTurn := if s.currentTurn = Turn.Server then Turn.Client else Turn.Server },
        [Message.CellUpdate (toU16 x) (toU16 y) CellState.Miss,
         Message.TurnUpdate (if s.currentTurn = Turn.Server then 1 else 0)]) := by
  have hout := (not_outside_iff x y).mpr hin
  unfold serverOnCellRequest
  rw [if_neg hout]
  simp only [hm, Bool.false_eq_true, if_false, Bool.not_false, if_true]
  by_cases ht : s.currentTurn = Turn.Server <;> simp [ht]

theorem serverOnCellRequest_hit (s : Session) (x y : Int) (hin : InsideGrid x y)
    (hh : findIndex s.shipLocations (CellIndex x y) = true) :
    serverOnCellRequest s x y =
      (if s.hittedShipCount + 1 ≥ 20 ∧ s.currentPhase ≠ Phase.Finished then
        { s with playerGrid := gridSet s.playerGrid (CellIndex x y) CellState.Hit,
                 hittedShipCount := s.hittedShipCount + 1,
                 outcome := GameResult.Defeat, currentPhase := Phase.Finished,
                 currentTurn := Turn.None }
       else
        { s with playerGrid := gridSet s.playerGrid (CellIndex x y) CellState.Hit,
                 hittedShipCount := s.hittedShipCount + 1 },
        [Message.CellUpdate (toU16 x) (toU16 y) CellState.Hit]) := by
  have hout := (not_outside_iff x y).mpr hin
  unfold serverOnCellRequest
  rw [if_neg hout]
  simp only [hh, if_true, Bool.not_true, Bool.false_eq_true, if_false]

theorem clientOnCellRequest_miss (s : Session) (x y : Int) (hin : InsideGrid x y)
    (hm : findIndex s.shipLocations (CellIndex x y) = false) :
    clientOnCellRequest s x y =
      ({ s with playerGrid := gridSet s.playerGrid (CellIndex x y) CellState.Miss },
        [Message.CellUpdate (toU16 x) (toU16 y) CellState.Miss, Message.TurnUpdate 1]) := by
  have hout := (not_outside_iff x y).mpr hin
  unfold clientOnCellRequest
  rw [if_neg hout]
  simp only [hm, Bool.false_eq_true, if_false, Bool.not_false, if_true]

theorem clientOnCellRequest_hit (s : Session) (x y : Int) (hin : InsideGrid x y)
    (hh : findIndex s.shipLocations (CellIndex x y) = true) :
    clientOnCellRequest s x y =
      (if s.hittedShipCount + 1 ≥ 20 ∧ s.currentPhase ≠ Phase.Finished then
        { s with playerGrid := gridSet s.playerGrid (CellIndex x y) CellState.Hit,
                 hittedShipCount := s.hittedShipCount + 1,
                 outcome := GameResult.Defeat, currentPhase := Phase.Finished,
                 currentTurn := Turn.None }
       else
        { s with playerGrid := gridSet s.playerGrid (CellIndex x y) CellState.Hit,
                 hittedShipCount := s.hittedShipCount + 1 },
        [Message.CellUpdate (toU16 x) (toU16 y) CellState.Hit]) := by
  have hout := (not_outside_iff x y).mpr hin
  unfold clientOnCellRequest
  rw [if_neg hout]
  simp only [hh, if_true, Bool.not_true, Bool.false_eq_true, if_false]
  split <;> rfl

theorem receive_cellRequest (side : Side) (s : Session) (data : List Byte) (x y : Nat)
    (h : IsCellRequest data x y) :
    receive side s data =
      match side with
      | Side.Host => serverOnCellRequest s (x : Int) (y : Int)
      | Side.Joiner => clientOnCellRequest s (x : Int) (y : Int) := by
  cases side
  · exact serverReceive_cellRequest s data x y h
  · exact clientReceive_cellRequest s data x y h

theorem gridGet_cellFin (grid : Grid) (cx cy : Int) (h : InsideGrid cx cy) :
    gridGet grid (CellIndex cx cy) = grid (cellFin cx cy) :=
  gridGet_inside grid cx cy h _ (isCell_cellFin cx cy h)

theorem onCellUpdate_other (own : Turn) (s : Session) (x y : Int) (filled : CellState)
    (hin : InsideGrid x y) (ht : s.currentTurn ≠ own) :
    onCellUpdate own s x y filled =
      { s with playerGrid := gridSet s.playerGrid (CellIndex x y) filled } := by
  have hb : x ≥ 0 ∧ x < kGridCols ∧ y ≥ 0 ∧ y < kGridRows := by
    unfold InsideGrid at hin
    unfold kGridCols kGridRows
    omega
  unfold onCellUpdate
  rw [if_pos hb, if_neg ht]

theorem onCellUpdate_own (own : Turn) (s : Session) (x y : Int) (filled : CellState)
    (hin : InsideGrid x y) (ht : s.currentTurn = own) :
    onCellUpdate own s x y filled =
      if filled = CellState.Hit ∧ s.enemyGrid (cellFin x y) ≠ CellState.Hit ∧
          s.currentPhase ≠ Phase.Finished ∧ s.outcome ≠ GameResult.Defeat then
        if s.enemyHitCount + 1 ≥ 20 then
          { s with enemyGrid := gridSet s.enemyGrid (CellIndex x y) filled,
                   enemyHitCount := s.enemyHitCount + 1,
                   outcome := GameResult.Victory, currentPhase := Phase.Finished,
                   currentTurn := Turn.None }
        else
          { s with enemyGrid := gridSet s.enemyGrid (CellIndex x y) filled,
                   enemyHitCount := s.enemyHitCount + 1 }
      else { s with enemyGrid := gridSet s.enemyGrid (CellIndex x y) filled } := by
  have hb : x ≥ 0 ∧ x < kGridCols ∧ y ≥ 0 ∧ y < kGridRows := by
    unfold InsideGrid at hin
    unfold kGridCols kGridRows
    omega
  unfold onCellUpdate
  rw [if_pos hb, if_pos ht]
  simp only [gridGet_cellFin _ _ _ hin]

theorem onCellUpdate_outside (own : Turn) (s : Session) (x y : Int) (filled : CellState)
    (hout : ¬ InsideGrid x y) : onCellUpdate own s x y filled = s := by
  have hb : ¬ (x ≥ 0 ∧ x < kGridCols ∧ y ≥ 0 ∧ y < kGridRows) := by
    unfold InsideGrid at hout
    unfold kGridCols kGridRows
    omega
  unfold onCellUpdate
  rw [if_neg hb]

theorem serverOnCellRequest_outside (s : Session) (x y : Int) (hout : ¬ InsideGrid x y) :
    serverOnCellRequest s x y = (s, []) := by
  have hb := (not_outside_iff x y).not.mpr hout
  unfold serverOnCellRequest
  rw [if_pos (not_not.mp hb)]

theorem clientOnCellRequest_outside (s : Session) (x y : Int) (hout : ¬ InsideGrid x y) :
    clientOnCellRequest s x y = (s, []) := by
  have hb := (not_outside_iff x y).not.mpr hout
  unfold clientOnCellRequest
  rw [if_pos (not_not.mp hb)]

/-! ## Lemmas on the main loop -/

theorem endOfFrame_counts (r : Session × List Message) :
    (endOfFrame r).1.outcome = r.1.outcome ∧
    (endOfFrame r).1.hittedShipCount = r.1.hittedShipCount ∧
    (endOfFrame r).1.enemyHitCount = r.1.enemyHitCount := by
  unfold endOfFrame
  split_ifs <;> exact ⟨rfl, rfl, rfl⟩

theorem placementStep_counts (s : Session) (input : FrameInput) (ship : Ship) :
    (placementStep s input ship).outcome = s.outcome ∧
    (placementStep s input ship).hittedShipCount = s.hittedShipCount ∧
    (placementStep s input ship).enemyHitCount = s.enemyHitCount := by
  unfold placementStep
  simp only
  split_ifs <;> exact ⟨rfl, rfl, rfl⟩

theorem serverPhaseStep_counts (s : Session) (input : FrameInput) :
    (serverPhaseStep s input).1.outcome = s.outcome ∧
    (serverPhaseStep s input).1.hittedShipCount = s.hittedShipCount ∧
    (serverPhaseStep s input).1.enemyHitCount = s.enemyHitCount := by
  unfold serverPhaseStep
  split
  · split
    · exact placementStep_counts s input _
    · split_ifs <;> exact ⟨rfl, rfl, rfl⟩
  · split_ifs <;> exact ⟨rfl, rfl, rfl⟩
  · simp only
    split_ifs <;> exact ⟨rfl, rfl, rfl⟩
  · split_ifs <;> exact ⟨rfl, rfl, rfl⟩

theorem clientPhaseStep_counts (s : Session) (input : FrameInput) :
    (clientPhaseStep s input).1.outcome = s.outcome ∧
    (clientPhaseStep s input).1.hittedShipCount = s.hittedShipCount ∧
    (clientPhaseStep s input).1.enemyHitCount = s.enemyHitCount := by
  unfold clientPhaseStep
  split
  · split
    · exact placementStep_counts s input _
    · split_ifs <;> exact ⟨rfl, rfl, rfl⟩
  · split_ifs <;> exact ⟨rfl, rfl, rfl⟩
  · simp only
    split_ifs <;> exact ⟨rfl, rfl, rfl⟩
  · split_ifs <;> exact ⟨rfl, rfl, rfl⟩

/-- A frame of the host changes neither the outcome nor the hit counters. -/
theorem serverFrame_counts (s : Session) (input : FrameInput) :
    (serverFrame s input).1.outcome = s.outcome ∧
    (serverFrame s input).1.hittedShipCount = s.hittedShipCount ∧
    (serverFrame s input).1.enemyHitCount = s.enemyHitCount := by
  unfold serverFrame
  split_ifs
  · exact ⟨rfl, rfl, rfl⟩
  · exact ⟨rfl, rfl, rfl⟩
  · obtain ⟨e1, e2, e3⟩ := endOfFrame_counts (serverPhaseStep s input)
    obtain ⟨f1, f2, f3⟩ := serverPhaseStep_counts s input
    exact ⟨e1.trans f1, e2.trans f2, e3.trans f3⟩

/-- A frame of the joiner changes neither the outcome nor the hit counters. -/
theorem clientFrame_counts (s : Session) (input : FrameInput) :
    (clientFrame s input).1.outcome = s.outcome ∧
    (clientFrame s input).1.hittedShipCount = s.hittedShipCount ∧
    (clientFrame s input).1.enemyHitCount = s.enemyHitCount := by
  unfold clientFrame
  split_ifs
  · exact ⟨rfl, rfl, rfl⟩
  · exact ⟨rfl, rfl, rfl⟩
  · obtain ⟨e1, e2, e3⟩ := endOfFrame_counts (clientPhaseStep s input)
    obtain ⟨f1, f2, f3⟩ := clientPhaseStep_counts s input
    exact ⟨e1.trans f1, e2.trans f2, e3.trans f3⟩

theorem defeatSound_of_counts (s t : Session) (h1 : t.outcome = s.outcome)
    (h2 : t.hittedShipCount = s.hittedShipCount) : DefeatSound s t := by
  unfold DefeatSound
  rw [h1, h2]
  exact ⟨le_refl _, fun h => Or.inl h⟩

theorem defeatSound_refl (s : Session) : DefeatSound s s :=
  defeatSound_of_counts s s rfl rfl

theorem onCellUpdate_defeatSound (own : Turn) (s : Session) (x y : Int) (filled : CellState) :
    DefeatSound s (onCellUpdate own s x y filled) := by
  unfold onCellUpdate DefeatSound
  simp only
  split_ifs <;> simp <;> intro h <;> exact Or.inl h

theorem serverOnCellRequest_defeatSound (s : Session) (x y : Int) :
    DefeatSound s (serverOnCellRequest s x y).1 := by
  unfold serverOnCellRequest DefeatSound
  simp only
  split_ifs <;> simp_all

theorem clientOnCellRequest_defeatSound (s : Session) (x y : Int) :
    DefeatSound s (clientOnCellRequest s x y).1 := by
  unfold clientOnCellRequest DefeatSound
  simp only
  split_ifs <;> simp_all

theorem serverReceive_defeatSound (s : Session) (data : List Byte) :
    DefeatSound s (serverReceive s data).1 := by
  unfold serverReceive
  simp only
  split_ifs
  all_goals first
    | exact defeatSound_refl s
    | exact onCellUpdate_defeatSound _ s _ _ _
    | exact serverOnCellRequest_defeatSound s _ _

theorem clientReceive_defeatSound (s : Session) (data : List Byte) :
    DefeatSound s (clientReceive s data).1 := by
  unfold clientReceive
  simp only
  split_ifs
  all_goals first
    | exact defeatSound_refl s
    | exact onCellUpdate_defeatSound _ s _ _ _
    | exact clientOnCellRequest_defeatSound s _ _

theorem step_defeatSound (side : Side) (s : Session) (e : Event) :
    DefeatSound s (step side s e).1 := by
  unfold step
  split_ifs
  · exact defeatSound_refl s
  · cases side <;> cases e <;> simp only [serverStep, clientStep]
    · exact defeatSound_of_counts s _ rfl rfl
    · split_ifs <;> exact defeatSound_of_counts s _ rfl rfl
    · exact serverReceive_defeatSound s _
    · exact defeatSound_of_counts s _ (serverFrame_counts s _).1 (serverFrame_counts s _).2.1
    · exact defeatSound_refl s
    · exact defeatSound_of_counts s _ rfl rfl
    · exact clientReceive_defeatSound s _
    · split_ifs
      · exact defeatSound_refl s
      · exact defeatSound_of_counts s _ (clientFrame_counts s _).1 (clientFrame_counts s _).2.1

/-- In every reachable state a recorded Defeat comes with at least 20 hits
taken. -/
theorem reachable_defeat_hits (side : Side) (s : Session) (h : Reachable side s) :
    s.outcome = GameResult.Defeat → 20 ≤ s.hittedShipCount := by
  induction h with
  | init => intro h; cases side <;> simp [initialSession] at h
  | step s e _ ih =>
    intro hd
    obtain ⟨hle, hs⟩ := step_defeatSound side s e
    rcases hs hd with h0 | h20
    · exact le_trans (ih h0) hle
    · exact h20

theorem reachable_run (side : Side) (events : List Event) :
    ∀ s : Session, Reachable side s → Reachable side (run side s events) := by
  induction events with
  | nil => intro s h; exact h
  | cons e rest ih =>
    intro s h
    exact ih _ (Reachable.step s e h)

/-! ## Lemmas on the attack exchange -/

theorem u16_roundtrip (v : Nat) (hv : v < 65536) :
    (u16lo v).val + 256 * (u16hi v).val = v := by
  unfold u16lo u16hi
  simp only
  omega

theorem isCellRequest_bytes (x y : Nat) (hx : x < 65536) (hy : y < 65536) :
    IsCellRequest (Message.bytes (Message.CellRequest x y)) x y := by
  refine ⟨rfl, rfl, ?_, ?_⟩
  · exact u16_roundtrip x hx
  · exact u16_roundtrip y hy

theorem isCellUpdate_bytes (x y : Nat) (filled : CellState) (hx : x < 65536) (hy : y < 65536) :
    IsCellUpdate (Message.bytes (Message.CellUpdate x y filled)) x y filled := by
  refine ⟨rfl, rfl, ?_, ?_, rfl⟩
  · exact u16_roundtrip x hx
  · exact u16_roundtrip y hy

theorem serverReceive_turnUpdate (s : Session) (t : Byte) :
    receive Side.Host s (Message.bytes (Message.TurnUpdate t)) =
      ({ s with currentTurn := if t = 0 then Turn.Server else Turn.Client },
        [Message.TurnUpdate t]) := by
  simp [receive, serverReceive, Message.bytes, byteAt, MessageType.TurnUpdate,
    MessageType.CellUpdate, MessageType.CellRequest, sizeofTurnUpdateMessage]

theorem clientReceive_turnUpdate (s : Session) (t : Byte) :
    receive Side.Joiner s (Message.bytes (Message.TurnUpdate t)) =
      ({ s with currentTurn := if t = 0 then Turn.Server else Turn.Client }, []) := by
  simp [receive, clientReceive, Message.bytes, byteAt, MessageType.TurnUpdate,
    MessageType.CellUpdate, MessageType.CellRequest, MessageType.GridSnapshot,
    MessageType.FinishedPreparing, sizeofTurnUpdateMessage]

theorem onCellUpdate_turn_of_ne_hit (own : Turn) (s : Session) (x y : Int) (filled : CellState)
    (hf : filled ≠ CellState.Hit) :
    (onCellUpdate own s x y filled).currentTurn = s.currentTurn := by
  unfold onCellUpdate
  simp only
  split_ifs <;> simp_all

theorem onCellUpdate_turn_or_finished (own : Turn) (s : Session) (x y : Int)
    (filled : CellState) :
    (onCellUpdate own s x y filled).currentTurn = s.currentTurn ∨
      (onCellUpdate own s x y filled).currentPhase = Phase.Finished := by
  unfold onCellUpdate
  simp only
  split_ifs <;> simp

theorem miss_ne_hit : CellState.Miss ≠ CellState.Hit := by decide

theorem findIndex_false_of_not_mem (locations : List Nat) (x y : Nat)
    (h : (y * 10 + x) ∉ locations) : findIndex locations (CellIndex x y) = false := by
  cases hf : findIndex locations (CellIndex x y)
  · rfl
  · exact absurd ((findIndex_iff locations x y).mp hf) h

/-! ## Lemmas on the control state of a step -/

theorem receiveEffect_of_eq (s t : Session) (h1 : t.currentPhase = s.currentPhase)
    (h2 : t.outcome = s.outcome) (h3 : t.enemyHitCount = s.enemyHitCount) :
    ReceiveEffect s t :=
  Or.inl ⟨h1, h2, Or.inl h3⟩

theorem onCellUpdate_receiveEffect (own : Turn) (s : Session) (x y : Int) (filled : CellState) :
    ReceiveEffect s (onCellUpdate own s x y filled) := by
  unfold onCellUpdate ReceiveEffect
  simp only
  split_ifs with h1 h2 h3 h4
  · right
    simp [h3.2.2.1]
  · left
    refine ⟨rfl, rfl, Or.inr ⟨h3.2.2.1, rfl, ?_⟩⟩
    simp only at h4 ⊢
    omega
  · left; simp
  · left; simp
  · left; simp

theorem serverOnCellRequest_receiveEffect (s : Session) (x y : Int) :
    ReceiveEffect s (serverOnCellRequest s x y).1 := by
  unfold serverOnCellRequest ReceiveEffect
  simp only
  split_ifs <;> simp_all

theorem clientOnCellRequest_receiveEffect (s : Session) (x y : Int) :
    ReceiveEffect s (clientOnCellRequest s x y).1 := by
  unfold clientOnCellRequest ReceiveEffect
  simp only
  split_ifs <;> simp_all

theorem serverReceive_receiveEffect (s : Session) (data : List Byte) :
    ReceiveEffect s (serverReceive s data).1 := by
  unfold serverReceive
  simp only
  split_ifs
  all_goals first
    | exact receiveEffect_of_eq s _ rfl rfl rfl
    | exact onCellUpdate_receiveEffect _ s _ _ _
    | exact serverOnCellRequest_receiveEffect s _ _

theorem clientReceive_receiveEffect (s : Session) (data : List Byte) :
    ReceiveEffect s (clientReceive s data).1 := by
  unfold clientReceive
  simp only
  split_ifs
  all_goals first
    | exact receiveEffect_of_eq s _ rfl rfl rfl
    | exact onCellUpdate_receiveEffect _ s _ _ _
    | exact clientOnCellRequest_receiveEffect s _ _

theorem receive_receiveEffect (side : Side) (s : Session) (data : List Byte) :
    ReceiveEffect s (receive side s data).1 := by
  cases side
  · exact serverReceive_receiveEffect s data
  · exact clientReceive_receiveEffect s data

theorem frameEffect_refl (side : Side) (s : Session) : FrameEffect side s s :=
  ⟨rfl, rfl, rfl, rfl, Or.inl rfl, rfl, Or.inl rfl, Or.inl rfl, Or.inl rfl⟩

theorem placementStep_fleet (s : Session) (input : FrameInput) (ship : Ship)
    (hship : s.ships[s.currentShipIndex]? = some ship) :
    (placementStep s input ship).ships.length = s.ships.length ∧
    ((placementStep s input ship).currentShipIndex = s.currentShipIndex ∨
      ((placementStep s input ship).currentShipIndex = s.currentShipIndex + 1 ∧
        s.currentShipIndex < s.ships.length)) ∧
    (placementStep s input ship).currentPhase = s.currentPhase ∧
    (placementStep s input ship).currentTurn = s.currentTurn ∧
    (placementStep s input ship).serverFinishedPreparing = s.serverFinishedPreparing ∧
    (placementStep s input ship).clientFinishedPreparing = s.clientFinishedPreparing ∧
    (placementStep s input ship).exitRequested = s.exitRequested := by
  have hlt : s.currentShipIndex < s.ships.length := by
    by_contra hge
    rw [List.getElem?_eq_none (by omega)] at hship
    exact absurd hship (by simp)
  unfold placementStep
  simp only
  split_ifs <;> simp [hlt]

theorem endOfFrame_spec (r : Session × List Message) :
    endOfFrame r = r ∨
    (r.1.currentPhase = Phase.Preparing ∧ r.1.clientFinishedPreparing = true ∧
      r.1.serverFinishedPreparing = true ∧
      endOfFrame r = ({ r.1 with currentPhase := Phase.Transition }, r.2)) := by
  unfold endOfFrame
  split_ifs with h1 h2
  · exact Or.inl rfl
  · right
    simp only [Bool.and_eq_true, decide_eq_true_eq] at h2
    exact ⟨h2.2, h2.1.1, h2.1.2, rfl⟩
  · exact Or.inl rfl

theorem serverPhaseStep_frameEffect (s : Session) (input : FrameInput) :
    FrameEffect Side.Host s (serverPhaseStep s input).1 ∧
    ((serverPhaseStep s input).1.currentPhase = s.currentPhase ∨
      (s.currentPhase = Phase.Transition ∧
        (serverPhaseStep s input).1.currentPhase = Phase.Battle)) := by
  unfold serverPhaseStep
  split
  · rename_i hp
    split
    · rename_i ship hship
      obtain ⟨h1, h2, h3, h4, h5, h6, _⟩ := placementStep_fleet s input ship hship
      obtain ⟨c1, c2, c3⟩ := placementStep_counts s input ship
      refine ⟨⟨c1, c2, c3, h6, Or.inl h5, h1, h2, Or.inl h4, Or.inl h3⟩, Or.inl h3⟩
    · rename_i hnone
      have hge : s.ships.length ≤ s.currentShipIndex := by
        rw [List.getElem?_eq_none_iff] at hnone
        exact hnone
      split_ifs
      · exact ⟨⟨rfl, rfl, rfl, rfl, Or.inr ⟨rfl, hp, hge⟩, rfl, Or.inl rfl, Or.inl rfl,
          Or.inl rfl⟩, Or.inl rfl⟩
      · exact ⟨frameEffect_refl _ s, Or.inl rfl⟩
  · rename_i hp
    split_ifs
    · exact ⟨⟨rfl, rfl, rfl, rfl, Or.inl rfl, rfl, Or.inl rfl, Or.inr ⟨hp, rfl⟩,
        Or.inr (Or.inr ⟨hp, rfl⟩)⟩, Or.inr ⟨hp, rfl⟩⟩
    · exact ⟨frameEffect_refl _ s, Or.inl rfl⟩
  · simp only
    split_ifs <;>
      exact ⟨⟨rfl, rfl, rfl, rfl, Or.inl rfl, rfl, Or.inl rfl, Or.inl rfl, Or.inl rfl⟩,
        Or.inl rfl⟩
  · split_ifs <;>
      exact ⟨⟨rfl, rfl, rfl, rfl, Or.inl rfl, rfl, Or.inl rfl, Or.inl rfl, Or.inl rfl⟩,
        Or.inl rfl⟩

theorem clientPhaseStep_frameEffect (s : Session) (input : FrameInput) :
    FrameEffect Side.Joiner s (clientPhaseStep s input).1 ∧
    ((clientPhaseStep s input).1.currentPhase = s.currentPhase ∨
      (s.currentPhase = Phase.Transition ∧
        (clientPhaseStep s input).1.currentPhase = Phase.Battle)) := by
  unfold clientPhaseStep
  split
  · rename_i hp
    split
    · rename_i ship hship
      obtain ⟨h1, h2, h3, h4, h5, h6, _⟩ := placementStep_fleet s input ship hship
      obtain ⟨c1, c2, c3⟩ := placementStep_counts s input ship
      refine ⟨⟨c1, c2, c3, h5, Or.inl h6, h1, h2, Or.inl h4, Or.inl h3⟩, Or.inl h3⟩
    · rename_i hnone
      have hge : s.ships.length ≤ s.currentShipIndex := by
        rw [List.getElem?_eq_none_iff] at hnone
        exact hnone
      split_ifs
      · exact ⟨⟨rfl, rfl, rfl, rfl, Or.inr ⟨rfl, hp, hge⟩, rfl, Or.inl rfl, Or.inl rfl,
          Or.inl rfl⟩, Or.inl rfl⟩
      · exact ⟨frameEffect_refl _ s, Or.inl rfl⟩
  · rename_i hp
    split_ifs
    · exact ⟨⟨rfl, rfl, rfl, rfl, Or.inl rfl, rfl, Or.inl rfl, Or.inr ⟨hp, rfl⟩,
        Or.inr (Or.inr ⟨hp, rfl⟩)⟩, Or.inr ⟨hp, rfl⟩⟩
    · exact ⟨frameEffect_refl _ s, Or.inl rfl⟩
  · simp only
    split_ifs <;>
      exact ⟨⟨rfl, rfl, rfl, rfl, Or.inl rfl, rfl, Or.inl rfl, Or.inl rfl, Or.inl rfl⟩,
        Or.inl rfl⟩
  · split_ifs <;>
      exact ⟨⟨rfl, rfl, rfl, rfl, Or.inl rfl, rfl, Or.inl rfl, Or.inl rfl, Or.inl rfl⟩,
        Or.inl rfl⟩

/-- The end of the iteration after a phase switch keeps the frame effect. -/
theorem endOfFrame_frameEffect (side : Side) (s : Session) (r : Session × List Message)
    (h : FrameEffect side s r.1)
    (hp : r.1.currentPhase = s.currentPhase ∨
      (s.currentPhase = Phase.Transition ∧ r.1.currentPhase = Phase.Battle)) :
    FrameEffect side s (endOfFrame r).1 := by
  rcases endOfFrame_spec r with e | ⟨hprep, hc, hs, e⟩
  · rw [e]; exact h
  · rw [e]
    obtain ⟨h1, h2, h3, h4, h5, h6, h7, h8, _⟩ := h
    have hsp : s.currentPhase = Phase.Preparing := by
      rcases hp with hp | ⟨_, hb⟩
      · rw [← hp]; exact hprep
      · rw [hb] at hprep; exact absurd hprep (by decide)
    have hflags : side.localDone r.1 = true ∧ side.remoteDone r.1 = true := by
      cases side
      · exact ⟨hs, hc⟩
      · exact ⟨hc, hs⟩
    refine ⟨h1, h2, h3, ?_, ?_, h6, h7, ?_, Or.inr (Or.inl ⟨hsp, rfl, ?_, ?_⟩)⟩
    · cases side <;> exact h4
    · cases side <;> exact h5
    · rcases h8 with h8 | ⟨ht, _⟩
      · exact Or.inl h8
      · rw [hsp] at ht; exact absurd ht (by decide)
    · cases side <;> exact hflags.1
    · cases side <;> exact hflags.2

theorem serverFrame_frameEffect (s : Session) (input : FrameInput) :
    FrameEffect Side.Host s (serverFrame s input).1 := by
  unfold serverFrame
  split_ifs
  · exact frameEffect_refl _ s
  · exact frameEffect_refl _ s
  · exact endOfFrame_frameEffect Side.Host s _ (serverPhaseStep_frameEffect s input).1
      (serverPhaseStep_frameEffect s input).2

theorem clientFrame_frameEffect (s : Session) (input : FrameInput) :
    FrameEffect Side.Joiner s (clientFrame s input).1 := by
  unfold clientFrame
  split_ifs
  · exact frameEffect_refl _ s
  · exact frameEffect_refl _ s
  · exact endOfFrame_frameEffect Side.Joiner s _ (clientPhaseStep_frameEffect s input).1
      (clientPhaseStep_frameEffect s input).2

theorem keepsFleet_refl (side : Side) (s : Session) : KeepsFleet side s s :=
  ⟨rfl, rfl, rfl, rfl, Or.inl rfl⟩

theorem onCellUpdate_keepsFleet (side : Side) (own : Turn) (s : Session) (x y : Int)
    (filled : CellState) : KeepsFleet side s (onCellUpdate own s x y filled) := by
  unfold onCellUpdate KeepsFleet
  simp only
  cases side <;> split_ifs <;> simp [Side.localDone, Side.remoteDone]

theorem serverOnCellRequest_keepsFleet (side : Side) (s : Session) (x y : Int) :
    KeepsFleet side s (serverOnCellRequest s x y).1 := by
  unfold serverOnCellRequest KeepsFleet
  simp only
  cases side <;> split_ifs <;> simp [Side.localDone, Side.remoteDone]

theorem clientOnCellRequest_keepsFleet (side : Side) (s : Session) (x y : Int) :
    KeepsFleet side s (clientOnCellRequest s x y).1 := by
  unfold clientOnCellRequest KeepsFleet
  simp only
  cases side <;> split_ifs <;> simp [Side.localDone, Side.remoteDone]

theorem receive_keepsFleet (side : Side) (s : Session) (data : List Byte) :
    KeepsFleet side s (receive side s data).1 := by
  cases side
  · unfold receive serverReceive
    simp only
    split_ifs
    all_goals first
      | exact keepsFleet_refl _ s
      | exact onCellUpdate_keepsFleet _ _ s _ _ _
      | exact serverOnCellRequest_keepsFleet _ s _ _
      | exact ⟨rfl, rfl, rfl, rfl, Or.inl rfl⟩
      | exact ⟨rfl, rfl, rfl, rfl, Or.inr rfl⟩
  · unfold receive clientReceive
    simp only
    split_ifs
    all_goals first
      | exact keepsFleet_refl _ s
      | exact onCellUpdate_keepsFleet _ _ s _ _ _
      | exact clientOnCellRequest_keepsFleet _ s _ _
      | exact ⟨rfl, rfl, rfl, rfl, Or.inl rfl⟩
      | exact ⟨rfl, rfl, rfl, rfl, Or.inr rfl⟩

/-- Every step is the handling of a packet, with its effect on the control
state, or has the effect of a frame. -/
theorem step_effect (side : Side) (s : Session) (e : Event) :
    ((∃ data, e = Event.Receive data) ∧ ReceiveEffect s (step side s e).1 ∧
      KeepsFleet side s (step side s e).1) ∨
    (((∃ input, e = Event.Frame input) ∨ (step side s e).1.currentPhase = s.currentPhase) ∧
      FrameEffect side s (step side s e).1) := by
  unfold step
  split_ifs
  · exact Or.inr ⟨Or.inr rfl, frameEffect_refl _ s⟩
  · cases side <;> cases e <;> dsimp only [serverStep, clientStep]
    · exact Or.inr ⟨Or.inr rfl, rfl, rfl, rfl, rfl, Or.inl rfl, rfl, Or.inl rfl, Or.inl rfl,
        Or.inl rfl⟩
    · right
      split_ifs <;>
        exact ⟨Or.inr rfl, rfl, rfl, rfl, rfl, Or.inl rfl, rfl, Or.inl rfl, Or.inl rfl,
          Or.inl rfl⟩
    · exact Or.inl ⟨⟨_, rfl⟩, receive_receiveEffect Side.Host s _,
        receive_keepsFleet Side.Host s _⟩
    · exact Or.inr ⟨Or.inl ⟨_, rfl⟩, serverFrame_frameEffect s _⟩
    · exact Or.inr ⟨Or.inr rfl, frameEffect_refl _ s⟩
    · exact Or.inr ⟨Or.inr rfl, rfl, rfl, rfl, rfl, Or.inl rfl, rfl, Or.inl rfl, Or.inl rfl,
        Or.inl rfl⟩
    · exact Or.inl ⟨⟨_, rfl⟩, receive_receiveEffect Side.Joiner s _,
        receive_keepsFleet Side.Joiner s _⟩
    · right
      split_ifs
      · exact ⟨Or.inl ⟨_, rfl⟩, frameEffect_refl _ s⟩
      · exact ⟨Or.inl ⟨_, rfl⟩, clientFrame_frameEffect s _⟩

theorem step_phase_rank (side : Side) (s : Session) (e : Event) :
    s.currentPhase.rank ≤ (step side s e).1.currentPhase.rank := by
  rcases step_effect side s e with ⟨_, h, _⟩ | ⟨_, h⟩
  · rcases h with ⟨hp, _⟩ | ⟨_, hf, _⟩
    · rw [hp]
    · rw [hf]
      cases s.currentPhase <;> simp [Phase.rank]
  · obtain ⟨_, _, _, _, _, _, _, _, hp⟩ := h
    rcases hp with hp | ⟨h1, h2, _⟩ | ⟨h1, h2⟩
    · rw [hp]
    · rw [h1, h2]; simp [Phase.rank]
    · rw [h1, h2]; simp [Phase.rank]

theorem step_finished_stays (side : Side) (s : Session) (e : Event)
    (hf : s.currentPhase = Phase.Finished) :
    (step side s e).1.currentPhase = Phase.Finished := by
  have h := step_phase_rank side s e
  rw [hf] at h
  cases hp : (step side s e).1.currentPhase <;> rw [hp] at h <;> simp [Phase.rank] at h

theorem reachable_outcome_inv (side : Side) (s : Session) (h : Reachable side s) :
    (s.outcome ≠ GameResult.None ↔ s.currentPhase = Phase.Finished) ∧
    (s.currentPhase ≠ Phase.Finished → s.enemyHitCount < 20) ∧
    s.enemyHitCount ≤ 20 := by
  induction h with
  | init => cases side <;> simp [initialSession]
  | step s e _ ih =>
    obtain ⟨ih1, ih2, ih3⟩ := ih
    rcases step_effect side s e with ⟨_, h, _⟩ | ⟨_, h⟩
    · rcases h with ⟨hp, ho, hc⟩ | ⟨hnf, hf, _, ho, hc⟩
      · rw [hp, ho]
        rcases hc with hc | ⟨hnf, hc, hlt⟩
        · rw [hc]; exact ⟨ih1, ih2, ih3⟩
        · exact ⟨ih1, fun _ => hlt, by omega⟩
      · refine ⟨⟨fun _ => hf, fun _ => ho⟩, fun hne => absurd hf hne, ?_⟩
        have := ih2 hnf
        omega
    · obtain ⟨ho, _, hc, _, _, _, _, _, hp⟩ := h
      rw [ho, hc]
      rcases hp with hp | ⟨h1, h2, _⟩ | ⟨h1, h2⟩
      · rw [hp]; exact ⟨ih1, ih2, ih3⟩
      · rw [h1] at ih1 ih2
        rw [h2]
        refine ⟨?_, fun _ => ih2 (by decide), ih3⟩
        constructor
        · intro hne; exact absurd (ih1.mp hne) (by decide)
        · intro hx; exact absurd hx (by decide)
      · rw [h1] at ih1 ih2
        rw [h2]
        refine ⟨?_, fun _ => ih2 (by decide), ih3⟩
        constructor
        · intro hne; exact absurd (ih1.mp hne) (by decide)
        · intro hx; exact absurd hx (by decide)

theorem step_outcome_of_finished (side : Side) (s : Session) (e : Event)
    (hf : s.currentPhase = Phase.Finished) : (step side s e).1.outcome = s.outcome := by
  rcases step_effect side s e with ⟨_, h, _⟩ | ⟨_, h⟩
  · rcases h with ⟨_, ho, _⟩ | ⟨hnf, _⟩
    · exact ho
    · exact absurd hf hnf
  · exact h.1

theorem run_outcome_of_finished (side : Side) (events : List Event) :
    ∀ s : Session, s.currentPhase = Phase.Finished → (run side s events).outcome = s.outcome := by
  induction events with
  | nil => intro s _; rfl
  | cons e rest ih =>
    intro s hf
    have h1 := step_finished_stays side s e hf
    have h2 := step_outcome_of_finished side s e hf
    have := ih (step side s e).1 h1
    rw [h2] at this
    exact this

theorem onCellUpdate_turn_finished (own : Turn) (s : Session) (x y : Int) (filled : CellState)
    (hf : s.currentPhase = Phase.Finished) :
    (onCellUpdate own s x y filled).currentTurn = s.currentTurn := by
  unfold onCellUpdate
  simp only
  split_ifs <;> simp_all

theorem clientOnCellRequest_turn_finished (s : Session) (x y : Int)
    (hf : s.currentPhase = Phase.Finished) :
    (clientOnCellRequest s x y).1.currentTurn = s.currentTurn := by
  unfold clientOnCellRequest
  simp only
  split_ifs <;> simp_all

/-- In Finished the handling of a packet keeps the turn, unless the packet is a
`TurnUpdate` or, on the host, a `CellRequest`. -/
theorem receive_turn_finished (side : Side) (s : Session) (data : List Byte)
    (hf : s.currentPhase = Phase.Finished)
    (h1 : byteAt data 0 ≠ MessageType.TurnUpdate)
    (h2 : side = Side.Host → byteAt data 0 ≠ MessageType.CellRequest) :
    (receive side s data).1.currentTurn = s.currentTurn := by
  cases side
  · have h2 := h2 rfl
    unfold receive serverReceive
    simp only [h1, h2, if_false]
    split_ifs
    all_goals first
      | rfl
      | exact onCellUpdate_turn_finished _ s _ _ _ hf
  · unfold receive clientReceive
    simp only [h1, if_false]
    split_ifs
    all_goals first
      | rfl
      | exact onCellUpdate_turn_finished _ s _ _ _ hf
      | exact clientOnCellRequest_turn_finished s _ _ hf

theorem step_turn_finished (side : Side) (s : Session) (e : Event)
    (hf : s.currentPhase = Phase.Finished)
    (hk : ∀ data, e = Event.Receive data → byteAt data 0 ≠ MessageType.TurnUpdate ∧
      (side = Side.Host → byteAt data 0 ≠ MessageType.CellRequest)) :
    (step side s e).1.currentTurn = s.currentTurn := by
  by_cases hrecv : ∃ data, e = Event.Receive data
  · obtain ⟨data, rfl⟩ := hrecv
    obtain ⟨h1, h2⟩ := hk data rfl
    have := receive_turn_finished side s data hf h1 h2
    unfold step
    split_ifs
    · rfl
    · cases side <;> exact this
  · rcases step_effect side s e with ⟨hd, _⟩ | ⟨_, h⟩
    · exact absurd hd hrecv
    · obtain ⟨_, _, _, _, _, _, _, ht, _⟩ := h
      rcases ht with ht | ⟨hp, _⟩
      · exact ht
      · rw [hf] at hp; exact absurd hp (by decide)

theorem step_enters_finished_turn (side : Side) (s : Session) (e : Event)
    (hnf : s.currentPhase ≠ Phase.Finished)
    (hf : (step side s e).1.currentPhase = Phase.Finished) :
    (step side s e).1.currentTurn = Turn.None := by
  rcases step_effect side s e with ⟨_, h, _⟩ | ⟨_, h⟩
  · rcases h with ⟨hp, _⟩ | ⟨_, _, ht, _⟩
    · rw [hp] at hf; exact absurd hf hnf
    · exact ht
  · obtain ⟨_, _, _, _, _, _, _, _, hp⟩ := h
    rcases hp with hp | ⟨_, h2, _⟩ | ⟨_, h2⟩
    · rw [hp] at hf; exact absurd hf hnf
    · rw [h2] at hf; exact absurd hf (by decide)
    · rw [h2] at hf; exact absurd hf (by decide)

theorem step_phase_change (side : Side) (s : Session) (e : Event) :
    (step side s e).1.currentPhase = s.currentPhase ∨
    ((∃ input, e = Event.Frame input) ∧
      ((s.currentPhase = Phase.Preparing ∧
          (step side s e).1.currentPhase = Phase.Transition) ∨
        (s.currentPhase = Phase.Transition ∧
          (step side s e).1.currentPhase = Phase.Battle))) ∨
    ((∃ data, e = Event.Receive data) ∧ s.currentPhase ≠ Phase.Finished ∧
      (step side s e).1.currentPhase = Phase.Finished) := by
  rcases step_effect side s e with ⟨hd, h, _⟩ | ⟨hk, h⟩
  · rcases h with ⟨hp, _⟩ | ⟨hnf, hf, _⟩
    · exact Or.inl hp
    · exact Or.inr (Or.inr ⟨hd, hnf, hf⟩)
  · obtain ⟨_, _, _, _, _, _, _, _, hp⟩ := h
    rcases hk with hk | hk
    · rcases hp with hp | ⟨h1, h2, _⟩ | ⟨h1, h2⟩
      · exact Or.inl hp
      · exact Or.inr (Or.inl ⟨hk, Or.inl ⟨h1, h2⟩⟩)
      · exact Or.inr (Or.inl ⟨hk, Or.inr ⟨h1, h2⟩⟩)
    · exact Or.inl hk

theorem step_into_transition (side : Side) (s : Session) (e : Event)
    (hp : s.currentPhase = Phase.Preparing)
    (ht : (step side s e).1.currentPhase = Phase.Transition) :
    (∃ input, e = Event.Frame input) ∧ side.remoteDone s = true ∧
    (side.localDone s = true ∨ s.ships.length ≤ s.currentShipIndex) ∧
    side.localDone (step side s e).1 = true ∧ side.remoteDone (step side s e).1 = true := by
  rcases step_effect side s e with ⟨_, h, _⟩ | ⟨hk, h⟩
  · rcases h with ⟨hq, _⟩ | ⟨_, hf, _⟩
    · rw [hq, hp] at ht; exact absurd ht (by decide)
    · rw [hf] at ht; exact absurd ht (by decide)
  · obtain ⟨_, _, _, hr, hl, _, _, _, hph⟩ := h
    have hframe : ∃ input, e = Event.Frame input := by
      rcases hk with hk | hk
      · exact hk
      · rw [hk, hp] at ht; exact absurd ht (by decide)
    rcases hph with hq | ⟨_, _, hl2, hr2⟩ | ⟨h1, _⟩
    · rw [hq, hp] at ht; exact absurd ht (by decide)
    · refine ⟨hframe, by rw [← hr]; exact hr2, ?_, hl2, hr2⟩
      rcases hl with hl | ⟨_, _, hge⟩
      · left; rw [← hl]; exact hl2
      · right; exact hge
    · rw [hp] at h1; exact absurd h1 (by decide)

theorem reachable_fleet_inv (side : Side) (s : Session) (h : Reachable side s) :
    s.ships.length = 10 ∧ s.currentShipIndex ≤ 10 ∧
    (side.localDone s = true → s.currentShipIndex = 10) := by
  induction h with
  | init => cases side <;> simp [initialSession, CreateFleet, Side.localDone]
  | step s e _ ih =>
    obtain ⟨ih1, ih2, ih3⟩ := ih
    rcases step_effect side s e with ⟨_, _, hk⟩ | ⟨_, h⟩
    · obtain ⟨k1, k2, _, k3, _⟩ := hk
      rw [k1, k2, k3]
      exact ⟨ih1, ih2, ih3⟩
    · obtain ⟨_, _, _, _, hl, hlen, hidx, _, _⟩ := h
      rw [hlen]
      refine ⟨ih1, ?_, ?_⟩
      · rcases hidx with hidx | ⟨hidx, hlt⟩ <;> omega
      · intro ht
        rcases hl with hl | ⟨_, _, hge⟩
        · rw [hl] at ht
          have := ih3 ht
          rcases hidx with hidx | ⟨hidx, hlt⟩ <;> omega
        · rcases hidx with hidx | ⟨hidx, hlt⟩ <;> omega

theorem onCellUpdate_landed_of_hit (own : Turn) (s : Session) (x y : Int) (filled : CellState)
    (hin : InsideGrid x y) (hhit : s.enemyGrid (cellFin x y) = CellState.Hit) :
    (onCellUpdate own s x y filled).enemyHitCount = s.enemyHitCount := by
  by_cases ht : s.currentTurn = own
  · rw [onCellUpdate_own own s x y filled hin ht]
    have hc : ¬ (filled = CellState.Hit ∧ s.enemyGrid (cellFin x y) ≠ CellState.Hit ∧
        s.currentPhase ≠ Phase.Finished ∧ s.outcome ≠ GameResult.Defeat) :=
      fun h => h.2.1 hhit
    rw [if_neg hc]
  · rw [onCellUpdate_other own s x y filled hin ht]

theorem onCellUpdate_landed_of_other (own : Turn) (s : Session) (x y : Int) (filled : CellState)
    (ht : s.currentTurn ≠ own) :
    (onCellUpdate own s x y filled).enemyHitCount = s.enemyHitCount := by
  unfold onCellUpdate
  simp only
  split_ifs <;> rfl

/-- Applying a `CellUpdate` carrying Hit a second time counts nothing. -/
theorem onCellUpdate_twice (own : Turn) (s : Session) (x y : Int) :
    (onCellUpdate own (onCellUpdate own s x y CellState.Hit) x y CellState.Hit).enemyHitCount =
      (onCellUpdate own s x y CellState.Hit).enemyHitCount := by
  by_cases hin : InsideGrid x y
  · by_cases ht : s.currentTurn = own
    · apply onCellUpdate_landed_of_hit own _ x y _ hin
      rw [onCellUpdate_own own s x y _ hin ht]
      have hc := isCell_cellFin x y hin
      split_ifs <;> simp [gridSet_inside _ _ _ _ hin, hc]
    · apply onCellUpdate_landed_of_other
      rw [onCellUpdate_other own s x y _ hin ht]
      exact ht
  · rw [onCellUpdate_outside own s x y _ hin, onCellUpdate_outside own s x y _ hin]

theorem RecordShipCells_loop_eq (x y : Int) (isHorizontal : Bool) (n : Nat) :
    ∀ (i : Int) (locations : List Nat),
      RecordShipCells.loop x y isHorizontal n i locations =
        locations ++ (List.range n).map (fun j : Nat =>
          (CellIndex (shipCellX x isHorizontal (i + j)) (shipCellY y isHorizontal (i + j))
            % 256).toNat) := by
  induction n with
  | zero => intro i locations; simp [RecordShipCells.loop]
  | succ n ih =>
    intro i locations
    obtain ⟨ex, ey⟩ := shipCell_eq x y isHorizontal i
    simp only [RecordShipCells.loop, ex, ey]
    rw [ih (i + 1), List.range_succ_eq_map, List.append_assoc]
    congr 1
    simp only [List.singleton_append, List.map_cons, List.map_map, Nat.cast_zero, add_zero]
    congr 1
    apply List.map_congr_left
    intro j _
    simp only [Function.comp, Nat.succ_eq_add_one, Nat.cast_add, Nat.cast_one]
    have e : i + 1 + (j : Int) = i + ((j : Int) + 1) := by ring
    rw [e]

theorem cellIndex_cast_eq (cx cy : Int) (h : InsideGrid cx cy) :
    (CellIndex cx cy % 256).toNat = (cellFin cx cy).val := by
  obtain ⟨h1, h2, h3, h4⟩ := h
  unfold CellIndex kGridCols cellFin
  simp only
  have e1 : (cy * 10 + cx) % 256 = cy * 10 + cx := Int.emod_eq_of_lt (by omega) (by omega)
  have e2 : (cy * 10 + cx) % 100 = cy * 10 + cx := Int.emod_eq_of_lt (by omega) (by omega)
  rw [e1, e2]

/-- The cells recorded for a placement that `CanPlaceShip` accepts. -/
theorem RecordShipCells_eq (grid : Grid) (locations : List Nat) (x y : Int) (ship : Ship)
    (h : CanPlaceShip grid x y ship.length ship.isHorizontal = true) :
    RecordShipCells locations x y ship =
      locations ++ (List.range ship.length.toNat).map (fun j : Nat =>
        (cellFin (shipCellX x ship.isHorizontal j) (shipCellY y ship.isHorizontal j)).val) := by
  have hfree := (CanPlaceShip_iff grid x y ship.length ship.isHorizontal).mp h
  unfold RecordShipCells
  rw [RecordShipCells_loop_eq]
  congr 1
  apply List.map_congr_left
  intro j hj
  rw [List.mem_range] at hj
  simp only [zero_add]
  exact cellIndex_cast_eq _ _ (hfree (j : Int) (by omega) (by omega)).1

theorem mem_recorded_iff (grid : Grid) (x y length : Int) (isHorizontal : Bool)
    (h : CanPlaceShip grid x y length isHorizontal = true) (k : Fin 100) :
    k.val ∈ (List.range length.toNat).map (fun j : Nat =>
        (cellFin (shipCellX x isHorizontal j) (shipCellY y isHorizontal j)).val) ↔
      InPlacement k x y length isHorizontal := by
  have hfree := (CanPlaceShip_iff grid x y length isHorizontal).mp h
  simp only [List.mem_map, List.mem_range]
  constructor
  · rintro ⟨j, hj, e⟩
    have hf := hfree (j : Int) (by omega) (by omega)
    exact ⟨(j : Int), by omega, by omega,
      (isCell_iff_eq_cellFin k _ _ hf.1).mpr (Fin.ext e)⟩
  · rintro ⟨i, h0, hl, hc⟩
    refine ⟨i.toNat, by omega, ?_⟩
    have e : ((i.toNat : Nat) : Int) = i := by omega
    rw [e, (isCell_iff_eq_cellFin k _ _ (hfree i h0 hl).1).mp hc]

theorem recorded_nodup (grid : Grid) (x y length : Int) (isHorizontal : Bool)
    (h : CanPlaceShip grid x y length isHorizontal = true) :
    ((List.range length.toNat).map (fun j : Nat =>
        (cellFin (shipCellX x isHorizontal j) (shipCellY y isHorizontal j)).val)).Nodup := by
  apply List.Nodup.map_on _ (List.nodup_range _)
  intro a ha b hb hab
  rw [List.mem_range] at ha hb
  exact placement_cells_injOn grid x y length isHorizontal h
    (by simpa using ha) (by simpa using hb) (Fin.ext hab)

theorem fleet_length_nonneg (ships : List Ship) (index : Nat) (len : Int)
    (hfleet : ships.map Ship.length = CreateFleet.map Ship.length)
    (hlen : (ships.map Ship.length)[index]? = some len) : 1 ≤ len := by
  rw [hfleet] at hlen
  have hmem : len ∈ CreateFleet.map Ship.length := List.getElem?_mem hlen
  simp [CreateFleet] at hmem
  omega

/-- A successful placement keeps grid and location list in step. -/
theorem placementInv_place (grid : Grid) (locations : List Nat) (ships : List Ship)
    (index : Nat) (ship : Ship) (x y : Int)
    (hinv : PlacementInv grid locations ships index)
    (hlen : (ships.map Ship.length)[index]? = some ship.length)
    (hcan : CanPlaceShip grid x y ship.length ship.isHorizontal = true) :
    PlacementInv (ApplyFill grid x y ship.length ship.isHorizontal).2
      (RecordShipCells locations x y ship) ships (index + 1) := by
  obtain ⟨h1, h2, h3, h4, h5⟩ := hinv
  have hfree := (CanPlaceShip_iff grid x y ship.length ship.isHorizontal).mp hcan
  rw [RecordShipCells_eq grid locations x y ship hcan]
  refine ⟨?_, ?_, ?_, h4, ?_⟩
  · intro k
    obtain ⟨g1, g2⟩ := ApplyFill_grid_of_canPlace grid x y ship.length ship.isHorizontal hcan k
    rw [List.mem_append, mem_recorded_iff grid x y ship.length ship.isHorizontal hcan k]
    by_cases hp : InPlacement k x y ship.length ship.isHorizontal
    · simp [hp, g1 hp]
    · rw [g2 hp, ← h1 k]
      simp [hp]
  · intro i hi
    rw [List.mem_append] at hi
    rcases hi with hi | hi
    · exact h2 i hi
    · simp only [List.mem_map, List.mem_range] at hi
      obtain ⟨j, _, e⟩ := hi
      rw [← e]
      exact (cellFin _ _).isLt
  · rw [List.nodup_append]
    refine ⟨h3, recorded_nodup grid x y ship.length ship.isHorizontal hcan, ?_⟩
    intro v hv hnew
    simp only [List.mem_map, List.mem_range] at hnew
    obtain ⟨j, hj, e⟩ := hnew
    have hf := hfree (j : Int) (by omega) (by omega)
    have hcell := isCell_cellFin _ _ hf.1
    rw [← e] at hv
    exact hf.2 _ hcell ((h1 _).mp hv)
  · have hpos := fleet_length_nonneg ships index ship.length h4 hlen
    rw [List.take_succ, hlen]
    simp only [Option.toList_some, List.sum_append, List.sum_cons, List.sum_nil, add_zero,
      List.length_append, List.length_map, List.length_range, Nat.cast_add]
    rw [h5]
    omega

theorem set_of_getElem? {α : Type} (l : List α) (i : Nat) (a : α) (h : l[i]? = some a) :
    l.set i a = l := by
  apply List.ext_getElem?
  intro j
  rw [List.getElem?_set]
  split_ifs with hij hlt
  · rw [← hij, h]
  · rw [← hij, List.getElem?_eq_none (by omega)]
  · rfl

theorem placementStep_inv (s : Session) (input : FrameInput) (ship : Ship)
    (hship : s.ships[s.currentShipIndex]? = some ship)
    (hinv : PlacementInv s.playerGrid s.shipLocations s.ships s.currentShipIndex) :
    PlacementInv (placementStep s input ship).playerGrid
      (placementStep s input ship).shipLocations (placementStep s input ship).ships
      (placementStep s input ship).currentShipIndex := by
  have hmap : ∀ ship1 : Ship, ship1.length = ship.length →
      (s.ships.set s.currentShipIndex ship1).map Ship.length = s.ships.map Ship.length := by
    intro ship1 e
    rw [List.map_set]
    apply set_of_getElem?
    rw [List.getElem?_map, hship, e]
    rfl
  have hlen : ∀ ship1 : Ship, ship1.length = ship.length →
      ((s.ships.set s.currentShipIndex ship1).map Ship.length)[s.currentShipIndex]? =
        some ship1.length := by
    intro ship1 e
    rw [hmap ship1 e, List.getElem?_map, hship, e]
    rfl
  have hinv2 : ∀ ship1 : Ship, ship1.length = ship.length →
      PlacementInv s.playerGrid s.shipLocations (s.ships.set s.currentShipIndex ship1)
        s.currentShipIndex := by
    intro ship1 e
    obtain ⟨h1, h2, h3, h4, h5⟩ := hinv
    exact ⟨h1, h2, h3, by rw [hmap ship1 e]; exact h4, by rw [hmap ship1 e]; exact h5⟩
  unfold placementStep
  simp only
  by_cases hr : input.rightPressed = true
  · simp only [hr, if_true]
    have e : ({ ship with isHorizontal := !ship.isHorizontal } : Ship).length = ship.length := rfl
    by_cases hl : input.leftPressed = true
    · simp only [hl, if_true]
      rw [ApplyFill_fst]
      by_cases hcan : CanPlaceShip s.playerGrid input.cellX input.cellY ship.length
          (!ship.isHorizontal) = true
      · simp only [hcan, if_true]
        exact placementInv_place _ _ _ _ { ship with isHorizontal := !ship.isHorizontal } _ _
          (hinv2 _ e) (hlen _ e) hcan
      · simp only [hcan, Bool.false_eq_true, if_false]
        rw [ApplyFill_of_not_canPlace _ _ _ _ _ (by simpa using hcan)]
        exact hinv2 _ e
    · simp only [hl, Bool.false_eq_true, if_false]
      exact hinv2 _ e
  · simp only [hr, Bool.false_eq_true, if_false]
    by_cases hl : input.leftPressed = true
    · simp only [hl, if_true]
      rw [ApplyFill_fst]
      by_cases hcan : CanPlaceShip s.playerGrid input.cellX input.cellY ship.length
          ship.isHorizontal = true
      · simp only [hcan, if_true]
        exact placementInv_place _ _ _ _ ship _ _ (hinv2 _ rfl) (hlen _ rfl) hcan
      · simp only [hcan, Bool.false_eq_true, if_false]
        rw [ApplyFill_of_not_canPlace _ _ _ _ _ (by simpa using hcan)]
        exact hinv2 _ rfl
    · simp only [hl, Bool.false_eq_true, if_false]
      exact hinv2 _ rfl

theorem frameGrids_refl (s : Session) (input : FrameInput) : FrameGrids s s input :=
  ⟨Or.inl ⟨rfl, rfl, rfl, rfl⟩, Or.inl ⟨rfl, rfl⟩⟩

theorem placementStep_resetGrid (s : Session) (input : FrameInput) (ship : Ship) :
    (placementStep s input ship).resetGrid = s.resetGrid := by
  unfold placementStep
  simp only
  split_ifs <;> rfl

theorem placementStep_enemyGrid (s : Session) (input : FrameInput) (ship : Ship) :
    (placementStep s input ship).enemyGrid = s.enemyGrid := by
  unfold placementStep
  simp only
  split_ifs <;> rfl

theorem endOfFrame_grids (s : Session) (input : FrameInput) (r : Session × List Message)
    (h : FrameGrids s r.1 input) : FrameGrids s (endOfFrame r).1 input := by
  rcases endOfFrame_spec r with e | ⟨_, _, _, e⟩
  · rw [e]; exact h
  · rw [e]; exact h

theorem serverPhaseStep_grids (s : Session) (input : FrameInput) :
    FrameGrids s (serverPhaseStep s input).1 input := by
  unfold serverPhaseStep
  split
  · rename_i hp
    split
    · rename_i ship hship
      exact ⟨Or.inr ⟨ship, hp, hship, rfl, rfl, rfl, rfl⟩,
        Or.inl ⟨placementStep_enemyGrid s input ship, placementStep_resetGrid s input ship⟩⟩
    · split_ifs
      · exact ⟨Or.inl ⟨rfl, rfl, rfl, rfl⟩, Or.inl ⟨rfl, rfl⟩⟩
      · exact frameGrids_refl s input
  · split_ifs
    · exact ⟨Or.inl ⟨rfl, rfl, rfl, rfl⟩, Or.inl ⟨rfl, rfl⟩⟩
    · exact frameGrids_refl s input
  · rename_i hp
    cases hr : s.resetGrid
    · simp only [hr, Bool.not_false, if_true]
      split_ifs <;> exact ⟨Or.inl ⟨rfl, rfl, rfl, rfl⟩, Or.inr ⟨hp, hr, rfl, rfl⟩⟩
    · simp only [hr, Bool.not_true, Bool.false_eq_true, if_false]
      split_ifs <;> exact frameGrids_refl s input
  · split_ifs
    · exact ⟨Or.inl ⟨rfl, rfl, rfl, rfl⟩, Or.inl ⟨rfl, rfl⟩⟩
    · exact frameGrids_refl s input

theorem clientPhaseStep_grids (s : Session) (input : FrameInput) :
    FrameGrids s (clientPhaseStep s input).1 input := by
  unfold clientPhaseStep
  split
  · rename_i hp
    split
    · rename_i ship hship
      exact ⟨Or.inr ⟨ship, hp, hship, rfl, rfl, rfl, rfl⟩,
        Or.inl ⟨placementStep_enemyGrid s input ship, placementStep_resetGrid s input ship⟩⟩
    · split_ifs
      · exact ⟨Or.inl ⟨rfl, rfl, rfl, rfl⟩, Or.inl ⟨rfl, rfl⟩⟩
      · exact frameGrids_refl s input
  · split_ifs
    · exact ⟨Or.inl ⟨rfl, rfl, rfl, rfl⟩, Or.inl ⟨rfl, rfl⟩⟩
    · exact frameGrids_refl s input
  · rename_i hp
    cases hr : s.resetGrid
    · simp only [hr, Bool.not_false, if_true]
      split_ifs <;> exact ⟨Or.inl ⟨rfl, rfl, rfl, rfl⟩, Or.inr ⟨hp, hr, rfl, rfl⟩⟩
    · simp only [hr, Bool.not_true, Bool.false_eq_true, if_false]
      split_ifs <;> exact frameGrids_refl s input
  · split_ifs
    · exact ⟨Or.inl ⟨rfl, rfl, rfl, rfl⟩, Or.inl ⟨rfl, rfl⟩⟩
    · exact frameGrids_refl s input

/-- What a frame step does to the grids and the placement bookkeeping. -/
theorem step_frame_grids (side : Side) (s : Session) (input : FrameInput) :
    FrameGrids s (step side s (Event.Frame input)).1 input := by
  unfold step
  split_ifs
  · exact frameGrids_refl s input
  · cases side <;> dsimp only [serverStep, clientStep]
    · unfold serverFrame
      split_ifs
      · exact frameGrids_refl s input
      · exact frameGrids_refl s input
      · exact endOfFrame_grids s input _ (serverPhaseStep_grids s input)
    · split_ifs
      · exact frameGrids_refl s input
      · unfold clientFrame
        split_ifs
        · exact frameGrids_refl s input
        · exact frameGrids_refl s input
        · exact endOfFrame_grids s input _ (clientPhaseStep_grids s input)

theorem step_frame_inv (side : Side) (s : Session) (input : FrameInput)
    (hinv : PlacementInv s.playerGrid s.shipLocations s.ships s.currentShipIndex) :
    PlacementInv (step side s (Event.Frame input)).1.playerGrid
      (step side s (Event.Frame input)).1.shipLocations
      (step side s (Event.Frame input)).1.ships
      (step side s (Event.Frame input)).1.currentShipIndex := by
  rcases (step_frame_grids side s input).1 with ⟨e1, e2, e3, e4⟩ | ⟨ship, _, hship, e1, e2, e3, e4⟩
  · rw [e1, e2, e3, e4]; exact hinv
  · rw [e1, e2, e3, e4]; exact placementStep_inv s input ship hship hinv

theorem run_frames_inv (side : Side) (inputs : List FrameInput) :
    ∀ s : Session, PlacementInv s.playerGrid s.shipLocations s.ships s.currentShipIndex →
      PlacementInv (run side s (inputs.map Event.Frame)).playerGrid
        (run side s (inputs.map Event.Frame)).shipLocations
        (run side s (inputs.map Event.Frame)).ships
        (run side s (inputs.map Event.Frame)).currentShipIndex := by
  induction inputs with
  | nil => intro s h; exact h
  | cons input rest ih =>
    intro s h
    exact ih _ (step_frame_inv side s input h)

theorem placementInv_start (s : Session) (hgrid : s.playerGrid = emptyGrid)
    (hlocs : s.shipLocations = []) (hships : s.ships = CreateFleet)
    (hidx : s.currentShipIndex = 0) :
    PlacementInv s.playerGrid s.shipLocations s.ships s.currentShipIndex := by
  rw [hgrid, hlocs, hships, hidx]
  refine ⟨?_, ?_, List.nodup_nil, rfl, ?_⟩
  · intro k
    simp only [List.not_mem_nil, false_iff, emptyGrid]
    decide
  · intro i hi
    exact absurd hi (List.not_mem_nil i)
  · simp

theorem placementInv_all_placed (grid : Grid) (locations : List Nat) (ships : List Ship)
    (h : PlacementInv grid locations ships 10) : locations.length = 20 := by
  obtain ⟨_, _, _, h4, h5⟩ := h
  rw [h4] at h5
  simp [CreateFleet] at h5
  omega

theorem ApplyFill_cells (grid : Grid) (x y length : Int) (isHorizontal : Bool) (k : Fin 100) :
    (ApplyFill grid x y length isHorizontal).2 k = grid k ∨
    (grid k ≠ CellState.Ship ∧ (ApplyFill grid x y length isHorizontal).2 k = CellState.Ship) := by
  cases hcan : CanPlaceShip grid x y length isHorizontal
  · rw [ApplyFill_of_not_canPlace grid x y length isHorizontal hcan]
    exact Or.inl rfl
  · have hfree := (CanPlaceShip_iff grid x y length isHorizontal).mp hcan
    obtain ⟨g1, g2⟩ := ApplyFill_grid_of_canPlace grid x y length isHorizontal hcan k
    by_cases hp : InPlacement k x y length isHorizontal
    · obtain ⟨i, h0, hl, hc⟩ := hp
      exact Or.inr ⟨(hfree i h0 hl).2 k hc, g1 ⟨i, h0, hl, hc⟩⟩
    · exact Or.inl (g2 hp)

theorem placementStep_cells (s : Session) (input : FrameInput) (ship : Ship) (k : Fin 100) :
    (placementStep s input ship).playerGrid k = s.playerGrid k ∨
    (s.playerGrid k ≠ CellState.Ship ∧
      (placementStep s input ship).playerGrid k = CellState.Ship) := by
  unfold placementStep
  simp only
  split_ifs
  all_goals first
    | exact Or.inl rfl
    | exact ApplyFill_cells _ _ _ _ _ k

theorem onCellUpdate_cells (own : Turn) (s : Session) (x y : Int) (filled : CellState)
    (k : Fin 100) :
    ((onCellUpdate own s x y filled).playerGrid k = s.playerGrid k ∨
      (onCellUpdate own s x y filled).playerGrid k = filled) ∧
    ((onCellUpdate own s x y filled).enemyGrid k = s.enemyGrid k ∨
      (onCellUpdate own s x y filled).enemyGrid k = filled) := by
  by_cases hin : InsideGrid x y
  · by_cases ht : s.currentTurn = own
    · rw [onCellUpdate_own own s x y filled hin ht]
      split_ifs <;>
        simp only [gridSet_inside _ _ _ _ hin, true_or, true_and] <;>
        split_ifs <;> simp
    · rw [onCellUpdate_other own s x y filled hin ht]
      simp only [gridSet_inside _ _ _ _ hin, true_or, and_true]
      split_ifs <;> simp
  · rw [onCellUpdate_outside own s x y filled hin]
    exact ⟨Or.inl rfl, Or.inl rfl⟩

theorem findIndex_cases (locations : List Nat) (index : Int) :
    findIndex locations index = true ∨ findIndex locations index = false := by
  cases findIndex locations index
  · exact Or.inr rfl
  · exact Or.inl rfl

theorem serverOnCellRequest_cells (s : Session) (x y : Int) :
    (∀ k : Fin 100, (serverOnCellRequest s x y).1.playerGrid k = s.playerGrid k ∨
      (serverOnCellRequest s x y).1.playerGrid k = CellState.Hit ∨
      (serverOnCellRequest s x y).1.playerGrid k = CellState.Miss) ∧
    (serverOnCellRequest s x y).1.enemyGrid = s.enemyGrid := by
  by_cases hin : InsideGrid x y
  · rcases findIndex_cases s.shipLocations (CellIndex x y) with hh | hm
    · rw [serverOnCellRequest_hit s x y hin hh]
      constructor
      · intro k
        split_ifs <;> simp only [gridSet_inside _ _ _ _ hin] <;> split_ifs <;> simp
      · split_ifs <;> rfl
    · rw [serverOnCellRequest_miss s x y hin hm]
      constructor
      · intro k
        simp only [gridSet_inside _ _ _ _ hin]
        split_ifs <;> simp
      · rfl
  · rw [serverOnCellRequest_outside s x y hin]
    exact ⟨fun _ => Or.inl rfl, rfl⟩

theorem clientOnCellRequest_cells (s : Session) (x y : Int) :
    (∀ k : Fin 100, (clientOnCellRequest s x y).1.playerGrid k = s.playerGrid k ∨
      (clientOnCellRequest s x y).1.playerGrid k = CellState.Hit ∨
      (clientOnCellRequest s x y).1.playerGrid k = CellState.Miss) ∧
    (clientOnCellRequest s x y).1.enemyGrid = s.enemyGrid := by
  by_cases hin : InsideGrid x y
  · rcases findIndex_cases s.shipLocations (CellIndex x y) with hh | hm
    · rw [clientOnCellRequest_hit s x y hin hh]
      constructor
      · intro k
        split_ifs <;> simp only [gridSet_inside _ _ _ _ hin] <;> split_ifs <;> simp
      · split_ifs <;> rfl
    · rw [clientOnCellRequest_miss s x y hin hm]
      constructor
      · intro k
        simp only [gridSet_inside _ _ _ _ hin]
        split_ifs <;> simp
      · rfl
  · rw [clientOnCellRequest_outside s x y hin]
    exact ⟨fun _ => Or.inl rfl, rfl⟩

theorem receiveCells_refl (side : Side) (s : Session) (data : List Byte) :
    ReceiveCells side s s data :=
  ⟨fun _ => ⟨fun _ => Or.inl rfl, rfl⟩, fun _ _ => ⟨Or.inl rfl, Or.inl rfl⟩,
    fun _ => ⟨fun _ => Or.inl rfl, fun _ => rfl, rfl⟩, fun _ _ _ => ⟨rfl, rfl⟩⟩

theorem serverReceive_cells (s : Session) (data : List Byte) :
    ReceiveCells Side.Host s (serverReceive s data).1 data := by
  unfold serverReceive
  simp only
  split_ifs with h0 h1 h2 h3
  all_goals first
    | exact receiveCells_refl _ s data
    | exact ⟨fun _ => ⟨fun _ => Or.inl rfl, rfl⟩, fun _ _ => ⟨Or.inl rfl, Or.inl rfl⟩,
        fun _ => ⟨fun _ => Or.inl rfl, fun _ => rfl, rfl⟩, fun _ _ _ => ⟨rfl, rfl⟩⟩
    | skip
  · refine ⟨fun h => ?_, fun _ k => onCellUpdate_cells _ s _ _ _ k, fun h => ?_,
      fun _ h _ => absurd h1 h⟩
    · rw [h1] at h; exact absurd h (by decide)
    · rw [h1] at h; exact absurd h (by decide)
  · refine ⟨fun _ => serverOnCellRequest_cells s _ _, fun h => absurd h h1, fun h => ?_,
      fun h _ _ => absurd h3 h⟩
    rw [h3] at h; exact absurd h (by decide)

theorem clientReceive_cells (s : Session) (data : List Byte) :
    ReceiveCells Side.Joiner s (clientReceive s data).1 data := by
  unfold clientReceive
  simp only
  split_ifs with h0 h1 h2 h3 h4 h5 h6 h7 h8 h9 h10 h11 h12
  all_goals first
    | exact receiveCells_refl _ s data
    | exact ⟨fun _ => ⟨fun _ => Or.inl rfl, rfl⟩, fun _ _ => ⟨Or.inl rfl, Or.inl rfl⟩,
        fun _ => ⟨fun _ => Or.inl rfl, fun _ => rfl, rfl⟩, fun _ _ _ => ⟨rfl, rfl⟩⟩
    | skip
  · refine ⟨fun h => ?_, fun _ k => onCellUpdate_cells _ s _ _ _ k, fun h => ?_,
      fun _ h _ => absurd h1 h⟩
    · rw [h1] at h; exact absurd h (by decide)
    · rw [h1] at h; exact absurd h (by decide)
  · refine ⟨fun h => ?_, fun h => absurd h h1, fun _ => ?_, fun _ _ h => absurd h3 h⟩
    · rw [h3] at h; exact absurd h (by decide)
    · exact ⟨fun _ => Or.inr rfl, fun h => absurd h (by decide), rfl⟩
  · refine ⟨fun _ => clientOnCellRequest_cells s _ _, fun h => absurd h h1,
      fun h => absurd h h3, fun h _ _ => absurd (by assumption) h⟩

theorem step_receive_cells (side : Side) (s : Session) (data : List Byte) :
    ReceiveCells side s (step side s (Event.Receive data)).1 data := by
  unfold step
  split_ifs
  · exact receiveCells_refl side s data
  · cases side
    · exact serverReceive_cells s data
    · exact clientReceive_cells s data

theorem step_frame_cells (side : Side) (s : Session) (input : FrameInput)
    (hp : s.currentPhase = Phase.Preparing) :
    (∀ k : Fin 100,
      (step side s (Event.Frame input)).1.playerGrid k = s.playerGrid k ∨
      (s.playerGrid k ≠ CellState.Ship ∧
        (step side s (Event.Frame input)).1.playerGrid k = CellState.Ship)) ∧
    (step side s (Event.Frame input)).1.enemyGrid = s.enemyGrid := by
  obtain ⟨h1, h2⟩ := step_frame_grids side s input
  constructor
  · intro k
    rcases h1 with ⟨e, _⟩ | ⟨ship, _, _, e, _⟩
    · rw [e]; exact Or.inl rfl
    · rw [e]; exact placementStep_cells s input ship k
  · rcases h2 with ⟨h2, _⟩ | ⟨h2, _⟩
    · exact h2
    · rw [hp] at h2; exact absurd h2 (by decide)

theorem step_frame_cells_later (side : Side) (s : Session) (input : FrameInput)
    (hp : s.currentPhase ≠ Phase.Preparing) :
    (step side s (Event.Frame input)).1.playerGrid = s.playerGrid ∧
    (((step side s (Event.Frame input)).1.enemyGrid = s.enemyGrid ∧
        (step side s (Event.Frame input)).1.resetGrid = s.resetGrid) ∨
      (s.currentPhase = Phase.Battle ∧ s.resetGrid = false ∧
        (∀ k : Fin 100, (step side s (Event.Frame input)).1.enemyGrid k = CellState.Empty) ∧
        (step side s (Event.Frame input)).1.resetGrid = true)) := by
  obtain ⟨h1, h2⟩ := step_frame_grids side s input
  constructor
  · rcases h1 with ⟨e, _⟩ | ⟨_, h, _⟩
    · exact e
    · exact absurd h hp
  · rcases h2 with h2 | ⟨h2, h3, h4, h5⟩
    · exact Or.inl h2
    · exact Or.inr ⟨h2, h3, fun k => by rw [h4]; rfl, h5⟩

theorem onCellUpdate_resetGrid (own : Turn) (s : Session) (x y : Int) (filled : CellState) :
    (onCellUpdate own s x y filled).resetGrid = s.resetGrid := by
  unfold onCellUpdate
  simp only
  split_ifs <;> rfl

theorem serverOnCellRequest_resetGrid (s : Session) (x y : Int) :
    (serverOnCellRequest s x y).1.resetGrid = s.resetGrid := by
  unfold serverOnCellRequest
  simp only
  split_ifs <;> rfl

theorem clientOnCellRequest_resetGrid (s : Session) (x y : Int) :
    (clientOnCellRequest s x y).1.resetGrid = s.resetGrid := by
  unfold clientOnCellRequest
  simp only
  split_ifs <;> rfl

theorem receive_resetGrid (side : Side) (s : Session) (data : List Byte) :
    (receive side s data).1.resetGrid = s.resetGrid := by
  cases side
  · unfold receive serverReceive
    simp only
    split_ifs
    all_goals first
      | rfl
      | exact onCellUpdate_resetGrid _ s _ _ _
      | exact serverOnCellRequest_resetGrid s _ _
  · unfold receive clientReceive
    simp only
    split_ifs
    all_goals first
      | rfl
      | exact onCellUpdate_resetGrid _ s _ _ _
      | exact clientOnCellRequest_resetGrid s _ _

/-- No step other than a frame touches `resetGrid`. -/
theorem step_resetGrid_of_not_frame (side : Side) (s : Session) (e : Event)
    (he : ∀ input, e ≠ Event.Frame input) :
    (step side s e).1.resetGrid = s.resetGrid := by
  unfold step
  split_ifs
  · rfl
  · cases side <;> cases e <;> dsimp only [serverStep, clientStep]
    · split_ifs <;> rfl
    · exact receive_resetGrid Side.Host s _
    · exact absurd rfl (he _)
    · exact receive_resetGrid Side.Joiner s _
    · exact absurd rfl (he _)

/-- Once set, `resetGrid` stays set. -/
theorem step_resetGrid_stays (side : Side) (s : Session) (e : Event)
    (h : s.resetGrid = true) : (step side s e).1.resetGrid = true := by
  by_cases he : ∃ input, e = Event.Frame input
  · obtain ⟨input, rfl⟩ := he
    rcases (step_frame_grids side s input).2 with ⟨_, h2⟩ | ⟨_, _, _, h2⟩
    · rw [h2]; exact h
    · exact h2
  · rw [step_resetGrid_of_not_frame side s e (fun input hi => he ⟨input, hi⟩)]
    exact h

theorem run_resetGrid_stays (side : Side) (events : List Event) :
    ∀ s : Session, s.resetGrid = true → (run side s events).resetGrid = true := by
  induction events with
  | nil => intro s h; exact h
  | cons e rest ih =>
    intro s h
    exact ih (step side s e).1 (step_resetGrid_stays side s e h)

/-- With `resetGrid` set a frame leaves the opponent-view grid alone. -/
theorem step_frame_enemyGrid_of_reset (side : Side) (s : Session) (input : FrameInput)
    (h : s.resetGrid = true) :
    (step side s (Event.Frame input)).1.enemyGrid = s.enemyGrid := by
  rcases (step_frame_grids side s input).2 with ⟨h2, _⟩ | ⟨_, h2, _⟩
  · exact h2
  · rw [h] at h2; exact absurd h2 (by decide)

/-- The check at the end of a loop iteration enters Transition only with both
preparation flags set in the state it runs on. -/
theorem endOfFrame_into_transition (side : Side) (r : Session × List Message)
    (hp : r.1.currentPhase = Phase.Preparing)
    (ht : (endOfFrame r).1.currentPhase = Phase.Transition) :
    side.localDone r.1 = true ∧ side.remoteDone r.1 = true := by
  rcases endOfFrame_spec r with e | ⟨_, hc, hs, _⟩
  · rw [e, hp] at ht
    exact absurd ht (by decide)
  · cases side
    · exact ⟨hs, hc⟩
    · exact ⟨hc, hs⟩

/-- The phase switch does not leave Preparing. -/
theorem phaseStep_preparing (side : Side) (s : Session) (input : FrameInput)
    (hp : s.currentPhase = Phase.Preparing) :
    (side.phaseStep s input).1.currentPhase = Phase.Preparing := by
  cases side
  · rcases (serverPhaseStep_frameEffect s input).2 with h | ⟨h, _⟩
    · exact h.trans hp
    · rw [hp] at h; exact absurd h (by decide)
  · rcases (clientPhaseStep_frameEffect s input).2 with h | ⟨h, _⟩
    · exact h.trans hp
    · rw [hp] at h; exact absurd h (by decide)

/-- A frame that changes the phase ran the phase switch and then the check at
the end of the iteration. -/
theorem step_frame_eq_of_phase_change (side : Side) (s : Session) (input : FrameInput)
    (hne : (step side s (Event.Frame input)).1.currentPhase ≠ s.currentPhase) :
    step side s (Event.Frame input) = endOfFrame (side.phaseStep s input) := by
  revert hne
  unfold step
  split_ifs
  · intro hne; exact absurd rfl hne
  · cases side <;> dsimp only [serverStep, clientStep, Side.phaseStep]
    · unfold serverFrame
      split_ifs
      · intro hne; exact absurd rfl hne
      · intro hne; exact absurd rfl hne
      · intro _; rfl
    · split_ifs
      · intro hne; exact absurd rfl hne
      · unfold clientFrame
        split_ifs
        · intro hne; exact absurd rfl hne
        · intro hne; exact absurd rfl hne
        · intro _; rfl

/-- Every ship of the fleet has at least one cell. -/
theorem CreateFleet_length_pos : ∀ ship ∈ CreateFleet, 1 ≤ ship.length := by
  decide

theorem step_connect_cells (side : Side) (s : Session) (e : Event)
    (he : e = Event.Connect ∨ ∃ samePeer, e = Event.Disconnect samePeer) :
    (step side s e).1.playerGrid = s.playerGrid ∧ (step side s e).1.enemyGrid = s.enemyGrid := by
  unfold step
  split_ifs
  · exact ⟨rfl, rfl⟩
  · rcases he with rfl | ⟨samePeer, rfl⟩ <;> cases side <;> dsimp only [serverStep, clientStep]
    all_goals first
      | exact ⟨rfl, rfl⟩
      | (split_ifs <;> exact ⟨rfl, rfl⟩)

theorem placementStep_ship_lengths (s : Session) (input : FrameInput) (ship : Ship)
    (hship : s.ships[s.currentShipIndex]? = some ship) :
    (placementStep s input ship).ships.map Ship.length = s.ships.map Ship.length := by
  have hmap : ∀ ship1 : Ship, ship1.length = ship.length →
      (s.ships.set s.currentShipIndex ship1).map Ship.length = s.ships.map Ship.length := by
    intro ship1 e
    rw [List.map_set]
    apply set_of_getElem?
    rw [List.getElem?_map, hship, e]
    rfl
  unfold placementStep
  simp only
  split_ifs <;> exact hmap _ rfl

theorem step_ships_of_not_frame (side : Side) (s : Session) (e : Event)
    (he : ∀ input, e ≠ Event.Frame input) :
    (step side s e).1.ships = s.ships := by
  unfold step
  split_ifs
  · rfl
  · cases side <;> cases e <;> dsimp only [serverStep, clientStep]
    · split_ifs <;> rfl
    · exact (receive_keepsFleet Side.Host s _).1
    · exact absurd rfl (he _)
    · exact (receive_keepsFleet Side.Joiner s _).1
    · exact absurd rfl (he _)

/-- In every reachable state the fleet has the lengths of `CreateFleet`, so
every length the loops pass to `ApplyFill` is at least 1. -/
theorem reachable_ship_lengths (side : Side) (s : Session) (h : Reachable side s) :
    s.ships.map Ship.length = CreateFleet.map Ship.length ∧
    ∀ ship ∈ s.ships, 1 ≤ ship.length := by
  have key : ∀ l : List Ship, l.map Ship.length = CreateFleet.map Ship.length →
      ∀ ship ∈ l, 1 ≤ ship.length := by
    intro l hl ship hm
    have h1 : ship.length ∈ l.map Ship.length := List.mem_map_of_mem _ hm
    rw [hl] at h1
    revert h1
    generalize ship.length = n
    intro h1
    simp only [CreateFleet, List.map_cons, List.map_nil, List.mem_cons, List.mem_singleton,
      List.not_mem_nil, or_false] at h1
    omega
  suffices hs : s.ships.map Ship.length = CreateFleet.map Ship.length from ⟨hs, key _ hs⟩
  induction h with
  | init => cases side <;> rfl
  | step s e _ ih =>
    by_cases he : ∃ input, e = Event.Frame input
    · obtain ⟨input, rfl⟩ := he
      rcases (step_frame_grids side s input).1 with ⟨_, _, e3, _⟩ | ⟨ship, _, hship, _, _, e3, _⟩
      · rw [e3]; exact ih
      · rw [e3, placementStep_ship_lengths s input ship hship]; exact ih
    · rw [step_ships_of_not_frame side s e (fun input hi => he ⟨input, hi⟩)]
      exact ih

/-! ## Placement validator: the specification's claims -/

/-- C1: `CanPlaceShip` returns true if and only if each of the `length` cells
`(x+i, y)` (horizontal) or `(x, y+i)` (vertical), `0 <= i < length`, lies
inside the 10x10 grid and does not hold `Ship`; for every grid, all integers
`x`, `y` and every `length`. -/
theorem C1_CanPlaceShip_iff_cells_inside_and_not_ship
    (grid : Grid) (x y length : Int) (isHorizontal : Bool) :
    CanPlaceShip grid x y length isHorizontal = true ↔
      ∀ i : Int, 0 ≤ i → i < length →
        (0 ≤ shipCellX x isHorizontal i ∧ shipCellX x isHorizontal i < 10 ∧
         0 ≤ shipCellY y isHorizontal i ∧ shipCellY y isHorizontal i < 10) ∧
        ∀ k : Fin 100,
          (k.val : Int) = shipCellY y isHorizontal i * 10 + shipCellX x isHorizontal i →
            grid k ≠ CellState.Ship :=
  CanPlaceShip_iff grid x y length isHorizontal

/-- C2: `ApplyFill` returns the value of `CanPlaceShip` on the input grid; when
that is false the grid is unchanged; when it is true the `length` cells of the
placement hold `Ship` and every other cell keeps its previous value. -/
theorem C2_ApplyFill_result_and_grid
    (grid : Grid) (x y length : Int) (isHorizontal : Bool) :
    (ApplyFill grid x y length isHorizontal).1 = CanPlaceShip grid x y length isHorizontal ∧
    (CanPlaceShip grid x y length isHorizontal = false →
      (ApplyFill grid x y length isHorizontal).2 = grid) ∧
    (CanPlaceShip grid x y length isHorizontal = true →
      ∀ k : Fin 100,
        (InPlacement k x y length isHorizontal →
          (ApplyFill grid x y length isHorizontal).2 k = CellState.Ship) ∧
        (¬ InPlacement k x y length isHorizontal →
          (ApplyFill grid x y length isHorizontal).2 k = grid k)) := by
  refine ⟨ApplyFill_fst grid x y length isHorizontal, ?_, ?_⟩
  · intro h
    rw [ApplyFill_of_not_canPlace grid x y length isHorizontal h]
  · intro h k
    exact ApplyFill_grid_of_canPlace grid x y length isHorizontal h k

/-- C2 at a concrete input: a length-4 horizontal ship at (0,0) on the empty
grid fills its cells, and the same ship at (8,0) is refused. -/
theorem C2_ApplyFill_result_and_grid_witness :
    ((CanPlaceShip emptyGrid 8 0 4 true = false →
        (ApplyFill emptyGrid 8 0 4 true).2 = emptyGrid) ∧
     (CanPlaceShip emptyGrid 0 0 4 true = true →
        ∀ k : Fin 100,
          (InPlacement k 0 0 4 true → (ApplyFill emptyGrid 0 0 4 true).2 k = CellState.Ship) ∧
          (¬ InPlacement k 0 0 4 true →
            (ApplyFill emptyGrid 0 0 4 true).2 k = emptyGrid k))) ∧
    CanPlaceShip emptyGrid 8 0 4 true = false ∧ CanPlaceShip emptyGrid 0 0 4 true = true :=
  ⟨⟨(C2_ApplyFill_result_and_grid emptyGrid 8 0 4 true).2.1,
    (C2_ApplyFill_result_and_grid emptyGrid 0 0 4 true).2.2⟩, by decide, by decide⟩

/-- C3: for every grid and every valid `(x, y, length, horizontal)`, a ship
having at least one cell as the data model defines `Ship.length` and as every
ship of `CreateFleet` has (`CreateFleet_length_pos`, `reachable_ship_lengths`):
if every cell of the placement lies within bounds and holds no ship, `ApplyFill`
succeeds, exactly `length` cells change and each of them changes to `Ship`; a
second `ApplyFill` with the same arguments on the resulting grid returns false
and leaves it unchanged. -/
theorem C3_ApplyFill_once_only
    (grid : Grid) (x y length : Int) (isHorizontal : Bool) (hlen : 1 ≤ length)
    (hfree : ∀ i : Int, 0 ≤ i → i < length →
      CellFree grid (shipCellX x isHorizontal i) (shipCellY y isHorizontal i)) :
    (ApplyFill grid x y length isHorizontal).1 = true ∧
    ((changedCells grid (ApplyFill grid x y length isHorizontal).2).card : Int) = length ∧
    (∀ k ∈ changedCells grid (ApplyFill grid x y length isHorizontal).2,
      grid k ≠ CellState.Ship ∧
      (ApplyFill grid x y length isHorizontal).2 k = CellState.Ship) ∧
    ApplyFill (ApplyFill grid x y length isHorizontal).2 x y length isHorizontal =
      (false, (ApplyFill grid x y length isHorizontal).2) := by
  have h := (CanPlaceShip_iff grid x y length isHorizontal).mpr hfree
  refine ⟨?_, ?_, ?_, ?_⟩
  · rw [ApplyFill_fst, h]
  · rw [card_changedCells_ApplyFill grid x y length isHorizontal h]
    omega
  · intro k hk
    have hs := changed_cell_is_ship grid x y length isHorizontal h k hk
    refine ⟨?_, hs⟩
    intro hg
    simp only [changedCells, Finset.mem_filter, Finset.mem_univ, true_and] at hk
    exact hk (hs.trans hg.symm)
  · exact ApplyFill_of_not_canPlace _ x y length isHorizontal
      (canPlace_after_fill grid x y length isHorizontal hlen h)

/-- C3 at a concrete input: the length-4 horizontal ship at (0,0) on the empty
grid. -/
theorem C3_ApplyFill_once_only_witness :
    (1 : Int) ≤ 4 ∧
    (∀ i : Int, 0 ≤ i → i < 4 →
      CellFree emptyGrid (shipCellX 0 true i) (shipCellY 0 true i)) ∧
    (ApplyFill emptyGrid 0 0 4 true).1 = true ∧
    ((changedCells emptyGrid (ApplyFill emptyGrid 0 0 4 true).2).card : Int) = 4 ∧
    (∀ k ∈ changedCells emptyGrid (ApplyFill emptyGrid 0 0 4 true).2,
      emptyGrid k ≠ CellState.Ship ∧ (ApplyFill emptyGrid 0 0 4 true).2 k = CellState.Ship) ∧
    ApplyFill (ApplyFill emptyGrid 0 0 4 true).2 0 0 4 true =
      (false, (ApplyFill emptyGrid 0 0 4 true).2) :=
  ⟨by decide, (CanPlaceShip_iff emptyGrid 0 0 4 true).mp (by decide),
    C3_ApplyFill_once_only emptyGrid 0 0 4 true (by decide)
      ((CanPlaceShip_iff emptyGrid 0 0 4 true).mp (by decide))⟩

/-! ## Hit resolution: the specification's claims -/

/-- C4: on host and joiner, a well-formed `CellRequest(x, y)` with `x, y < 10`
resolves Hit if `y*10+x` is in the ship-location list and Miss otherwise; own
cell `(x, y)` takes the result, every other own cell and the opponent-view grid
are unchanged; `hittedShipCount` grows by one exactly on Hit; if it thereby is
at least 20 and the phase is not Finished, outcome is Defeat, phase Finished,
turn None; exactly one `CellUpdate` is emitted, carrying `x`, `y` and the
result. -/
theorem C4_cellRequest_resolution
    (side : Side) (s : Session) (data : List Byte) (x y : Nat)
    (hx : x < 10) (hy : y < 10) (hreq : IsCellRequest data x y) :
    (∀ k : Fin 100, (receive side s data).1.playerGrid k =
      if k.val = y * 10 + x then
        (if (y * 10 + x) ∈ s.shipLocations then CellState.Hit else CellState.Miss)
      else s.playerGrid k) ∧
    (receive side s data).1.enemyGrid = s.enemyGrid ∧
    (receive side s data).1.hittedShipCount =
      s.hittedShipCount + (if (y * 10 + x) ∈ s.shipLocations then 1 else 0) ∧
    ((y * 10 + x) ∈ s.shipLocations → s.hittedShipCount + 1 ≥ 20 →
      s.currentPhase ≠ Phase.Finished →
        (receive side s data).1.outcome = GameResult.Defeat ∧
        (receive side s data).1.currentPhase = Phase.Finished ∧
        (receive side s data).1.currentTurn = Turn.None) ∧
    (receive side s data).2.filter Message.isCellUpdate =
      [Message.CellUpdate x y
        (if (y * 10 + x) ∈ s.shipLocations then CellState.Hit else CellState.Miss)] := by
  have hin := insideGrid_of_lt x y hx hy
  have hux := toU16_of_lt x hx
  have huy := toU16_of_lt y hy
  rw [receive_cellRequest side s data x y hreq]
  by_cases hmem : (y * 10 + x) ∈ s.shipLocations
  · have hh := (findIndex_iff s.shipLocations x y).mpr hmem
    cases side
    · simp only [serverOnCellRequest_hit s _ _ hin hh, hmem, if_true, hux, huy]
      refine ⟨?_, ?_, ?_, ?_, ?_⟩
      · intro k
        split <;> simp [gridSet_inside _ _ _ _ hin, isCell_nat_iff]
      · split <;> rfl
      · split <;> rfl
      · intro _ h20 hph
        rw [if_pos ⟨h20, hph⟩]
        exact ⟨rfl, rfl, rfl⟩
      · simp [Message.isCellUpdate]
    · simp only [clientOnCellRequest_hit s _ _ hin hh, hmem, if_true, hux, huy]
      refine ⟨?_, ?_, ?_, ?_, ?_⟩
      · intro k
        split <;> simp [gridSet_inside _ _ _ _ hin, isCell_nat_iff]
      · split <;> rfl
      · split <;> rfl
      · intro _ h20 hph
        rw [if_pos ⟨h20, hph⟩]
        exact ⟨rfl, rfl, rfl⟩
      · simp [Message.isCellUpdate]
  · have hm : findIndex s.shipLocations (CellIndex x y) = false := by
      cases hf : findIndex s.shipLocations (CellIndex x y)
      · rfl
      · exact absurd ((findIndex_iff s.shipLocations x y).mp hf) hmem
    cases side
    · simp only [serverOnCellRequest_miss s _ _ hin hm, hux, huy]
      refine ⟨?_, trivial, ?_, ?_, ?_⟩
      · intro k
        simp [gridSet_inside _ _ _ _ hin, isCell_nat_iff, hmem]
      · simp [hmem]
      · intro h
        exact absurd h hmem
      · simp [Message.isCellUpdate, hmem]
    · simp only [clientOnCellRequest_miss s _ _ hin hm, hux, huy]
      refine ⟨?_, trivial, ?_, ?_, ?_⟩
      · intro k
        simp [gridSet_inside _ _ _ _ hin, isCell_nat_iff, hmem]
      · simp [hmem]
      · intro h
        exact absurd h hmem
      · simp [Message.isCellUpdate, hmem]

/-- C5: on host and joiner, a well-formed in-range `CellUpdate(x, y, result)`
received while `currentTurn` is the side's own identity writes the result to
the opponent-view cell, adds one to `enemyHitCount` exactly when the result is
Hit, the cell was not Hit before, the phase is not Finished and the outcome is
not Defeat, and when the incremented counter reaches 20 sets Victory, Finished
and turn None; otherwise it writes the result to the own-grid cell and leaves
the opponent-view grid, both counters, phase, outcome and turn unchanged. -/
theorem C5_cellUpdate_handling
    (side : Side) (s : Session) (data : List Byte) (x y : Nat) (filled : CellState)
    (hx : x < 10) (hy : y < 10) (hupd : IsCellUpdate data x y filled) :
    (s.currentTurn = side.identity →
      (∀ k : Fin 100, (receive side s data).1.enemyGrid k =
        if k.val = y * 10 + x then filled else s.enemyGrid k) ∧
      (receive side s data).1.enemyHitCount = s.enemyHitCount +
        (if filled = CellState.Hit ∧ s.enemyGrid (cellFin x y) ≠ CellState.Hit ∧
            s.currentPhase ≠ Phase.Finished ∧ s.outcome ≠ GameResult.Defeat
          then 1 else 0) ∧
      (filled = CellState.Hit → s.enemyGrid (cellFin x y) ≠ CellState.Hit →
        s.currentPhase ≠ Phase.Finished → s.outcome ≠ GameResult.Defeat →
        s.enemyHitCount + 1 ≥ 20 →
          (receive side s data).1.outcome = GameResult.Victory ∧
          (receive side s data).1.currentPhase = Phase.Finished ∧
          (receive side s data).1.currentTurn = Turn.None)) ∧
    (s.currentTurn ≠ side.identity →
      (∀ k : Fin 100, (receive side s data).1.playerGrid k =
        if k.val = y * 10 + x then filled else s.playerGrid k) ∧
      (receive side s data).1.enemyGrid = s.enemyGrid ∧
      (receive side s data).1.hittedShipCount = s.hittedShipCount ∧
      (receive side s data).1.enemyHitCount = s.enemyHitCount ∧
      (receive side s data).1.currentPhase = s.currentPhase ∧
      (receive side s data).1.outcome = s.outcome ∧
      (receive side s data).1.currentTurn = s.currentTurn) := by
  have hin := insideGrid_of_lt x y hx hy
  rw [receive_cellUpdate side s data x y filled hupd]
  constructor
  · intro ht
    rw [onCellUpdate_own _ s _ _ filled hin ht]
    by_cases hc : filled = CellState.Hit ∧ s.enemyGrid (cellFin x y) ≠ CellState.Hit ∧
        s.currentPhase ≠ Phase.Finished ∧ s.outcome ≠ GameResult.Defeat
    · rw [if_pos hc, if_pos hc]
      by_cases h20 : s.enemyHitCount + 1 ≥ 20
      · rw [if_pos h20]
        refine ⟨?_, rfl, ?_⟩
        · intro k
          simp [gridSet_inside _ _ _ _ hin, isCell_nat_iff]
        · intro _ _ _ _ _
          exact ⟨rfl, rfl, rfl⟩
      · rw [if_neg h20]
        refine ⟨?_, rfl, ?_⟩
        · intro k
          simp [gridSet_inside _ _ _ _ hin, isCell_nat_iff]
        · intro _ _ _ _ h
          exact absurd h h20
    · rw [if_neg hc, if_neg hc]
      refine ⟨?_, rfl, ?_⟩
      · intro k
        simp [gridSet_inside _ _ _ _ hin, isCell_nat_iff]
      · intro h1 h2 h3 h4 _
        exact absurd ⟨h1, h2, h3, h4⟩ hc
  · intro ht
    rw [onCellUpdate_other _ s _ _ filled hin ht]
    refine ⟨?_, rfl, rfl, rfl, rfl, rfl, rfl⟩
    intro k
    simp [gridSet_inside _ _ _ _ hin, isCell_nat_iff]

/-- C4 at a concrete input: the host of `sampleSession` receives
`CellRequest(0, 0)`, a hit on its ship. -/
theorem C4_cellRequest_resolution_witness :
    IsCellRequest (Message.bytes (Message.CellRequest 0 0)) 0 0 ∧
    (receive Side.Host (sampleSession Side.Host)
        (Message.bytes (Message.CellRequest 0 0))).1.hittedShipCount =
      (sampleSession Side.Host).hittedShipCount +
        (if (0 * 10 + 0) ∈ (sampleSession Side.Host).shipLocations then 1 else 0) ∧
    (0 * 10 + 0) ∈ (sampleSession Side.Host).shipLocations :=
  ⟨by decide,
    (C4_cellRequest_resolution Side.Host (sampleSession Side.Host)
      (Message.bytes (Message.CellRequest 0 0)) 0 0 (by decide) (by decide) (by decide)).2.2.1,
    by decide⟩

/-- C5 at a concrete input: the joiner of `sampleSession`, whose turn it is,
receives `CellUpdate(2, 1, Hit)`. -/
theorem C5_cellUpdate_handling_witness :
    IsCellUpdate (Message.bytes (Message.CellUpdate 2 1 CellState.Hit)) 2 1 CellState.Hit ∧
    (sampleSession Side.Joiner).currentTurn = Side.Joiner.identity ∧
    (receive Side.Joiner (sampleSession Side.Joiner)
        (Message.bytes (Message.CellUpdate 2 1 CellState.Hit))).1.enemyHitCount =
      (sampleSession Side.Joiner).enemyHitCount +
        (if CellState.Hit = CellState.Hit ∧
            (sampleSession Side.Joiner).enemyGrid (cellFin (2 : Nat) (1 : Nat)) ≠ CellState.Hit ∧
            (sampleSession Side.Joiner).currentPhase ≠ Phase.Finished ∧
            (sampleSession Side.Joiner).outcome ≠ GameResult.Defeat
          then 1 else 0) :=
  ⟨by decide, by decide,
    ((C5_cellUpdate_handling Side.Joiner (sampleSession Side.Joiner)
      (Message.bytes (Message.CellUpdate 2 1 CellState.Hit)) 2 1 CellState.Hit
      (by decide) (by decide) (by decide)).1 (by decide)).2.1⟩

/-! ## Error handling: the specification's claims -/

/-- C6: on host and joiner, a packet that is empty, or whose first byte is no
known message kind, or whose length differs from the fixed size of the kind
its first byte names (5, 6, 105, 2, 2), leaves the whole session unchanged and
emits no message; in particular every `CellUpdate` cut to its first 5 bytes
does. -/
theorem C6_malformed_discarded (side : Side) (s : Session) :
    (∀ data : List Byte, Malformed data → receive side s data = (s, [])) ∧
    (∀ (x y : Nat) (filled : CellState),
      receive side s ((Message.bytes (Message.CellUpdate x y filled)).take 5) = (s, [])) := by
  constructor
  · intro data h
    rcases h with rfl | h | ⟨n, hn, hl⟩
    · cases side <;> simp [receive, serverReceive, clientReceive]
    · unfold wireSize at h
      split_ifs at h with h1 h2 h3 h4 h5
      cases side <;> simp [receive, serverReceive, clientReceive, h1, h2, h3, h4, h5]
    · unfold wireSize at hn
      split_ifs at hn <;>
        simp only [Option.some.injEq, reduceCtorEq] at hn <;>
        subst hn <;>
        cases side <;>
        simp [receive, serverReceive, clientReceive, *,
          MessageType.CellRequest, MessageType.CellUpdate, MessageType.GridSnapshot,
          MessageType.FinishedPreparing, MessageType.TurnUpdate,
          sizeofCellRequestMessage, sizeofCellUpdateMessage, sizeofGridSnapshotMessage,
          sizeofFinishedPreparingMessage, sizeofTurnUpdateMessage]
  · intro x y filled
    cases side <;>
      simp [receive, serverReceive, clientReceive, Message.bytes, byteAt,
        MessageType.CellRequest, MessageType.CellUpdate, MessageType.GridSnapshot,
        MessageType.FinishedPreparing, MessageType.TurnUpdate,
        sizeofCellRequestMessage, sizeofCellUpdateMessage, sizeofGridSnapshotMessage,
        sizeofFinishedPreparingMessage, sizeofTurnUpdateMessage]

/-- C6 at concrete inputs: a `TurnUpdate` of three bytes is malformed and is
discarded by the host. -/
theorem C6_malformed_discarded_witness :
    Malformed [MessageType.TurnUpdate, 1, 0] ∧
    receive Side.Host (sampleSession Side.Host) [MessageType.TurnUpdate, 1, 0] =
      (sampleSession Side.Host, []) :=
  ⟨Or.inr (Or.inr ⟨2, by decide, by decide⟩),
    (C6_malformed_discarded Side.Host (sampleSession Side.Host)).1 [MessageType.TurnUpdate, 1, 0]
      (Or.inr (Or.inr ⟨2, by decide, by decide⟩))⟩

/-- C7: on host and joiner, a correctly sized `CellRequest` or `CellUpdate`
whose x or y is at least 10 leaves the whole session unchanged and emits no
message (so no `CellUpdate` and no `TurnUpdate`). -/
theorem C7_out_of_range_discarded
    (side : Side) (s : Session) (data : List Byte) (x y : Nat)
    (hmsg : IsCellRequest data x y ∨ ∃ filled : CellState, IsCellUpdate data x y filled)
    (hout : x ≥ 10 ∨ y ≥ 10) :
    receive side s data = (s, []) := by
  have hno : ¬ InsideGrid (x : Int) (y : Int) := by
    unfold InsideGrid
    omega
  rcases hmsg with hreq | ⟨filled, hupd⟩
  · rw [receive_cellRequest side s data x y hreq]
    cases side
    · exact serverOnCellRequest_outside s _ _ hno
    · exact clientOnCellRequest_outside s _ _ hno
  · rw [receive_cellUpdate side s data x y filled hupd, onCellUpdate_outside _ s _ _ filled hno]

/-- C7 at a concrete input: `CellRequest(300, 4)` sent to the joiner. -/
theorem C7_out_of_range_discarded_witness :
    IsCellRequest (Message.bytes (Message.CellRequest 300 4)) 300 4 ∧
    receive Side.Joiner (sampleSession Side.Joiner) (Message.bytes (Message.CellRequest 300 4)) =
      (sampleSession Side.Joiner, []) :=
  ⟨by decide,
    C7_out_of_range_discarded Side.Joiner (sampleSession Side.Joiner)
      (Message.bytes (Message.CellRequest 300 4)) 300 4 (Or.inl (by decide))
      (Or.inl (by decide))⟩

/-! ## Win detection: the specification's claims -/

/-- C9: a side records Defeat exactly when `hittedShipCount` reaches 20 and
never earlier: in every reachable state of host or joiner, outcome Defeat
implies `hittedShipCount >= 20`; and handling the `CellRequest` that raises
`hittedShipCount` from 19 to 20 while the phase is not Finished yields phase
Finished and outcome Defeat. -/
theorem C9_defeat_exactly_at_twenty (side : Side) :
    (∀ s : Session, Reachable side s →
      s.outcome = GameResult.Defeat → 20 ≤ s.hittedShipCount) ∧
    (∀ (s : Session) (data : List Byte) (x y : Nat),
      x < 10 → y < 10 → IsCellRequest data x y → (y * 10 + x) ∈ s.shipLocations →
      s.hittedShipCount = 19 → s.currentPhase ≠ Phase.Finished →
        (receive side s data).1.hittedShipCount = 20 ∧
        (receive side s data).1.currentPhase = Phase.Finished ∧
        (receive side s data).1.outcome = GameResult.Defeat) := by
  constructor
  · intro s hr
    exact reachable_defeat_hits side s hr
  · intro s data x y hx hy hreq hmem h19 hph
    have hin := insideGrid_of_lt x y hx hy
    have hh := (findIndex_iff s.shipLocations x y).mpr hmem
    have h20 : s.hittedShipCount + 1 ≥ 20 ∧ s.currentPhase ≠ Phase.Finished := ⟨by omega, hph⟩
    rw [receive_cellRequest side s data x y hreq]
    cases side
    · rw [serverOnCellRequest_hit s _ _ hin hh, if_pos h20]
      exact ⟨by simp [h19], rfl, rfl⟩
    · rw [clientOnCellRequest_hit s _ _ hin hh, if_pos h20]
      exact ⟨by simp [h19], rfl, rfl⟩

/-- C9 at concrete inputs: the joiner that received `CellRequest(0, 0)` twenty
times after the start of the battle is reachable and has recorded Defeat with
20 hits taken; after nineteen of them it has 19 hits taken and is not
Finished, and the twentieth yields Finished and Defeat. -/
theorem C9_defeat_exactly_at_twenty_witness :
    (Reachable Side.Joiner (run Side.Joiner battleJoiner (repeatedRequests 20)) ∧
      (run Side.Joiner battleJoiner (repeatedRequests 20)).outcome = GameResult.Defeat ∧
      20 ≤ (run Side.Joiner battleJoiner (repeatedRequests 20)).hittedShipCount) ∧
    ((run Side.Joiner battleJoiner (repeatedRequests 19)).hittedShipCount = 19 ∧
      (run Side.Joiner battleJoiner (repeatedRequests 19)).currentPhase ≠ Phase.Finished ∧
      (receive Side.Joiner (run Side.Joiner battleJoiner (repeatedRequests 19))
        (Message.bytes (Message.CellRequest 0 0))).1.hittedShipCount = 20 ∧
      (receive Side.Joiner (run Side.Joiner battleJoiner (repeatedRequests 19))
        (Message.bytes (Message.CellRequest 0 0))).1.currentPhase = Phase.Finished ∧
      (receive Side.Joiner (run Side.Joiner battleJoiner (repeatedRequests 19))
        (Message.bytes (Message.CellRequest 0 0))).1.outcome = GameResult.Defeat) :=
  ⟨⟨reachable_run Side.Joiner _ _ (reachable_run Side.Joiner joinerToBattle _ Reachable.init),
      by decide!,
      (C9_defeat_exactly_at_twenty Side.Joiner).1 _
        (reachable_run Side.Joiner _ _ (reachable_run Side.Joiner joinerToBattle _ Reachable.init))
        (by decide!)⟩,
    by decide!, by decide!,
    (C9_defeat_exactly_at_twenty Side.Joiner).2
      (run Side.Joiner battleJoiner (repeatedRequests 19))
      (Message.bytes (Message.CellRequest 0 0)) 0 0 (by decide) (by decide) (by decide)
      (by decide!) (by decide!) (by decide!)⟩

/-- C8 evaluated on the code: host and joiner reach Battle with the host to
move, all counters zero and the joiner's default fleet on 20 distinct cells.
The host then attacks the ship cell (0,0) twenty times; every request resolves
as Hit. The joiner ends in Finished with Defeat after 20 hits taken, but the
host has counted a single hit and is still in Battle without an outcome. -/
theorem C8_repeated_hits_defeat_without_victory :
    Reachable Side.Host battleHost ∧ Reachable Side.Joiner battleJoiner ∧
    (battleHost.currentPhase = Phase.Battle ∧ battleHost.currentTurn = Side.Host.identity ∧
      battleHost.enemyHitCount = 0 ∧ battleHost.hittedShipCount = 0) ∧
    (battleJoiner.currentPhase = Phase.Battle ∧ battleJoiner.currentTurn = Turn.Server ∧
      battleJoiner.enemyHitCount = 0 ∧ battleJoiner.hittedShipCount = 0 ∧
      battleJoiner.shipLocations.length = 20 ∧ battleJoiner.shipLocations.Nodup ∧
      (0 * 10 + 0) ∈ battleJoiner.shipLocations) ∧
    ((attackRounds Side.Host 0 0 20 battleHost battleJoiner).2.hittedShipCount = 20 ∧
      (attackRounds Side.Host 0 0 20 battleHost battleJoiner).2.currentPhase = Phase.Finished ∧
      (attackRounds Side.Host 0 0 20 battleHost battleJoiner).2.outcome = GameResult.Defeat) ∧
    ((attackRounds Side.Host 0 0 20 battleHost battleJoiner).1.enemyHitCount = 1 ∧
      (attackRounds Side.Host 0 0 20 battleHost battleJoiner).1.currentPhase = Phase.Battle ∧
      (attackRounds Side.Host 0 0 20 battleHost battleJoiner).1.outcome = GameResult.None) :=
  ⟨reachable_run Side.Host hostToBattle _ Reachable.init,
    reachable_run Side.Joiner joinerToBattle _ Reachable.init,
    by decide!, by decide!, by decide!, by decide!⟩

/-! ## Turn alternation: the specification's claims -/

/-- C10: starting in Battle with both sides holding the attacker's identity as
turn, one complete attack exchange (the `CellRequest`, its resolution by the
defender, the `CellUpdate`, and the `TurnUpdate` sent and relayed) leaves no
message undelivered; if it resolves as Miss both sides end with turn set to the
other side; if it resolves as Hit and neither side leaves Battle, both sides
keep the turn. -/
theorem C10_turn_alternation
    (attacker : Side) (a d : Session) (x y : Nat) (hx : x < 10) (hy : y < 10)
    (_hpa : a.currentPhase = Phase.Battle) (_hpd : d.currentPhase = Phase.Battle)
    (hta : a.currentTurn = attacker.identity) (htd : d.currentTurn = attacker.identity) :
    (attackExchange attacker a d x y).pending = [] ∧
    ((y * 10 + x) ∉ d.shipLocations →
      (attackExchange attacker a d x y).attacker.currentTurn = attacker.other.identity ∧
      (attackExchange attacker a d x y).defender.currentTurn = attacker.other.identity) ∧
    ((y * 10 + x) ∈ d.shipLocations →
      (attackExchange attacker a d x y).attacker.currentPhase = Phase.Battle →
      (attackExchange attacker a d x y).defender.currentPhase = Phase.Battle →
        (attackExchange attacker a d x y).attacker.currentTurn = attacker.identity ∧
        (attackExchange attacker a d x y).defender.currentTurn = attacker.identity) := by
  have hin := insideGrid_of_lt x y hx hy
  have hux := toU16_of_lt x hx
  have huy := toU16_of_lt y hy
  have hreq := isCellRequest_bytes x y (by omega) (by omega)
  have hupd := fun f => isCellUpdate_bytes x y f (by omega : x < 65536) (by omega : y < 65536)
  by_cases hmem : (y * 10 + x) ∈ d.shipLocations
  · have hh := (findIndex_iff d.shipLocations x y).mpr hmem
    cases attacker
    · -- host attacks, joiner resolves a hit
      have e : attackExchange Side.Host a d x y =
          { attacker := onCellUpdate Turn.Server a x y CellState.Hit,
            defender := (clientOnCellRequest d x y).1, pending := [] } := by
        simp only [attackExchange, Side.other, receive_cellRequest _ d _ x y hreq,
          clientOnCellRequest_hit d _ _ hin hh, hux, huy, deliver,
          receive_cellUpdate _ _ _ x y _ (hupd _), Side.identity, List.append_nil]
      rw [e]
      refine ⟨rfl, fun h => absurd hmem h, ?_⟩
      intro _ hA hD
      simp only at hA hD ⊢
      constructor
      · rcases onCellUpdate_turn_or_finished Turn.Server a x y CellState.Hit with h | h
        · rw [h, hta]
        · rw [h] at hA
          exact absurd hA (by decide)
      · rw [clientOnCellRequest_hit d _ _ hin hh] at hD ⊢
        by_cases hc : d.hittedShipCount + 1 ≥ 20 ∧ d.currentPhase ≠ Phase.Finished
        · rw [if_pos hc] at hD
          simp at hD
        · rw [if_neg hc]
          exact htd
    · have e : attackExchange Side.Joiner a d x y =
          { attacker := onCellUpdate Turn.Client a x y CellState.Hit,
            defender := (serverOnCellRequest d x y).1, pending := [] } := by
        simp only [attackExchange, Side.other, receive_cellRequest _ d _ x y hreq,
          serverOnCellRequest_hit d _ _ hin hh, hux, huy, deliver,
          receive_cellUpdate _ _ _ x y _ (hupd _), Side.identity, List.append_nil]
      rw [e]
      refine ⟨rfl, fun h => absurd hmem h, ?_⟩
      intro _ hA hD
      simp only at hA hD ⊢
      constructor
      · rcases onCellUpdate_turn_or_finished Turn.Client a x y CellState.Hit with h | h
        · rw [h, hta]
        · rw [h] at hA
          exact absurd hA (by decide)
      · rw [serverOnCellRequest_hit d _ _ hin hh] at hD ⊢
        by_cases hc : d.hittedShipCount + 1 ≥ 20 ∧ d.currentPhase ≠ Phase.Finished
        · rw [if_pos hc] at hD
          simp at hD
        · rw [if_neg hc]
          exact htd
  · have hm := findIndex_false_of_not_mem d.shipLocations x y hmem
    cases attacker
    · have e : attackExchange Side.Host a d x y =
          { attacker := { onCellUpdate Turn.Server a x y CellState.Miss with
                          currentTurn := Turn.Client },
            defender := { (clientOnCellRequest d x y).1 with currentTurn := Turn.Client },
            pending := [] } := by
        simp [attackExchange, Side.other, receive_cellRequest _ d _ x y hreq,
          clientOnCellRequest_miss d _ _ hin hm, hux, huy, deliver,
          receive_cellUpdate _ _ _ x y _ (hupd _), Side.identity,
          serverReceive_turnUpdate, clientReceive_turnUpdate]
      rw [e]
      exact ⟨rfl, fun _ => ⟨rfl, rfl⟩, fun h => absurd h hmem⟩
    · have e : attackExchange Side.Joiner a d x y =
          { attacker := { onCellUpdate Turn.Client a x y CellState.Miss with
                          currentTurn := Turn.Server },
            defender := (serverOnCellRequest d x y).1,
            pending := [] } := by
        have htd2 : d.currentTurn ≠ Turn.Server := by
          rw [htd]; decide
        simp [attackExchange, Side.other, receive_cellRequest _ d _ x y hreq,
          serverOnCellRequest_miss d _ _ hin hm, hux, huy, deliver,
          receive_cellUpdate _ _ _ x y _ (hupd _), Side.identity,
          serverReceive_turnUpdate, clientReceive_turnUpdate, htd2]
      rw [e]
      refine ⟨rfl, fun _ => ⟨rfl, ?_⟩, fun h => absurd h hmem⟩
      have htd2 : d.currentTurn ≠ Turn.Server := by
        rw [htd]; decide
      simp [serverOnCellRequest_miss d _ _ hin hm, htd2, Side.other, Side.identity]

/-- C10 at concrete inputs: at the start of the battle the host's attack on
(5,5) misses and passes the turn to the joiner on both sides; its attack on
(0,0) hits and leaves the turn with the host on both sides. -/
theorem C10_turn_alternation_witness :
    (battleHost.currentPhase = Phase.Battle ∧ battleJoiner.currentPhase = Phase.Battle ∧
      battleHost.currentTurn = Side.Host.identity ∧
      battleJoiner.currentTurn = Side.Host.identity) ∧
    ((5 * 10 + 5) ∉ battleJoiner.shipLocations ∧
      (attackExchange Side.Host battleHost battleJoiner 5 5).attacker.currentTurn =
        Side.Host.other.identity ∧
      (attackExchange Side.Host battleHost battleJoiner 5 5).defender.currentTurn =
        Side.Host.other.identity) ∧
    ((0 * 10 + 0) ∈ battleJoiner.shipLocations ∧
      (attackExchange Side.Host battleHost battleJoiner 0 0).attacker.currentTurn =
        Side.Host.identity ∧
      (attackExchange Side.Host battleHost battleJoiner 0 0).defender.currentTurn =
        Side.Host.identity) :=
  ⟨by decide!,
    ⟨by decide!,
      (C10_turn_alternation Side.Host battleHost battleJoiner 5 5 (by decide) (by decide)
        (by decide!) (by decide!) (by decide!) (by decide!)).2.1 (by decide!)⟩,
    ⟨by decide!,
      (C10_turn_alternation Side.Host battleHost battleJoiner 0 0 (by decide) (by decide)
        (by decide!) (by decide!) (by decide!) (by decide!)).2.2 (by decide!) (by decide!)
        (by decide!)⟩⟩

/-! ## Phase and turn state machine: the specification's claims -/

/-- C12 as stated fails: the defeated joiner that then receives `TurnUpdate(0)`
and the defeated host that then resolves a missed `CellRequest(5, 5)` are
reachable states in phase Finished whose turn is Host, not None. -/
theorem C12_counterexample_turn_after_finished :
    (Reachable Side.Joiner
        (step Side.Joiner defeatedJoiner
          (Event.Receive (Message.bytes (Message.TurnUpdate 0)))).1 ∧
      (step Side.Joiner defeatedJoiner
        (Event.Receive (Message.bytes (Message.TurnUpdate 0)))).1.currentPhase = Phase.Finished ∧
      (step Side.Joiner defeatedJoiner
        (Event.Receive (Message.bytes (Message.TurnUpdate 0)))).1.currentTurn = Turn.Server) ∧
    (Reachable Side.Host
        (step Side.Host defeatedHost
          (Event.Receive (Message.bytes (Message.CellRequest 5 5)))).1 ∧
      (step Side.Host defeatedHost
        (Event.Receive (Message.bytes (Message.CellRequest 5 5)))).1.currentPhase =
          Phase.Finished ∧
      (step Side.Host defeatedHost
        (Event.Receive (Message.bytes (Message.CellRequest 5 5)))).1.currentTurn =
          Turn.Server) :=
  ⟨⟨Reachable.step _ _ (reachable_run Side.Joiner _ _
        (reachable_run Side.Joiner joinerToBattle _ Reachable.init)),
      by decide!, by decide!⟩,
    ⟨Reachable.step _ _ (reachable_run Side.Host _ _
        (reachable_run Side.Host hostToBattle _ Reachable.init)),
      by decide!, by decide!⟩⟩

/-- C12 (amended): a step of host or joiner that moves the side into Finished
leaves turn None; and a step taken in Finished keeps the turn unless it handles
a `TurnUpdate` or, on the host, a `CellRequest`. -/
theorem C12_turn_none_when_finishing (side : Side) (s : Session) (e : Event) :
    (s.currentPhase ≠ Phase.Finished → (step side s e).1.currentPhase = Phase.Finished →
      (step side s e).1.currentTurn = Turn.None) ∧
    (s.currentPhase = Phase.Finished →
      (∀ data, e = Event.Receive data → byteAt data 0 ≠ MessageType.TurnUpdate ∧
        (side = Side.Host → byteAt data 0 ≠ MessageType.CellRequest)) →
      (step side s e).1.currentTurn = s.currentTurn) :=
  ⟨step_enters_finished_turn side s e, step_turn_finished side s e⟩

/-- C12 (amended) at concrete inputs: the twentieth hit moves the joiner from
Battle into Finished with turn None, and a frame of the defeated joiner keeps
its turn. -/
theorem C12_turn_none_when_finishing_witness :
    ((run Side.Joiner battleJoiner (repeatedRequests 19)).currentPhase ≠ Phase.Finished ∧
      (step Side.Joiner (run Side.Joiner battleJoiner (repeatedRequests 19))
        (Event.Receive (Message.bytes (Message.CellRequest 0 0)))).1.currentPhase =
          Phase.Finished ∧
      (step Side.Joiner (run Side.Joiner battleJoiner (repeatedRequests 19))
        (Event.Receive (Message.bytes (Message.CellRequest 0 0)))).1.currentTurn = Turn.None) ∧
    (defeatedJoiner.currentPhase = Phase.Finished ∧
      (step Side.Joiner defeatedJoiner (Event.Frame idleFrame)).1.currentTurn =
        defeatedJoiner.currentTurn) :=
  ⟨⟨by decide!, by decide!,
      (C12_turn_none_when_finishing Side.Joiner
        (run Side.Joiner battleJoiner (repeatedRequests 19))
        (Event.Receive (Message.bytes (Message.CellRequest 0 0)))).1 (by decide!) (by decide!)⟩,
    ⟨by decide!,
      (C12_turn_none_when_finishing Side.Joiner defeatedJoiner (Event.Frame idleFrame)).2
        (by decide!) (fun _ h => by cases h)⟩⟩

/-- C14: for every step of host or joiner the phase afterwards is the same as
or later than the phase before in the order Preparing < Transition < Battle <
Finished, and a state in Finished only steps to states in Finished. -/
theorem C14_phase_never_goes_back (side : Side) (s : Session) (e : Event) :
    s.currentPhase.rank ≤ (step side s e).1.currentPhase.rank ∧
    (s.currentPhase = Phase.Finished → (step side s e).1.currentPhase = Phase.Finished) :=
  ⟨step_phase_rank side s e, step_finished_stays side s e⟩

/-- C15 as stated fails: the host in Preparing, its first ship hit nineteen
times, is reachable, and handling one more `CellRequest(0, 0)` takes it from
Preparing straight to Finished. -/
theorem C15_counterexample_finished_from_preparing :
    Reachable Side.Host preparingHostHit ∧
    preparingHostHit.currentPhase = Phase.Preparing ∧
    (step Side.Host preparingHostHit
      (Event.Receive (Message.bytes (Message.CellRequest 0 0)))).1.currentPhase =
        Phase.Finished :=
  ⟨reachable_run Side.Host _ _ Reachable.init, by decide!, by decide!⟩

/-- C15 (amended): every change of phase made by a step of host or joiner is
either made by a frame and goes to the immediate successor, Preparing to
Transition or Transition to Battle, or is made by the handling of a received
packet and goes to Finished, from whichever earlier phase the side is in. -/
theorem C15_phase_changes (side : Side) (s : Session) (e : Event)
    (hchange : (step side s e).1.currentPhase ≠ s.currentPhase) :
    ((∃ input, e = Event.Frame input) ∧
      ((s.currentPhase = Phase.Preparing ∧
          (step side s e).1.currentPhase = Phase.Transition) ∨
        (s.currentPhase = Phase.Transition ∧
          (step side s e).1.currentPhase = Phase.Battle))) ∨
    ((∃ data, e = Event.Receive data) ∧ s.currentPhase ≠ Phase.Finished ∧
      (step side s e).1.currentPhase = Phase.Finished) := by
  rcases step_phase_change side s e with h | h | h
  · exact absurd h hchange
  · exact Or.inl h
  · exact Or.inr h

/-- C15 (amended) at a concrete input: the host's frame after both sides
finished preparing changes the phase from Preparing to Transition. -/
theorem C15_phase_changes_witness :
    (step Side.Host hostJoinerFirst (Event.Frame idleFrame)).1.currentPhase ≠
      hostJoinerFirst.currentPhase ∧
    (((∃ input, Event.Frame idleFrame = Event.Frame input) ∧
      ((hostJoinerFirst.currentPhase = Phase.Preparing ∧
          (step Side.Host hostJoinerFirst (Event.Frame idleFrame)).1.currentPhase =
            Phase.Transition) ∨
        (hostJoinerFirst.currentPhase = Phase.Transition ∧
          (step Side.Host hostJoinerFirst (Event.Frame idleFrame)).1.currentPhase =
            Phase.Battle))) ∨
    ((∃ data, Event.Frame idleFrame = Event.Receive data) ∧
      hostJoinerFirst.currentPhase ≠ Phase.Finished ∧
      (step Side.Host hostJoinerFirst (Event.Frame idleFrame)).1.currentPhase =
        Phase.Finished)) :=
  ⟨by decide!,
    C15_phase_changes Side.Host hostJoinerFirst (Event.Frame idleFrame) (by decide!)⟩

/-- C16: the phase becomes Transition only in the check at the end of a loop
iteration (`endOfFrame`, 516-520 and 831-835), and both preparation flags are
true in the state before that check. Every step of host or joiner that changes
the phase from Preparing to Transition is a frame, the phase switch followed
by the check; the phase switch leaves the side in Preparing, both flags are
true when the check runs, and the remote flag is true when the iteration
starts. In every reachable state the local flag is true only if the ship index
has passed all ten ships of the fleet. -/
theorem C16_transition_needs_both_flags (side : Side) :
    (∀ r : Session × List Message, r.1.currentPhase = Phase.Preparing →
      (endOfFrame r).1.currentPhase = Phase.Transition →
        side.localDone r.1 = true ∧ side.remoteDone r.1 = true) ∧
    (∀ (s : Session) (e : Event), s.currentPhase = Phase.Preparing →
      (step side s e).1.currentPhase = Phase.Transition →
        ∃ input, e = Event.Frame input ∧
          step side s e = endOfFrame (side.phaseStep s input) ∧
          (side.phaseStep s input).1.currentPhase = Phase.Preparing ∧
          side.localDone (side.phaseStep s input).1 = true ∧
          side.remoteDone (side.phaseStep s input).1 = true ∧
          side.remoteDone s = true) ∧
    (∀ s : Session, Reachable side s → side.localDone s = true →
      s.currentShipIndex = 10 ∧ s.ships.length = 10) := by
  refine ⟨fun r hp ht => endOfFrame_into_transition side r hp ht, ?_, ?_⟩
  · intro s e hp ht
    obtain ⟨⟨input, rfl⟩, hr, _⟩ := step_into_transition side s e hp ht
    have heq := step_frame_eq_of_phase_change side s input
      (by rw [ht, hp]; decide)
    have hprep := phaseStep_preparing side s input hp
    rw [heq] at ht
    obtain ⟨hl, hr2⟩ := endOfFrame_into_transition side _ hprep ht
    exact ⟨input, rfl, heq, hprep, hl, hr2, hr⟩
  · intro s hr hl
    obtain ⟨h1, _, h3⟩ := reachable_fleet_inv side s hr
    exact ⟨h3 hl, h1⟩

/-- C16 at concrete inputs: the host that placed its fleet and then received
the joiner's `FinishedPreparing`. Its phase switch leaves it in Preparing, the
check then enters Transition, and both flags are true before the check; its
frame is that phase switch followed by the check; the host at the start of the
battle has its local flag true and ship index 10. -/
theorem C16_transition_needs_both_flags_witness :
    ((Side.Host.phaseStep hostJoinerFirst idleFrame).1.currentPhase = Phase.Preparing ∧
      (endOfFrame (Side.Host.phaseStep hostJoinerFirst idleFrame)).1.currentPhase =
        Phase.Transition ∧
      Side.Host.localDone (Side.Host.phaseStep hostJoinerFirst idleFrame).1 = true ∧
      Side.Host.remoteDone (Side.Host.phaseStep hostJoinerFirst idleFrame).1 = true) ∧
    (hostJoinerFirst.currentPhase = Phase.Preparing ∧
      (step Side.Host hostJoinerFirst (Event.Frame idleFrame)).1.currentPhase =
        Phase.Transition ∧
      ∃ input, Event.Frame idleFrame = Event.Frame input ∧
        step Side.Host hostJoinerFirst (Event.Frame idleFrame) =
          endOfFrame (Side.Host.phaseStep hostJoinerFirst input) ∧
        (Side.Host.phaseStep hostJoinerFirst input).1.currentPhase = Phase.Preparing ∧
        Side.Host.localDone (Side.Host.phaseStep hostJoinerFirst input).1 = true ∧
        Side.Host.remoteDone (Side.Host.phaseStep hostJoinerFirst input).1 = true ∧
        Side.Host.remoteDone hostJoinerFirst = true) ∧
    (Reachable Side.Host battleHost ∧ Side.Host.localDone battleHost = true ∧
      battleHost.currentShipIndex = 10) :=
  ⟨⟨by decide!, by decide!,
      (C16_transition_needs_both_flags Side.Host).1
        (Side.Host.phaseStep hostJoinerFirst idleFrame) (by decide!) (by decide!)⟩,
    ⟨by decide!, by decide!,
      (C16_transition_needs_both_flags Side.Host).2.1 hostJoinerFirst
        (Event.Frame idleFrame) (by decide!) (by decide!)⟩,
    ⟨reachable_run Side.Host hostToBattle _ Reachable.init, by decide!,
      ((C16_transition_needs_both_flags Side.Host).2.2 battleHost
        (reachable_run Side.Host hostToBattle _ Reachable.init) (by decide!)).1⟩⟩

/-- C19: in every reachable state of host or joiner the outcome is not None if
and only if the phase is Finished; once the outcome is Victory or Defeat no
later sequence of steps changes it; and `enemyHitCount` never exceeds 20. -/
theorem C19_single_outcome (side : Side) (s : Session) (hr : Reachable side s) :
    (s.outcome ≠ GameResult.None ↔ s.currentPhase = Phase.Finished) ∧
    (s.outcome ≠ GameResult.None →
      ∀ events : List Event, (run side s events).outcome = s.outcome) ∧
    s.enemyHitCount ≤ 20 := by
  obtain ⟨h1, _, h3⟩ := reachable_outcome_inv side s hr
  refine ⟨h1, ?_, h3⟩
  intro hne events
  exact run_outcome_of_finished side events s (h1.mp hne)

/-- C19 at a concrete input: the defeated joiner is reachable, its outcome is
Defeat, and it stays Defeat when a frame and any packet follow. -/
theorem C19_single_outcome_witness :
    Reachable Side.Joiner defeatedJoiner ∧ defeatedJoiner.outcome = GameResult.Defeat ∧
    (run Side.Joiner defeatedJoiner
      [Event.Frame idleFrame,
       Event.Receive (Message.bytes (Message.CellUpdate 1 1 CellState.Hit))]).outcome =
      defeatedJoiner.outcome ∧
    defeatedJoiner.enemyHitCount ≤ 20 :=
  ⟨reachable_run Side.Joiner _ _ (reachable_run Side.Joiner joinerToBattle _ Reachable.init),
    by decide!,
    (C19_single_outcome Side.Joiner defeatedJoiner
      (reachable_run Side.Joiner _ _
        (reachable_run Side.Joiner joinerToBattle _ Reachable.init))).2.1 (by decide!) _,
    (C19_single_outcome Side.Joiner defeatedJoiner
      (reachable_run Side.Joiner _ _
        (reachable_run Side.Joiner joinerToBattle _ Reachable.init))).2.2⟩

/-! ## Hit counting and the end-to-end scenario: the specification's claims -/

/-- C11: on host and joiner, handling a `CellUpdate(x, y, Hit)` in a state whose
opponent-view cell `(x, y)` is already Hit leaves `enemyHitCount` unchanged; and
in every state, applying the same `CellUpdate(x, y, Hit)` twice in a row yields
the same `enemyHitCount` as applying it once. -/
theorem C11_hit_counting_idempotent
    (side : Side) (s : Session) (data : List Byte) (x y : Nat)
    (hupd : IsCellUpdate data x y CellState.Hit) :
    (x < 10 → y < 10 → s.enemyGrid (cellFin x y) = CellState.Hit →
      (receive side s data).1.enemyHitCount = s.enemyHitCount) ∧
    (receive side (receive side s data).1 data).1.enemyHitCount =
      (receive side s data).1.enemyHitCount := by
  constructor
  · intro hx hy hhit
    rw [receive_cellUpdate side s data x y _ hupd]
    exact onCellUpdate_landed_of_hit _ s _ _ _ (insideGrid_of_lt x y hx hy) hhit
  · rw [receive_cellUpdate side _ data x y _ hupd, receive_cellUpdate side s data x y _ hupd]
    exact onCellUpdate_twice _ s _ _

/-- C11 at a concrete input: the host at the start of the battle, whose turn it
is, applies `CellUpdate(3, 4, Hit)`; the first application counts one hit, the
replay counts none. -/
theorem C11_hit_counting_idempotent_witness :
    IsCellUpdate (Message.bytes (Message.CellUpdate 3 4 CellState.Hit)) 3 4 CellState.Hit ∧
    (receive Side.Host battleHost
      (Message.bytes (Message.CellUpdate 3 4 CellState.Hit))).1.enemyHitCount = 1 ∧
    (receive Side.Host
      (receive Side.Host battleHost (Message.bytes (Message.CellUpdate 3 4 CellState.Hit))).1
      (Message.bytes (Message.CellUpdate 3 4 CellState.Hit))).1.enemyHitCount =
      (receive Side.Host battleHost
        (Message.bytes (Message.CellUpdate 3 4 CellState.Hit))).1.enemyHitCount :=
  ⟨by decide, by decide!,
    (C11_hit_counting_idempotent Side.Host battleHost
      (Message.bytes (Message.CellUpdate 3 4 CellState.Hit)) 3 4 (by decide)).2⟩

/-- C17: the end-to-end scenario. On the empty host grid the click on (0,0)
places the length-4 horizontal ship: cells (0,0)..(3,0) hold Ship, all others
stay Empty, and the indices 0,1,2,3 are recorded. With the host in Battle and
turn = Joiner, `CellRequest(0,0)` resolves Hit: `hittedShipCount` is 1, the
output is `CellUpdate(0,0,Hit)` and the turn stays with the joiner. The next
`CellRequest(5,5)` resolves Miss: the output is `CellUpdate(5,5,Miss)` followed
by `TurnUpdate(0)`, and the turn is the host's. -/
theorem C17_end_to_end_scenario :
    ((initialSession Side.Host).playerGrid = emptyGrid ∧
      (∀ k : Fin 100, scenarioPlaced.playerGrid k =
        if k.val < 4 then CellState.Ship else CellState.Empty) ∧
      scenarioPlaced.shipLocations = [0, 1, 2, 3]) ∧
    (scenarioBattle.currentPhase = Phase.Battle ∧
      scenarioBattle.currentTurn = Side.Joiner.identity ∧
      scenarioBattle.hittedShipCount = 0) ∧
    ((receive Side.Host scenarioBattle (Message.bytes (Message.CellRequest 0 0))).2 =
        [Message.CellUpdate 0 0 CellState.Hit] ∧
      (receive Side.Host scenarioBattle
        (Message.bytes (Message.CellRequest 0 0))).1.playerGrid 0 = CellState.Hit ∧
      (receive Side.Host scenarioBattle
        (Message.bytes (Message.CellRequest 0 0))).1.hittedShipCount = 1 ∧
      (receive Side.Host scenarioBattle
        (Message.bytes (Message.CellRequest 0 0))).1.currentTurn = Side.Joiner.identity) ∧
    ((receive Side.Host
        (receive Side.Host scenarioBattle (Message.bytes (Message.CellRequest 0 0))).1
        (Message.bytes (Message.CellRequest 5 5))).2 =
        [Message.CellUpdate 5 5 CellState.Miss, Message.TurnUpdate 0] ∧
      (receive Side.Host
        (receive Side.Host scenarioBattle (Message.bytes (Message.CellRequest 0 0))).1
        (Message.bytes (Message.CellRequest 5 5))).1.playerGrid 55 = CellState.Miss ∧
      (receive Side.Host
        (receive Side.Host scenarioBattle (Message.bytes (Message.CellRequest 0 0))).1
        (Message.bytes (Message.CellRequest 5 5))).1.currentTurn = Side.Host.identity) :=
  ⟨⟨rfl, by decide!, by decide!⟩, by decide!,
    ⟨rfl, by decide!, by decide!, by decide!⟩,
    ⟨rfl, by decide!, by decide!⟩⟩

/-! ## Placement bookkeeping: the specification's claims -/

/-- C18: starting from an empty own grid, an empty location list and the
fleet of `CreateFleet` with no ship placed, after any sequence of frames of
host or joiner (placement attempts at any cell, with any orientation toggles)
cell `k` is in the location list if and only if it holds Ship, the list has no
duplicates and holds indices below 100; and once the ship index has passed all
ten ships the list holds exactly 20 indices, the win threshold. -/
theorem C18_placement_keeps_list_in_step
    (side : Side) (s : Session) (inputs : List FrameInput)
    (hgrid : s.playerGrid = emptyGrid) (hlocs : s.shipLocations = [])
    (hships : s.ships = CreateFleet) (hidx : s.currentShipIndex = 0) :
    (∀ k : Fin 100, k.val ∈ (run side s (inputs.map Event.Frame)).shipLocations ↔
      (run side s (inputs.map Event.Frame)).playerGrid k = CellState.Ship) ∧
    (run side s (inputs.map Event.Frame)).shipLocations.Nodup ∧
    (∀ i ∈ (run side s (inputs.map Event.Frame)).shipLocations, i < 100) ∧
    ((run side s (inputs.map Event.Frame)).currentShipIndex = 10 →
      (run side s (inputs.map Event.Frame)).shipLocations.length = 20) := by
  have hinv := run_frames_inv side inputs s (placementInv_start s hgrid hlocs hships hidx)
  refine ⟨hinv.1, hinv.2.2.1, hinv.2.1, ?_⟩
  intro h10
  rw [h10] at hinv
  exact placementInv_all_placed _ _ _ hinv

/-- C18 at a concrete input: the joiner places the default fleet with ten
clicks; its ship index is then 10 and its location list holds 20 indices. -/
theorem C18_placement_keeps_list_in_step_witness :
    ((initialSession Side.Joiner).playerGrid = emptyGrid ∧
      (initialSession Side.Joiner).shipLocations = [] ∧
      (initialSession Side.Joiner).ships = CreateFleet ∧
      (initialSession Side.Joiner).currentShipIndex = 0) ∧
    (run Side.Joiner (initialSession Side.Joiner)
      (fleetClicks.map Event.Frame)).currentShipIndex = 10 ∧
    (run Side.Joiner (initialSession Side.Joiner)
      (fleetClicks.map Event.Frame)).shipLocations.length = 20 ∧
    (run Side.Joiner (initialSession Side.Joiner)
      (fleetClicks.map Event.Frame)).shipLocations.Nodup :=
  ⟨⟨rfl, rfl, rfl, rfl⟩, by decide!,
    (C18_placement_keeps_list_in_step Side.Joiner (initialSession Side.Joiner) fleetClicks
      rfl rfl rfl rfl).2.2.2 (by decide!),
    (C18_placement_keeps_list_in_step Side.Joiner (initialSession Side.Joiner) fleetClicks
      rfl rfl rfl rfl).2.1⟩

/-! ## Cell transitions: the specification's claims -/

/-- C13 as stated fails. The host whose opponent-view cell 0 holds Hit is
reachable, and handling `CellUpdate(0,0,Miss)` changes that cell to Miss,
handling `CellUpdate(0,0,Empty)` returns it to Empty. The joiner that placed
its first ship is reachable, and handling the host's snapshot of an empty grid
returns own-grid cell 0 from Ship to Empty. -/
theorem C13_counterexample_cells_rewritten :
    (Reachable Side.Host hostSawHit ∧ hostSawHit.enemyGrid 0 = CellState.Hit ∧
      (step Side.Host hostSawHit
        (Event.Receive (Message.bytes (Message.CellUpdate 0 0 CellState.Miss)))).1.enemyGrid 0 =
          CellState.Miss ∧
      (step Side.Host hostSawHit
        (Event.Receive (Message.bytes (Message.CellUpdate 0 0 CellState.Empty)))).1.enemyGrid 0 =
          CellState.Empty) ∧
    (Reachable Side.Joiner joinerPlacedFirst ∧
      joinerPlacedFirst.playerGrid 0 = CellState.Ship ∧
      (step Side.Joiner joinerPlacedFirst
        (Event.Receive (Message.bytes (Message.GridSnapshot 10 10 emptyGrid)))).1.playerGrid 0 =
          CellState.Empty) :=
  ⟨⟨reachable_run Side.Host _ _ (reachable_run Side.Host hostToBattle _ Reachable.init),
      by decide!, by decide!, by decide!⟩,
    ⟨reachable_run Side.Joiner _ _ Reachable.init, by decide!, by decide!⟩⟩

/-- C13 (amended): what each step of host or joiner does to the cells. A
frame in Preparing (a placement attempt) changes an own-grid cell only from a
value other than Ship to Ship and changes no opponent-view cell. A frame in a
later phase changes no own-grid cell; it leaves the opponent-view grid and
`resetGrid` alone, or, in Battle with `resetGrid` false, clears the
opponent-view grid to Empty and sets `resetGrid`. The reset happens once: after
a state with `resetGrid` set, whatever events follow, the flag stays set and no
frame changes the opponent-view grid. A `CellRequest` changes an own-grid cell
only to Hit or Miss and changes no opponent-view cell. A `CellUpdate` changes a
cell of either grid only to the byte it carries. A `GridSnapshot` changes no
opponent-view cell and an own-grid cell only to the byte it carries for that
cell, and nothing on the host. Every other packet, a connect and a disconnect
change no cell. -/
theorem C13_cell_changes (side : Side) (s : Session) :
    (∀ input : FrameInput, s.currentPhase = Phase.Preparing →
      (∀ k : Fin 100,
        (step side s (Event.Frame input)).1.playerGrid k = s.playerGrid k ∨
        (s.playerGrid k ≠ CellState.Ship ∧
          (step side s (Event.Frame input)).1.playerGrid k = CellState.Ship)) ∧
      (step side s (Event.Frame input)).1.enemyGrid = s.enemyGrid) ∧
    (∀ input : FrameInput, s.currentPhase ≠ Phase.Preparing →
      (step side s (Event.Frame input)).1.playerGrid = s.playerGrid ∧
      (((step side s (Event.Frame input)).1.enemyGrid = s.enemyGrid ∧
          (step side s (Event.Frame input)).1.resetGrid = s.resetGrid) ∨
        (s.currentPhase = Phase.Battle ∧ s.resetGrid = false ∧
          (∀ k : Fin 100,
            (step side s (Event.Frame input)).1.enemyGrid k = CellState.Empty) ∧
          (step side s (Event.Frame input)).1.resetGrid = true))) ∧
    (s.resetGrid = true → ∀ (events : List Event) (input : FrameInput),
      (run side s events).resetGrid = true ∧
      (step side (run side s events) (Event.Frame input)).1.enemyGrid =
        (run side s events).enemyGrid) ∧
    (∀ e : Event, (e = Event.Connect ∨ ∃ samePeer, e = Event.Disconnect samePeer) →
      (step side s e).1.playerGrid = s.playerGrid ∧
      (step side s e).1.enemyGrid = s.enemyGrid) ∧
    (∀ data : List Byte,
      (byteAt data 0 = MessageType.CellRequest →
        (∀ k : Fin 100,
          (step side s (Event.Receive data)).1.playerGrid k = s.playerGrid k ∨
          (step side s (Event.Receive data)).1.playerGrid k = CellState.Hit ∨
          (step side s (Event.Receive data)).1.playerGrid k = CellState.Miss) ∧
        (step side s (Event.Receive data)).1.enemyGrid = s.enemyGrid) ∧
      (byteAt data 0 = MessageType.CellUpdate →
        ∀ k : Fin 100,
          ((step side s (Event.Receive data)).1.playerGrid k = s.playerGrid k ∨
            (step side s (Event.Receive data)).1.playerGrid k = ⟨byteAt data 5⟩) ∧
          ((step side s (Event.Receive data)).1.enemyGrid k = s.enemyGrid k ∨
            (step side s (Event.Receive data)).1.enemyGrid k = ⟨byteAt data 5⟩)) ∧
      (byteAt data 0 = MessageType.GridSnapshot →
        (∀ k : Fin 100,
          (step side s (Event.Receive data)).1.playerGrid k = s.playerGrid k ∨
          (step side s (Event.Receive data)).1.playerGrid k = ⟨byteAt data (5 + k.val)⟩) ∧
        (side = Side.Host → (step side s (Event.Receive data)).1.playerGrid = s.playerGrid) ∧
        (step side s (Event.Receive data)).1.enemyGrid = s.enemyGrid) ∧
      (byteAt data 0 ≠ MessageType.CellRequest → byteAt data 0 ≠ MessageType.CellUpdate →
        byteAt data 0 ≠ MessageType.GridSnapshot →
        (step side s (Event.Receive data)).1.playerGrid = s.playerGrid ∧
        (step side s (Event.Receive data)).1.enemyGrid = s.enemyGrid)) :=
  ⟨fun input hp => step_frame_cells side s input hp,
    fun input hp => step_frame_cells_later side s input hp,
    fun hr events input =>
      ⟨run_resetGrid_stays side events s hr,
        step_frame_enemyGrid_of_reset side _ input (run_resetGrid_stays side events s hr)⟩,
    fun e he => step_connect_cells side s e he,
    fun data => step_receive_cells side s data⟩

/-- C13 (amended) at concrete inputs: the joiner's first placement changes
own-grid cell 0 from Empty to Ship; the host's handling of `CellRequest(0,0)`
at the start of the battle leaves its opponent view alone; the host's first
frame in Battle sets `resetGrid`, and after it a received `CellUpdate(0,0,Hit)`
followed by a frame leaves the flag set and opponent-view cell 0 Hit. -/
theorem C13_cell_changes_witness :
    ((initialSession Side.Joiner).currentPhase = Phase.Preparing ∧
      ((step Side.Joiner (initialSession Side.Joiner)
          (Event.Frame (clickAt 0 0))).1.playerGrid 0 =
            (initialSession Side.Joiner).playerGrid 0 ∨
        ((initialSession Side.Joiner).playerGrid 0 ≠ CellState.Ship ∧
          (step Side.Joiner (initialSession Side.Joiner)
            (Event.Frame (clickAt 0 0))).1.playerGrid 0 = CellState.Ship))) ∧
    (byteAt (Message.bytes (Message.CellRequest 0 0)) 0 = MessageType.CellRequest ∧
      (step Side.Host battleHost
        (Event.Receive (Message.bytes (Message.CellRequest 0 0)))).1.enemyGrid =
          battleHost.enemyGrid) ∧
    (battleHost.currentPhase = Phase.Battle ∧ battleHost.resetGrid = false ∧
      (step Side.Host battleHost (Event.Frame idleFrame)).1.resetGrid = true ∧
      (run Side.Host (step Side.Host battleHost (Event.Frame idleFrame)).1
        [Event.Receive (Message.bytes (Message.CellUpdate 0 0 CellState.Hit))]).enemyGrid 0 =
          CellState.Hit ∧
      (step Side.Host
        (run Side.Host (step Side.Host battleHost (Event.Frame idleFrame)).1
          [Event.Receive (Message.bytes (Message.CellUpdate 0 0 CellState.Hit))])
        (Event.Frame idleFrame)).1.enemyGrid =
        (run Side.Host (step Side.Host battleHost (Event.Frame idleFrame)).1
          [Event.Receive (Message.bytes (Message.CellUpdate 0 0 CellState.Hit))]).enemyGrid) :=
  ⟨⟨by decide,
      ((C13_cell_changes Side.Joiner (initialSession Side.Joiner)).1 (clickAt 0 0)
        (by decide)).1 0⟩,
    ⟨by decide,
      (((C13_cell_changes Side.Host battleHost).2.2.2.2
        (Message.bytes (Message.CellRequest 0 0))).1 (by decide)).2⟩,
    ⟨by decide!, by decide!, by decide!, by decide!,
      ((C13_cell_changes Side.Host
          (step Side.Host battleHost (Event.Frame idleFrame)).1).2.2.1 (by decide!)
        [Event.Receive (Message.bytes (Message.CellUpdate 0 0 CellState.Hit))] idleFrame).2⟩⟩

end AmiralBatti
